import Mathlib

/-!
# sepatui: the SEPA document mapper and the interactive session

A shallow embedding of `sepa.go` (the pain.001.001.03 mapper) and of the
`Update` function of `main.go` (the Bubble Tea session), with the properties
of both proved over it.

Conventions of the embedding:

* a Go `string` is its sequence of bytes (`GoString`); a literal is written
  `str "..."`, the UTF-8 encoding of the text;
* a Go `int` is an `Int`; no arithmetic in this program comes near 2^63;
* a Go `error` is `Option GoString`: `none` is `nil`, `some e` an error whose
  `Error()` text is `e`;
* a run-time panic (a slice or index out of range) is the result `none` of
  a function returning `Option`;
* the library functions the program calls (`time.Parse`, `Time.Format`,
  `key.Matches`, `table.Model.Update`, `fmt.Sprintf`) are embedded from the
  library sources, restricted to the arguments the program passes.
-/

namespace Sepatui

/-! ## Strings -/

/-- A Go string: a sequence of bytes. -/
abbrev GoString := List UInt8

/-- The Go string literal with the given text (UTF-8 encoded). -/
def str (s : String) : GoString := s.data.flatMap String.utf8EncodeChar

/-- Slice `s[:hi]` of a Go string: panics unless `0 ≤ hi ≤ len(s)`. -/
def sliceTo (s : GoString) (hi : Int) : Option GoString :=
  if 0 ≤ hi ∧ hi ≤ (s.length : Int) then some (s.take hi.toNat) else none

/-! ## sepa.go: the decoded document -/

structure PartyInfo where
  Name : GoString
  deriving DecidableEq, Repr

structure ServiceLevel where
  Code : GoString
  deriving DecidableEq, Repr

structure CategoryPurpose where
  Code : GoString
  deriving DecidableEq, Repr

structure PaymentTypeInfo where
  ServiceLevel : ServiceLevel
  CategoryPurpose : CategoryPurpose
  deriving DecidableEq, Repr

structure AccountID where
  IBAN : GoString
  deriving DecidableEq, Repr

structure Account where
  ID : AccountID
  Currency : GoString
  deriving DecidableEq, Repr

structure FinInstnID where
  BIC : GoString
  deriving DecidableEq, Repr

structure FinancialInstitution where
  FinInstnID : FinInstnID
  deriving DecidableEq, Repr

structure PaymentID where
  EndToEndID : GoString
  deriving DecidableEq, Repr

structure InstructedAmount where
  Currency : GoString
  Value : GoString
  deriving DecidableEq, Repr

structure Amount where
  InstructedAmount : InstructedAmount
  deriving DecidableEq, Repr

structure CodeOrProprietary where
  Code : GoString
  deriving DecidableEq, Repr

structure RefType where
  CodeOrProprietary : CodeOrProprietary
  Issuer : GoString
  deriving DecidableEq, Repr

structure CreditorRefInfo where
  Tp : RefType
  Reference : GoString
  deriving DecidableEq, Repr

structure StructuredRemittance where
  CreditorRefInfo : CreditorRefInfo
  deriving DecidableEq, Repr

structure RemittanceInfo where
  Structured : StructuredRemittance
  deriving DecidableEq, Repr

structure CreditTransferTxInfo where
  PaymentID : PaymentID
  Amount : Amount
  CreditorAgent : FinancialInstitution
  Creditor : PartyInfo
  CreditorAccount : Account
  RemittanceInfo : RemittanceInfo
  deriving DecidableEq, Repr

structure PaymentInfo where
  PaymentInfoID : GoString
  PaymentMethod : GoString
  BatchBooking : GoString
  NumberOfTxs : GoString
  ControlSum : GoString
  PaymentTypeInfo : PaymentTypeInfo
  RequestedExecDate : GoString
  Debtor : PartyInfo
  DebtorAccount : Account
  DebtorAgent : FinancialInstitution
  ChargeBearer : GoString
  CreditTransferTxInfo : CreditTransferTxInfo
  deriving DecidableEq, Repr

structure GroupHeader where
  MessageID : GoString
  CreationDateTime : GoString
  NumberOfTxs : GoString
  ControlSum : GoString
  InitiatingParty : PartyInfo
  deriving DecidableEq, Repr

structure CustomerCreditTransfer where
  GroupHeader : GroupHeader
  PaymentInfo : PaymentInfo
  deriving DecidableEq, Repr

/-- The decode target of `xml.Unmarshal` (the `XMLName` field carries no leaf
and is not read by the mapper). -/
structure Document where
  CustomerCreditTransfer : CustomerCreditTransfer
  deriving DecidableEq, Repr

structure SEPAField where
  Category : GoString
  Field : GoString
  Value : GoString
  deriving DecidableEq, Repr

structure SEPAData where
  Fields : List SEPAField
  deriving DecidableEq, Repr

/-- The zero value of `Document` (what `var doc Document` holds before
decoding, and what decoding leaves for every element that is absent). -/
def zeroDocument : Document :=
  { CustomerCreditTransfer :=
    { GroupHeader :=
      { MessageID := [], CreationDateTime := [], NumberOfTxs := [], ControlSum := [],
        InitiatingParty := { Name := [] } }
      PaymentInfo :=
      { PaymentInfoID := [], PaymentMethod := [], BatchBooking := [], NumberOfTxs := [],
        ControlSum := []
        PaymentTypeInfo := { ServiceLevel := { Code := [] }, CategoryPurpose := { Code := [] } }
        RequestedExecDate := []
        Debtor := { Name := [] }
        DebtorAccount := { ID := { IBAN := [] }, Currency := [] }
        DebtorAgent := { FinInstnID := { BIC := [] } }
        ChargeBearer := []
        CreditTransferTxInfo :=
        { PaymentID := { EndToEndID := [] }
          Amount := { InstructedAmount := { Currency := [], Value := [] } }
          CreditorAgent := { FinInstnID := { BIC := [] } }
          Creditor := { Name := [] }
          CreditorAccount := { ID := { IBAN := [] }, Currency := [] }
          RemittanceInfo :=
          { Structured := { CreditorRefInfo :=
            { Tp := { CodeOrProprietary := { Code := [] }, Issuer := [] }
              Reference := [] } } } } } } }

/-! ## Package `time`: `Parse` and `Format` for the two layouts of `formatDateTime` -/

/-- The pieces a layout string is cut into by `nextStdChunk`: literal text and
the reference-time elements that occur in `"2006-01-02T15:04:05"` and
`"2006-01-02 15:04:05"`. -/
inductive Chunk where
  | lit (text : GoString)
  | stdLongYear
  | stdZeroMonth
  | stdZeroDay
  | stdHour
  | stdZeroMinute
  | stdZeroSecond
  deriving DecidableEq, Repr

/-- The layout `"2006-01-02T15:04:05"`, cut into chunks. -/
def parseLayout : List Chunk :=
  [.stdLongYear, .lit (str "-"), .stdZeroMonth, .lit (str "-"), .stdZeroDay, .lit (str "T"),
   .stdHour, .lit (str ":"), .stdZeroMinute, .lit (str ":"), .stdZeroSecond]

/-- The layout `"2006-01-02 15:04:05"`, cut into chunks. -/
def formatLayout : List Chunk :=
  [.stdLongYear, .lit (str "-"), .stdZeroMonth, .lit (str "-"), .stdZeroDay, .lit (str " "),
   .stdHour, .lit (str ":"), .stdZeroMinute, .lit (str ":"), .stdZeroSecond]

/-- `isDigit(s, i)`: whether `s[i]` is in range and is a decimal digit. -/
def isDigit (s : GoString) (i : Nat) : Bool :=
  match s.get? i with
  | none => false
  | some c => 48 ≤ c.toNat && c.toNat ≤ 57

/-- `commaOrPeriod(b)`. -/
def commaOrPeriod (b : UInt8) : Bool := b.toNat = 46 || b.toNat = 44

/-- `cutspace(s)`: `s` without its leading spaces. -/
def cutspace (s : GoString) : GoString := s.dropWhile (fun c => c.toNat = 32)

/-- The loop of `skip`, with the number of remaining iterations bounded by
`fuel` (every iteration shortens `pfx`). -/
def skipLoop : Nat → GoString → GoString → Option GoString
  | _, value, [] => some value
  | 0, _, _ :: _ => none
  | fuel + 1, value, p :: ps =>
    if p.toNat = 32 then
      match value with
      | v :: _ => if v.toNat ≠ 32 then none else skipLoop fuel (cutspace value) (cutspace (p :: ps))
      | [] => skipLoop fuel (cutspace value) (cutspace (p :: ps))
    else
      match value with
      | [] => none
      | v :: vs => if v ≠ p then none else skipLoop fuel vs ps

/-- `skip(value, prefix)`: remove the literal `pfx` from the front of `value`
(a run of spaces in `pfx` matches any run of spaces); `none` is `errBad`. -/
def skip (value pfx : GoString) : Option GoString := skipLoop pfx.length value pfx

/-- `getnum(s, fixed)`: a one- or two-digit number at the front of `s`; with
`fixed` set two digits are required. -/
def getnum (s : GoString) (fixed : Bool) : Option (Int × GoString) :=
  if !isDigit s 0 then none
  else if !isDigit s 1 then
    if fixed then none
    else match s with
      | c :: rest => some (((c.toNat - 48 : Nat) : Int), rest)
      | [] => none
  else match s with
    | c0 :: c1 :: rest => some ((((c0.toNat - 48) * 10 + (c1.toNat - 48) : Nat) : Int), rest)
    | _ => none

/-- `leadingInt(s)`: the decimal digits at the front of `s` as a number (the
accumulator is `x`), with the rest; fails when the number passes 2^63. -/
def leadingInt (x : Nat) : GoString → Option (Nat × GoString)
  | [] => some (x, [])
  | c :: rest =>
    if c.toNat < 48 ∨ c.toNat > 57 then some (x, c :: rest)
    else if x > 2 ^ 63 / 10 then none
    else if x * 10 + c.toNat - 48 > 2 ^ 63 then none
    else leadingInt (x * 10 + c.toNat - 48) rest

/-- `atoi(s)`: a signed decimal number that makes up all of `s`. -/
def atoi (s : GoString) : Option Int :=
  let neg : Bool := match s with
    | c :: _ => c.toNat = 45
    | [] => false
  let body : GoString := match s with
    | c :: rest => if c.toNat = 45 ∨ c.toNat = 43 then rest else s
    | [] => s
  match leadingInt 0 body with
  | none => none
  | some (q, rem) =>
    if rem.length > 0 then none
    else if neg then some (-(q : Int)) else some (q : Int)

/-- `parseNanoseconds(value, nbytes)`: the fraction `value[1:nbytes]` behind a
comma or period, scaled to nanoseconds. -/
def parseNanoseconds (value : GoString) (nbytes : Nat) : Option Int :=
  match value with
  | [] => none
  | v0 :: _ =>
    if !commaOrPeriod v0 then none
    else
      let nb := if nbytes > 10 then 10 else nbytes
      let v := if nbytes > 10 then value.take 10 else value
      match atoi ((v.take nb).drop 1) with
      | none => none
      | some ns => if ns < 0 then none else some (ns * 10 ^ (10 - nb))

/-- `isLeap(year)`. -/
def isLeap (year : Int) : Bool :=
  Int.tmod year 4 = 0 && (Int.tmod year 100 ≠ 0 || Int.tmod year 400 = 0)

/-- The table `daysBefore`: the days of a non-leap year before each month ends. -/
def daysBefore : List Int := [0, 31, 59, 90, 120, 151, 181, 212, 243, 273, 304, 334, 365]

/-- `daysIn(m, year)` for `1 ≤ m ≤ 12`. -/
def daysIn (m : Int) (year : Int) : Int :=
  if m = 2 ∧ isLeap year then 29
  else daysBefore.getD m.toNat 0 - daysBefore.getD (m.toNat - 1) 0

/-- A `time.Time` in UTC, by its civil fields. `Parse` builds it with `Date`
only from fields it has checked to be in range, where `Date` normalises nothing
and the accessors used by `Format` give the same fields back. -/
structure Time where
  year : Int
  month : Int
  day : Int
  hour : Int
  min : Int
  sec : Int
  nsec : Int
  deriving DecidableEq, Repr

/-- `Date(year, month, day, hour, min, sec, nsec, UTC)` on in-range fields. -/
def Date (year month day hour min sec nsec : Int) : Time :=
  { year := year, month := month, day := day, hour := hour, min := min, sec := sec, nsec := nsec }

/-- The local variables of `parse`: the fields read so far and the input left. -/
structure ParseState where
  year : Int
  month : Int
  day : Int
  hour : Int
  min : Int
  sec : Int
  nsec : Int
  value : GoString
  deriving DecidableEq, Repr

/-- The initial values in `parse`: `month` and `day` start at -1 and are set
to 1 when the layout has no month or day; every other field starts at 0. -/
def ParseState.init (value : GoString) : ParseState :=
  { year := 0, month := -1, day := -1, hour := 0, min := 0, sec := 0, nsec := 0, value := value }

/-- The number of bytes of a fractional second at the front of `value`
(`value[0]` the separator, `value[1]` a digit): the loop
`n := 2; for ; n < len(value) && isDigit(value, n); n++`. -/
def fracLen (value : GoString) : Nat := 2 + ((value.drop 2).takeWhile (fun c => 48 ≤ c.toNat && c.toNat ≤ 57)).length

/-- One turn of the loop of `parse`: consume one chunk of the layout. `none`
is any parse error (`errBad` or a range error). -/
def parseChunk (st : ParseState) : Chunk → Option ParseState
  | .lit text =>
    match skip st.value text with
    | none => none
    | some rest => some { st with value := rest }
  | .stdLongYear =>
    if st.value.length < 4 || !isDigit st.value 0 then none
    else match atoi (st.value.take 4) with
      | none => none
      | some y => some { st with year := y, value := st.value.drop 4 }
  | .stdZeroMonth =>
    match getnum st.value true with
    | none => none
    | some (m, rest) => if m ≤ 0 ∨ 12 < m then none else some { st with month := m, value := rest }
  | .stdZeroDay =>
    match getnum st.value true with
    | none => none
    | some (d, rest) => some { st with day := d, value := rest }
  | .stdHour =>
    match getnum st.value false with
    | none => none
    | some (h, rest) => if h < 0 ∨ 24 ≤ h then none else some { st with hour := h, value := rest }
  | .stdZeroMinute =>
    match getnum st.value true with
    | none => none
    | some (m, rest) => if m < 0 ∨ 60 ≤ m then none else some { st with min := m, value := rest }
  | .stdZeroSecond =>
    match getnum st.value true with
    | none => none
    | some (s, rest) =>
      if s < 0 ∨ 60 ≤ s then none
      else
        -- a fractional second in the input that the layout does not have
        match rest with
        | v0 :: _ :: _ =>
          if commaOrPeriod v0 && isDigit rest 1 then
            match parseNanoseconds rest (fracLen rest) with
            | none => none
            | some ns => some { st with sec := s, nsec := ns, value := rest.drop (fracLen rest) }
          else some { st with sec := s, value := rest }
        | _ => some { st with sec := s, value := rest }

/-- The loop of `parse` over the chunks of the layout. -/
def parseChunks (st : ParseState) : List Chunk → Option ParseState
  | [] => some st
  | c :: cs =>
    match parseChunk st c with
    | none => none
    | some st1 => parseChunks st1 cs

/-- `time.Parse("2006-01-02T15:04:05", value)`: after the layout is used up
nothing of the input may be left, and the day must exist in its month. -/
def Parse (value : GoString) : Option Time :=
  match parseChunks (ParseState.init value) parseLayout with
  | none => none
  | some st =>
    if st.value.length ≠ 0 then none
    else if st.day < 1 ∨ st.day > daysIn st.month st.year then none
    else some (Date st.year st.month st.day st.hour st.min st.sec st.nsec)

/-- The byte of a decimal digit. -/
def digitByte (d : Nat) : UInt8 := UInt8.ofNat (48 + d)

/-- The decimal digits of `u`, most significant first (`fuel` bounds the
number of digits). -/
def utoa : Nat → Nat → GoString → GoString
  | 0, _, acc => acc
  | fuel + 1, u, acc =>
    if u < 10 then digitByte u :: acc else utoa fuel (u / 10) (digitByte (u % 10) :: acc)

/-- `appendInt(b, x, width)`: `x` in decimal, zero-padded to `width`, after a
minus sign when negative; the two- and four-digit cases are the fast paths of
the library. -/
def appendInt (b : GoString) (x : Int) (width : Nat) : GoString :=
  let b1 := if x < 0 then b ++ [45] else b
  let u := x.natAbs
  if width = 2 ∧ u < 100 then
    b1 ++ [digitByte (u / 10), digitByte (u % 10)]
  else if width = 4 ∧ u < 10000 then
    b1 ++ [digitByte (u / 1000), digitByte (u / 100 % 10), digitByte (u / 10 % 10), digitByte (u % 10)]
  else
    let ds := utoa (u + 1) u []
    b1 ++ List.replicate (width - ds.length) 48 ++ ds

/-- One chunk of `Time.Format`. -/
def formatChunk (t : Time) (b : GoString) : Chunk → GoString
  | .lit text => b ++ text
  | .stdLongYear => appendInt b t.year 4
  | .stdZeroMonth => appendInt b t.month 2
  | .stdZeroDay => appendInt b t.day 2
  | .stdHour => appendInt b t.hour 2
  | .stdZeroMinute => appendInt b t.min 2
  | .stdZeroSecond => appendInt b t.sec 2

/-- `t.Format("2006-01-02 15:04:05")`. -/
def Format (t : Time) : GoString := formatLayout.foldl (formatChunk t) []

/-! ## sepa.go: the mapper -/

/-- `formatDateTime` of `sepa.go`. -/
def formatDateTime (dateTime : GoString) : GoString :=
  match Parse dateTime with
  | some t => Format t
  | none => dateTime

/-- `convertToSEPAData` of `sepa.go`: its appends, in order. -/
def convertToSEPAData (doc : Document) : SEPAData :=
  let fields : List SEPAField := []
  -- Group Header
  let fields := fields ++ [SEPAField.mk (str "Group Header") (str "Message ID") (doc.CustomerCreditTransfer.GroupHeader.MessageID)]
  let fields := fields ++ [SEPAField.mk (str "Group Header") (str "Creation Date Time") (formatDateTime doc.CustomerCreditTransfer.GroupHeader.CreationDateTime)]
  let fields := fields ++ [SEPAField.mk (str "Group Header") (str "Number of Transactions") (doc.CustomerCreditTransfer.GroupHeader.NumberOfTxs)]
  let fields := fields ++ [SEPAField.mk (str "Group Header") (str "Control Sum") (doc.CustomerCreditTransfer.GroupHeader.ControlSum)]
  let fields := fields ++ [SEPAField.mk (str "Group Header") (str "Initiating Party") (doc.CustomerCreditTransfer.GroupHeader.InitiatingParty.Name)]
  -- Payment Info
  let pmtInfo := doc.CustomerCreditTransfer.PaymentInfo
  let fields := fields ++ [SEPAField.mk (str "Payment Info") (str "Payment Info ID") (pmtInfo.PaymentInfoID)]
  let fields := fields ++ [SEPAField.mk (str "Payment Info") (str "Payment Method") (pmtInfo.PaymentMethod)]
  let fields := fields ++ [SEPAField.mk (str "Payment Info") (str "Batch Booking") (pmtInfo.BatchBooking)]
  let fields := fields ++ [SEPAField.mk (str "Payment Info") (str "Number of Transactions") (pmtInfo.NumberOfTxs)]
  let fields := fields ++ [SEPAField.mk (str "Payment Info") (str "Control Sum") (pmtInfo.ControlSum)]
  let fields := fields ++ [SEPAField.mk (str "Payment Info") (str "Service Level") (pmtInfo.PaymentTypeInfo.ServiceLevel.Code)]
  let fields := fields ++ [SEPAField.mk (str "Payment Info") (str "Category Purpose") (pmtInfo.PaymentTypeInfo.CategoryPurpose.Code)]
  let fields := fields ++ [SEPAField.mk (str "Payment Info") (str "Requested Execution Date") (pmtInfo.RequestedExecDate)]
  let fields := fields ++ [SEPAField.mk (str "Payment Info") (str "Charge Bearer") (pmtInfo.ChargeBearer)]
  -- Debtor Info
  let fields := fields ++ [SEPAField.mk (str "Debtor") (str "Name") (pmtInfo.Debtor.Name)]
  let fields := fields ++ [SEPAField.mk (str "Debtor") (str "IBAN") (pmtInfo.DebtorAccount.ID.IBAN)]
  let fields := fields ++ [SEPAField.mk (str "Debtor") (str "Currency") (pmtInfo.DebtorAccount.Currency)]
  let fields := fields ++ [SEPAField.mk (str "Debtor") (str "BIC") (pmtInfo.DebtorAgent.FinInstnID.BIC)]
  -- Credit Transfer Transaction Info
  let txInfo := pmtInfo.CreditTransferTxInfo
  let fields := fields ++ [SEPAField.mk (str "Transaction") (str "End to End ID") (txInfo.PaymentID.EndToEndID)]
  let fields := fields ++ [SEPAField.mk (str "Transaction") (str "Amount (" ++ txInfo.Amount.InstructedAmount.Currency ++ str ")") (txInfo.Amount.InstructedAmount.Value)]
  -- Creditor Info
  let fields := fields ++ [SEPAField.mk (str "Creditor") (str "Name") (txInfo.Creditor.Name)]
  let fields := fields ++ [SEPAField.mk (str "Creditor") (str "IBAN") (txInfo.CreditorAccount.ID.IBAN)]
  let fields := fields ++ [SEPAField.mk (str "Creditor") (str "BIC") (txInfo.CreditorAgent.FinInstnID.BIC)]
  -- Remittance Info
  let fields := fields ++ [SEPAField.mk (str "Remittance") (str "Reference Type") (txInfo.RemittanceInfo.Structured.CreditorRefInfo.Tp.CodeOrProprietary.Code)]
  let fields := fields ++ [SEPAField.mk (str "Remittance") (str "Issuer") (txInfo.RemittanceInfo.Structured.CreditorRefInfo.Tp.Issuer)]
  let fields := fields ++ [SEPAField.mk (str "Remittance") (str "Reference") (txInfo.RemittanceInfo.Structured.CreditorRefInfo.Reference)]
  { Fields := fields }

/-- `ParseSEPAFile` of `sepa.go`, over the two library calls it makes:
`readFile` is `os.ReadFile` and `unmarshal` is `xml.Unmarshal` into a fresh
`Document` (each gives its result or the `Error()` text of its error). The
result is the Go pair `(*SEPAData, error)`. -/
def ParseSEPAFile (readFile : GoString → Except GoString GoString)
    (unmarshal : GoString → Except GoString Document) (filepath : GoString) :
    Option SEPAData × Option GoString :=
  match readFile filepath with
  | .error err => (none, some (str "failed to read file: " ++ err))
  | .ok data =>
    match unmarshal data with
    | .error err => (none, some (str "failed to parse XML: " ++ err))
    | .ok doc => (some (convertToSEPAData doc), none)

/-! ## Package `key` (bubbles): bindings -/

/-- A `key.Binding`: the keys it answers to, its help entry, and whether it
has been disabled. -/
structure Binding where
  keys : List GoString
  helpKey : GoString
  helpDesc : GoString
  disabled : Bool
  deriving DecidableEq, Repr

/-- `key.NewBinding(key.WithKeys(ks...), key.WithHelp(k, d))`. -/
def NewBinding (ks : List GoString) (helpKey helpDesc : GoString) : Binding :=
  { keys := ks, helpKey := helpKey, helpDesc := helpDesc, disabled := false }

/-- `Binding.Enabled()`. -/
def Binding.Enabled (b : Binding) : Bool := !b.disabled && !b.keys.isEmpty

/-- `key.Matches(msg, b)`, on the `String()` of the key message. -/
def Matches (k : GoString) (b : Binding) : Bool := b.keys.any (fun v => k = v && b.Enabled)

/-! ## Package `table` (bubbles): the cursor of the table widget -/

/-- `table.KeyMap`. -/
structure TableKeyMap where
  LineUp : Binding
  LineDown : Binding
  PageUp : Binding
  PageDown : Binding
  HalfPageUp : Binding
  HalfPageDown : Binding
  GotoTop : Binding
  GotoBottom : Binding
  deriving DecidableEq, Repr

/-- `table.DefaultKeyMap()`. -/
def DefaultKeyMap : TableKeyMap :=
  { LineUp := NewBinding [str "up", str "k"] (str "↑/k") (str "up")
    LineDown := NewBinding [str "down", str "j"] (str "↓/j") (str "down")
    PageUp := NewBinding [str "b", str "pgup"] (str "b/pgup") (str "page up")
    PageDown := NewBinding [str "f", str "pgdown", str " "] (str "f/pgdn") (str "page down")
    HalfPageUp := NewBinding [str "u", str "ctrl+u"] (str "u") (str "½ page up")
    HalfPageDown := NewBinding [str "d", str "ctrl+d"] (str "d") (str "½ page down")
    GotoTop := NewBinding [str "home", str "g"] (str "g/home") (str "go to start")
    GotoBottom := NewBinding [str "end", str "G"] (str "G/end") (str "go to end") }

/-- The part of `table.Model` that decides the cursor: the rows, the cursor,
the focus flag, the key map and the height of the viewport (the unit of the
page keys). Columns, styles and the scroll offsets only affect rendering. -/
structure Table where
  KeyMap : Option TableKeyMap
  rows : List (List GoString)
  cursor : Int
  focus : Bool
  height : Int
  deriving DecidableEq, Repr

/-- The zero value `table.Model{}`: no rows, no key map, not focused. -/
def Table.zero : Table := { KeyMap := none, rows := [], cursor := 0, focus := false, height := 0 }

/-- `table.New(WithColumns(..), WithRows(rows), WithFocused(true), WithHeight(..))`;
`height` is the viewport height that `WithHeight` leaves (the height asked
for, less the rendered height of the header). -/
def Table.New (rows : List (List GoString)) (height : Int) : Table :=
  { KeyMap := some DefaultKeyMap, rows := rows, cursor := 0, focus := true, height := height }

/-- `table.Model.Cursor()`. -/
def Table.Cursor (t : Table) : Int := t.cursor

/-- `clamp(v, low, high)` of package `table`. -/
def clamp (v low high : Int) : Int := min (max v low) high

/-- `table.Model.MoveUp(n)`. -/
def Table.MoveUp (t : Table) (n : Int) : Table :=
  { t with cursor := clamp (t.cursor - n) 0 ((t.rows.length : Int) - 1) }

/-- `table.Model.MoveDown(n)`. -/
def Table.MoveDown (t : Table) (n : Int) : Table :=
  { t with cursor := clamp (t.cursor + n) 0 ((t.rows.length : Int) - 1) }

/-- Whether a key matches a binding of the table's key map (the zero key
map has no keys and matches nothing). -/
def Table.matches (t : Table) (k : GoString) (sel : TableKeyMap → Binding) : Bool :=
  match t.KeyMap with
  | none => false
  | some km => Matches k (sel km)

/-- The key switch of `table.Model.Update`. -/
def Table.UpdateKey (t : Table) (k : GoString) : Table :=
  if t.matches k (·.LineUp) then t.MoveUp 1
  else if t.matches k (·.LineDown) then t.MoveDown 1
  else if t.matches k (·.PageUp) then t.MoveUp t.height
  else if t.matches k (·.PageDown) then t.MoveDown t.height
  else if t.matches k (·.HalfPageUp) then t.MoveUp (Int.tdiv t.height 2)
  else if t.matches k (·.HalfPageDown) then t.MoveDown (Int.tdiv t.height 2)
  else if t.matches k (·.GotoTop) then t.MoveUp t.cursor
  else if t.matches k (·.GotoBottom) then t.MoveDown (t.rows.length : Int)
  else t

/-! ## main.go: the session -/

/-- The `tea.Msg` values `Update` tells apart: a key message (by its
`String()`), the two messages of `main.go`, and any other message. -/
inductive Msg where
  | key (k : GoString)
  | copyMsg (value : GoString) (success : Bool) (err : Option GoString)
  | clearCopyMsg
  | other
  deriving DecidableEq, Repr

/-- The `tea.Cmd` values `Update` returns: `nil`, `tea.Quit`, the closure
built by `copyToClipboard(value)`, and `tea.Tick(d, fn)` by its duration in
nanoseconds and the message `fn` returns. -/
inductive Cmd where
  | nil
  | Quit
  | copyToClipboard (value : GoString)
  | Tick (d : Int) (fire : Msg)
  deriving DecidableEq, Repr

/-- `time.Second`, in nanoseconds. -/
def Second : Int := 1000000000

/-- The body of the closure `copyToClipboard(value)` returns; `WriteAll` is
`clipboard.WriteAll`. -/
def copyToClipboard (WriteAll : GoString → Option GoString) (value : GoString) : Msg :=
  match WriteAll value with
  | some err => .copyMsg value false (some err)
  | none => .copyMsg value true none

/-- The message a command delivers when the runtime runs it (`tea.Quit`
delivers the runtime's quit message, which `Update` does not tell apart). -/
def Cmd.run (WriteAll : GoString → Option GoString) : Cmd → Option Msg
  | .nil => none
  | .Quit => some .other
  | .copyToClipboard value => some (Sepatui.copyToClipboard WriteAll value)
  | .Tick _ fire => some fire

structure keyMap where
  Up : Binding
  Down : Binding
  Copy : Binding
  Quit : Binding
  Help : Binding
  deriving DecidableEq, Repr

/-- The package variable `keys` of `main.go`. -/
def keys : keyMap :=
  { Up := NewBinding [str "up", str "k"] (str "↑/k") (str "up")
    Down := NewBinding [str "down", str "j"] (str "↓/j") (str "down")
    Copy := NewBinding [str "c", str "ctrl+c"] (str "c") (str "copy value")
    Help := NewBinding [str "?"] (str "?") (str "toggle help")
    Quit := NewBinding [str "q", str "esc"] (str "q/esc") (str "quit") }

/-- The zero value `keyMap{}`. -/
def keyMap.zero : keyMap :=
  let b : Binding := { keys := [], helpKey := [], helpDesc := [], disabled := false }
  { Up := b, Down := b, Copy := b, Quit := b, Help := b }

structure model where
  table : Table
  sepaData : Option SEPAData
  keys : keyMap
  err : Option GoString
  copied : Bool
  copyMsg : GoString
  deriving DecidableEq, Repr

/-- `initialModel` of `main.go`, over the library calls of `ParseSEPAFile`
and the viewport height of the table. `none` is the nil dereference of
`sepaData.Fields` (a parse that returns neither data nor an error). -/
def initialModel (readFile : GoString → Except GoString GoString)
    (unmarshal : GoString → Except GoString Document) (height : Int)
    (filepath : GoString) : Option model :=
  match ParseSEPAFile readFile unmarshal filepath with
  | (_, some err) =>
    some { table := Table.zero, sepaData := none, keys := keys, err := some err,
           copied := false, copyMsg := [] }
  | (none, none) => none
  | (some sepaData, none) =>
    let rows := sepaData.Fields.map (fun field => [field.Category, field.Field, field.Value])
    some { table := Table.New rows height, sepaData := some sepaData, keys := keys, err := none,
           copied := false, copyMsg := [] }

/-- `truncateString` of `main.go`; `none` is the panic of the slice
`s[:length-3]` when its bound is out of range. -/
def truncateString (s : GoString) (length : Int) : Option GoString :=
  if (s.length : Int) ≤ length then some s
  else
    match sliceTo s (length - 3) with
    | none => none
    | some front => some (front ++ str "...")

/-- The text `%v` prints for an `error` value. -/
def fmtError : Option GoString → GoString
  | none => str "<nil>"
  | some e => e

/-- Index expression `xs[i]`: panics unless `0 ≤ i < len(xs)`. -/
def index {α : Type} (xs : List α) (i : Int) : Option α :=
  if 0 ≤ i ∧ i < (xs.length : Int) then xs.get? i.toNat else none

/-- `table.Model.Update(msg)`: only a focused table reacts, and only to key
messages; the command is always `nil`. -/
def Table.Update (t : Table) (msg : Msg) : Table × Cmd :=
  if !t.focus then (t, .nil)
  else
    match msg with
    | .key k => (t.UpdateKey k, .nil)
    | _ => (t, .nil)

/-- The last two lines of `Update`: hand the message to the table. -/
def updateTable (m : model) (msg : Msg) : model × Cmd :=
  let r := m.table.Update msg
  ({ m with table := r.1 }, r.2)

/-- `model.Update` of `main.go`; `none` is a run-time panic. -/
def Update (m : model) (msg : Msg) : Option (model × Cmd) :=
  match msg with
  | .key k =>
    if Matches k m.keys.Quit then some (m, .Quit)
    else if Matches k m.keys.Copy then
      match m.sepaData with
      | some sepaData =>
        if sepaData.Fields.length > 0 then
          let selectedRow := m.table.Cursor
          if selectedRow < (sepaData.Fields.length : Int) then
            match index sepaData.Fields selectedRow with
            | none => none
            | some field => some (m, .copyToClipboard field.Value)
          else some (updateTable m msg)
        else some (updateTable m msg)
      | none => some (updateTable m msg)
    else some (updateTable m msg)
  | .copyMsg value success err =>
    let m1 := { m with copied := true }
    if success then
      match truncateString value 40 with
      | none => none
      | some shown =>
        some ({ m1 with copyMsg := str "Copied: " ++ shown }, .Tick (2 * Second) .clearCopyMsg)
    else
      some ({ m1 with copyMsg := str "Copy failed: " ++ fmtError err }, .Tick (2 * Second) .clearCopyMsg)
  | .clearCopyMsg =>
    some (updateTable { m with copied := false, copyMsg := [] } msg)
  | .other => some (updateTable m msg)

/-- The error screen of `model.View` (the branch `m.err != nil`); `none`
when the model has no error and the table is rendered instead. -/
def ViewError (m : model) : Option GoString :=
  match m.err with
  | some err => some (str "Error: " ++ err ++ str "\n\nPress 'q' to quit.")
  | none => none

/-! ## The leaves of the document and the rows they feed -/

/-- The string leaves of the decoded document, by their XML path. -/
inductive Leaf where
  | MsgId | CreDtTm | GrpHdrNbOfTxs | GrpHdrCtrlSum | InitgPtyNm
  | PmtInfId | PmtMtd | BtchBookg | PmtInfNbOfTxs | PmtInfCtrlSum | SvcLvlCd | CtgyPurpCd
  | ReqdExctnDt | ChrgBr
  | DbtrNm | DbtrAcctIBAN | DbtrAcctCcy | DbtrAgtBIC
  | EndToEndId | InstdAmtCcy | InstdAmt
  | CdtrNm | CdtrAcctIBAN | CdtrAcctCcy | CdtrAgtBIC
  | RmtCd | RmtIssr | RmtRef
  deriving DecidableEq, Repr

/-- The value of a leaf in a document. -/
def Leaf.get (doc : Document) : Leaf → GoString
  | .MsgId => doc.CustomerCreditTransfer.GroupHeader.MessageID
  | .CreDtTm => doc.CustomerCreditTransfer.GroupHeader.CreationDateTime
  | .GrpHdrNbOfTxs => doc.CustomerCreditTransfer.GroupHeader.NumberOfTxs
  | .GrpHdrCtrlSum => doc.CustomerCreditTransfer.GroupHeader.ControlSum
  | .InitgPtyNm => doc.CustomerCreditTransfer.GroupHeader.InitiatingParty.Name
  | .PmtInfId => doc.CustomerCreditTransfer.PaymentInfo.PaymentInfoID
  | .PmtMtd => doc.CustomerCreditTransfer.PaymentInfo.PaymentMethod
  | .BtchBookg => doc.CustomerCreditTransfer.PaymentInfo.BatchBooking
  | .PmtInfNbOfTxs => doc.CustomerCreditTransfer.PaymentInfo.NumberOfTxs
  | .PmtInfCtrlSum => doc.CustomerCreditTransfer.PaymentInfo.ControlSum
  | .SvcLvlCd => doc.CustomerCreditTransfer.PaymentInfo.PaymentTypeInfo.ServiceLevel.Code
  | .CtgyPurpCd => doc.CustomerCreditTransfer.PaymentInfo.PaymentTypeInfo.CategoryPurpose.Code
  | .ReqdExctnDt => doc.CustomerCreditTransfer.PaymentInfo.RequestedExecDate
  | .ChrgBr => doc.CustomerCreditTransfer.PaymentInfo.ChargeBearer
  | .DbtrNm => doc.CustomerCreditTransfer.PaymentInfo.Debtor.Name
  | .DbtrAcctIBAN => doc.CustomerCreditTransfer.PaymentInfo.DebtorAccount.ID.IBAN
  | .DbtrAcctCcy => doc.CustomerCreditTransfer.PaymentInfo.DebtorAccount.Currency
  | .DbtrAgtBIC => doc.CustomerCreditTransfer.PaymentInfo.DebtorAgent.FinInstnID.BIC
  | .EndToEndId => doc.CustomerCreditTransfer.PaymentInfo.CreditTransferTxInfo.PaymentID.EndToEndID
  | .InstdAmtCcy => doc.CustomerCreditTransfer.PaymentInfo.CreditTransferTxInfo.Amount.InstructedAmount.Currency
  | .InstdAmt => doc.CustomerCreditTransfer.PaymentInfo.CreditTransferTxInfo.Amount.InstructedAmount.Value
  | .CdtrNm => doc.CustomerCreditTransfer.PaymentInfo.CreditTransferTxInfo.Creditor.Name
  | .CdtrAcctIBAN => doc.CustomerCreditTransfer.PaymentInfo.CreditTransferTxInfo.CreditorAccount.ID.IBAN
  | .CdtrAcctCcy => doc.CustomerCreditTransfer.PaymentInfo.CreditTransferTxInfo.CreditorAccount.Currency
  | .CdtrAgtBIC => doc.CustomerCreditTransfer.PaymentInfo.CreditTransferTxInfo.CreditorAgent.FinInstnID.BIC
  | .RmtCd => doc.CustomerCreditTransfer.PaymentInfo.CreditTransferTxInfo.RemittanceInfo.Structured.CreditorRefInfo.Tp.CodeOrProprietary.Code
  | .RmtIssr => doc.CustomerCreditTransfer.PaymentInfo.CreditTransferTxInfo.RemittanceInfo.Structured.CreditorRefInfo.Tp.Issuer
  | .RmtRef => doc.CustomerCreditTransfer.PaymentInfo.CreditTransferTxInfo.RemittanceInfo.Structured.CreditorRefInfo.Reference

/-- The document with one leaf replaced by `v`. -/
def Leaf.set (doc : Document) (v : GoString) : Leaf → Document
  | .MsgId => { doc with CustomerCreditTransfer.GroupHeader.MessageID := v }
  | .CreDtTm => { doc with CustomerCreditTransfer.GroupHeader.CreationDateTime := v }
  | .GrpHdrNbOfTxs => { doc with CustomerCreditTransfer.GroupHeader.NumberOfTxs := v }
  | .GrpHdrCtrlSum => { doc with CustomerCreditTransfer.GroupHeader.ControlSum := v }
  | .InitgPtyNm => { doc with CustomerCreditTransfer.GroupHeader.InitiatingParty.Name := v }
  | .PmtInfId => { doc with CustomerCreditTransfer.PaymentInfo.PaymentInfoID := v }
  | .PmtMtd => { doc with CustomerCreditTransfer.PaymentInfo.PaymentMethod := v }
  | .BtchBookg => { doc with CustomerCreditTransfer.PaymentInfo.BatchBooking := v }
  | .PmtInfNbOfTxs => { doc with CustomerCreditTransfer.PaymentInfo.NumberOfTxs := v }
  | .PmtInfCtrlSum => { doc with CustomerCreditTransfer.PaymentInfo.ControlSum := v }
  | .SvcLvlCd => { doc with CustomerCreditTransfer.PaymentInfo.PaymentTypeInfo.ServiceLevel.Code := v }
  | .CtgyPurpCd => { doc with CustomerCreditTransfer.PaymentInfo.PaymentTypeInfo.CategoryPurpose.Code := v }
  | .ReqdExctnDt => { doc with CustomerCreditTransfer.PaymentInfo.RequestedExecDate := v }
  | .ChrgBr => { doc with CustomerCreditTransfer.PaymentInfo.ChargeBearer := v }
  | .DbtrNm => { doc with CustomerCreditTransfer.PaymentInfo.Debtor.Name := v }
  | .DbtrAcctIBAN => { doc with CustomerCreditTransfer.PaymentInfo.DebtorAccount.ID.IBAN := v }
  | .DbtrAcctCcy => { doc with CustomerCreditTransfer.PaymentInfo.DebtorAccount.Currency := v }
  | .DbtrAgtBIC => { doc with CustomerCreditTransfer.PaymentInfo.DebtorAgent.FinInstnID.BIC := v }
  | .EndToEndId => { doc with CustomerCreditTransfer.PaymentInfo.CreditTransferTxInfo.PaymentID.EndToEndID := v }
  | .InstdAmtCcy => { doc with CustomerCreditTransfer.PaymentInfo.CreditTransferTxInfo.Amount.InstructedAmount.Currency := v }
  | .InstdAmt => { doc with CustomerCreditTransfer.PaymentInfo.CreditTransferTxInfo.Amount.InstructedAmount.Value := v }
  | .CdtrNm => { doc with CustomerCreditTransfer.PaymentInfo.CreditTransferTxInfo.Creditor.Name := v }
  | .CdtrAcctIBAN => { doc with CustomerCreditTransfer.PaymentInfo.CreditTransferTxInfo.CreditorAccount.ID.IBAN := v }
  | .CdtrAcctCcy => { doc with CustomerCreditTransfer.PaymentInfo.CreditTransferTxInfo.CreditorAccount.Currency := v }
  | .CdtrAgtBIC => { doc with CustomerCreditTransfer.PaymentInfo.CreditTransferTxInfo.CreditorAgent.FinInstnID.BIC := v }
  | .RmtCd => { doc with CustomerCreditTransfer.PaymentInfo.CreditTransferTxInfo.RemittanceInfo.Structured.CreditorRefInfo.Tp.CodeOrProprietary.Code := v }
  | .RmtIssr => { doc with CustomerCreditTransfer.PaymentInfo.CreditTransferTxInfo.RemittanceInfo.Structured.CreditorRefInfo.Tp.Issuer := v }
  | .RmtRef => { doc with CustomerCreditTransfer.PaymentInfo.CreditTransferTxInfo.RemittanceInfo.Structured.CreditorRefInfo.Reference := v }

/-- The row (counted from 0) whose value a leaf feeds; the currency attribute
of `InstdAmt` and the currency of the creditor account feed no value. -/
def Leaf.valueRow : Leaf → Option Nat
  | .MsgId => some 0 | .CreDtTm => some 1 | .GrpHdrNbOfTxs => some 2 | .GrpHdrCtrlSum => some 3
  | .InitgPtyNm => some 4
  | .PmtInfId => some 5 | .PmtMtd => some 6 | .BtchBookg => some 7 | .PmtInfNbOfTxs => some 8
  | .PmtInfCtrlSum => some 9 | .SvcLvlCd => some 10 | .CtgyPurpCd => some 11
  | .ReqdExctnDt => some 12 | .ChrgBr => some 13
  | .DbtrNm => some 14 | .DbtrAcctIBAN => some 15 | .DbtrAcctCcy => some 16 | .DbtrAgtBIC => some 17
  | .EndToEndId => some 18 | .InstdAmtCcy => none | .InstdAmt => some 19
  | .CdtrNm => some 20 | .CdtrAcctIBAN => some 21 | .CdtrAcctCcy => none | .CdtrAgtBIC => some 22
  | .RmtCd => some 23 | .RmtIssr => some 24 | .RmtRef => some 25

/-- The row whose label a leaf feeds: only the currency attribute of
`InstdAmt` feeds one, that of the Amount row. -/
def Leaf.labelRow : Leaf → Option Nat
  | .InstdAmtCcy => some 19
  | _ => none

/-- The 26 (category, name) pairs of the rows, in order, for the currency
attribute `ccy` of `InstdAmt`. -/
def rowLabels (ccy : GoString) : List (GoString × GoString) :=
  [(str "Group Header", str "Message ID"),
   (str "Group Header", str "Creation Date Time"),
   (str "Group Header", str "Number of Transactions"),
   (str "Group Header", str "Control Sum"),
   (str "Group Header", str "Initiating Party"),
   (str "Payment Info", str "Payment Info ID"),
   (str "Payment Info", str "Payment Method"),
   (str "Payment Info", str "Batch Booking"),
   (str "Payment Info", str "Number of Transactions"),
   (str "Payment Info", str "Control Sum"),
   (str "Payment Info", str "Service Level"),
   (str "Payment Info", str "Category Purpose"),
   (str "Payment Info", str "Requested Execution Date"),
   (str "Payment Info", str "Charge Bearer"),
   (str "Debtor", str "Name"),
   (str "Debtor", str "IBAN"),
   (str "Debtor", str "Currency"),
   (str "Debtor", str "BIC"),
   (str "Transaction", str "End to End ID"),
   (str "Transaction", str "Amount (" ++ ccy ++ str ")"),
   (str "Creditor", str "Name"),
   (str "Creditor", str "IBAN"),
   (str "Creditor", str "BIC"),
   (str "Remittance", str "Reference Type"),
   (str "Remittance", str "Issuer"),
   (str "Remittance", str "Reference")]

/-! ## The forms of a date-time string -/

/-- Whether a byte is a decimal digit. -/
def isDigitByte (c : UInt8) : Bool := 48 ≤ c.toNat && c.toNat ≤ 57

/-- The value of a decimal digit byte. -/
def digitVal (c : UInt8) : Nat := c.toNat - 48

/-- The days of a month of the Gregorian calendar. -/
def daysInMonth (year month : Nat) : Nat :=
  if month = 2 then (if year % 400 = 0 ∨ (year % 4 = 0 ∧ year % 100 ≠ 0) then 29 else 28)
  else if month = 4 ∨ month = 6 ∨ month = 9 ∨ month = 11 then 30
  else 31

/-- A valid calendar date. -/
def validDate (year month day : Nat) : Bool :=
  1 ≤ month && month ≤ 12 && 1 ≤ day && day ≤ daysInMonth year month

/-- A valid calendar date and time of day. -/
def validCivil (year month day hour min sec : Nat) : Bool :=
  validDate year month day && hour < 24 && min < 60 && sec < 60

/-- Whether a string has the exact form `YYYY-MM-DDTHH:MM:SS`: 19 bytes,
digits and separators in their places, denoting a valid calendar date and
time of day. -/
def isDateTime (s : GoString) : Bool :=
  match s with
  | [y1, y2, y3, y4, a, m1, m2, b, d1, d2, t, h1, h2, c, n1, n2, e, s1, s2] =>
    isDigitByte y1 && isDigitByte y2 && isDigitByte y3 && isDigitByte y4 &&
    isDigitByte m1 && isDigitByte m2 && isDigitByte d1 && isDigitByte d2 &&
    isDigitByte h1 && isDigitByte h2 && isDigitByte n1 && isDigitByte n2 &&
    isDigitByte s1 && isDigitByte s2 &&
    a = 45 && b = 45 && t = 84 && c = 58 && e = 58 &&
    validCivil (digitVal y1 * 1000 + digitVal y2 * 100 + digitVal y3 * 10 + digitVal y4)
      (digitVal m1 * 10 + digitVal m2) (digitVal d1 * 10 + digitVal d2)
      (digitVal h1 * 10 + digitVal h2) (digitVal n1 * 10 + digitVal n2)
      (digitVal s1 * 10 + digitVal s2)
  | _ => false

/-- A fractional second as it may follow the seconds: nothing, or a period or
comma followed by one or more digits. -/
def isFraction (f : GoString) : Bool :=
  match f with
  | [] => true
  | sep :: ds => (sep = 46 || sep = 44) && !ds.isEmpty && ds.all isDigitByte

/-- The form `:MM:SS` with a valid minute and second, followed by an optional
fractional second. -/
def isMinSecFrac (r : GoString) : Bool :=
  match r with
  | c :: n1 :: n2 :: e :: s1 :: s2 :: frac =>
    c = 58 && e = 58 && isDigitByte n1 && isDigitByte n2 && isDigitByte s1 && isDigitByte s2 &&
    decide (digitVal n1 * 10 + digitVal n2 < 60) && decide (digitVal s1 * 10 + digitVal s2 < 60) &&
    isFraction frac
  | _ => false

/-- The strings `time.Parse` accepts for the layout `2006-01-02T15:04:05`:
`YYYY-MM-DDTHH:MM:SS` with a valid date and time, where the hour may also be
written with one digit and the seconds may be followed by a fractional second. -/
def isLenientDateTime (s : GoString) : Bool :=
  match s with
  | y1 :: y2 :: y3 :: y4 :: a :: m1 :: m2 :: b :: d1 :: d2 :: t :: h1 :: rest =>
    isDigitByte y1 && isDigitByte y2 && isDigitByte y3 && isDigitByte y4 &&
    isDigitByte m1 && isDigitByte m2 && isDigitByte d1 && isDigitByte d2 && isDigitByte h1 &&
    a = 45 && b = 45 && t = 84 &&
    validDate (digitVal y1 * 1000 + digitVal y2 * 100 + digitVal y3 * 10 + digitVal y4)
      (digitVal m1 * 10 + digitVal m2) (digitVal d1 * 10 + digitVal d2) &&
    (isMinSecFrac rest ||
      (match rest with
       | h2 :: rest2 =>
         isDigitByte h2 && decide (digitVal h1 * 10 + digitVal h2 < 24) && isMinSecFrac rest2
       | [] => false))
  | _ => false

/-! ## Runs of the session -/

/-- The event loop on a sequence of messages: `Update` on each in turn, the
commands dropped; `none` when one of the steps panics. -/
def updates (m : model) : List Msg → Option model
  | [] => some m
  | msg :: rest =>
    match Update m msg with
    | none => none
    | some r => updates r.1 rest

/-- The session state `initialModel` builds for a document with no leaves
(26 rows with empty values, cursor on the first row, viewport of 19 rows). -/
def readyModel : model :=
  { table := Table.New ((convertToSEPAData zeroDocument).Fields.map
      (fun field => [field.Category, field.Field, field.Value])) 19
    sepaData := some (convertToSEPAData zeroDocument)
    keys := keys
    err := none
    copied := false
    copyMsg := [] }

/-! ## main.go: the view -/

/-- `model.View` of `main.go`; `render` is the branch without a parse error
(title, bordered table, notification line and help line, styled by lipgloss). -/
def View (render : model → GoString) (m : model) : GoString :=
  match m.err with
  | some err => str "Error: " ++ err ++ str "\n\nPress 'q' to quit."
  | none => render m

/-! ## The invariant of a running session -/

/-- The invariant of a session that was started on a successful parse: the key
map of `main.go`, no error, field data of 26 fields, a focused table of 26
rows with the default key map, and the cursor on one of the rows. -/
def SessionInv (m : model) : Prop :=
  m.keys = keys ∧ m.err = none ∧ m.sepaData.map (fun d => d.Fields.length) = some 26 ∧
  m.table.rows.length = 26 ∧ m.table.focus = true ∧ m.table.KeyMap = some DefaultKeyMap ∧
  0 ≤ m.table.cursor ∧ m.table.cursor ≤ 25

/-! ## The invariant of every session -/

/-- The invariant of every session: exactly one of the parse error and the
field data is present, and field data has 26 fields. -/
def ParseInv (m : model) : Prop :=
  m.err.isSome = !m.sepaData.isSome ∧
  ∀ d, m.sepaData = some d → d.Fields.length = 26

/-! ## Properties of the mapper -/

theorem get_set (doc : Document) (v : GoString) (l : Leaf) : Leaf.get (Leaf.set doc v l) l = v := by
  cases l <;> rfl

theorem get_set_ne (doc : Document) (v : GoString) (l k : Leaf) (h : k ≠ l) :
    Leaf.get (Leaf.set doc v l) k = Leaf.get doc k := by
  cases l <;> cases k <;> first | rfl | exact absurd rfl h


theorem get_set_ite (doc : Document) (v : GoString) (l k : Leaf) :
    Leaf.get (Leaf.set doc v l) k = if k = l then v else Leaf.get doc k := by
  by_cases h : k = l
  · subst h; simp [get_set]
  · simp [h, get_set_ne doc v l k h]

/-- The fields of the mapper's result, written out. -/
theorem convert_fields (doc : Document) :
    (convertToSEPAData doc).Fields =
      (rowLabels (Leaf.get doc .InstdAmtCcy)).zipWith (fun p v => SEPAField.mk p.1 p.2 v)
        [Leaf.get doc .MsgId, formatDateTime (Leaf.get doc .CreDtTm), Leaf.get doc .GrpHdrNbOfTxs,
         Leaf.get doc .GrpHdrCtrlSum, Leaf.get doc .InitgPtyNm, Leaf.get doc .PmtInfId,
         Leaf.get doc .PmtMtd, Leaf.get doc .BtchBookg, Leaf.get doc .PmtInfNbOfTxs,
         Leaf.get doc .PmtInfCtrlSum, Leaf.get doc .SvcLvlCd, Leaf.get doc .CtgyPurpCd,
         Leaf.get doc .ReqdExctnDt, Leaf.get doc .ChrgBr, Leaf.get doc .DbtrNm,
         Leaf.get doc .DbtrAcctIBAN, Leaf.get doc .DbtrAcctCcy, Leaf.get doc .DbtrAgtBIC,
         Leaf.get doc .EndToEndId, Leaf.get doc .InstdAmt, Leaf.get doc .CdtrNm,
         Leaf.get doc .CdtrAcctIBAN, Leaf.get doc .CdtrAgtBIC, Leaf.get doc .RmtCd,
         Leaf.get doc .RmtIssr, Leaf.get doc .RmtRef] := by
  simp [convertToSEPAData, rowLabels, Leaf.get]

/-- C1 (counterexample): the zero-value document is mapped to 26 rows, not 23. -/
theorem c1_not_23_fields :
    (convertToSEPAData zeroDocument).Fields.length = 26 ∧
    (convertToSEPAData zeroDocument).Fields.length ≠ 23 := by
  decide

/-- C1 (amended): for every document the mapper returns exactly 26 fields whose
(category, name) sequence is the fixed one of `rowLabels`: 5 Group Header, 9
Payment Info, 4 Debtor, 2 Transaction, 3 Creditor and 3 Remittance rows; the
only name that depends on the document is the Amount label, which carries the
currency attribute of `InstdAmt`. -/
theorem c1_convert_fixed_rows (doc : Document) :
    (convertToSEPAData doc).Fields.length = 26 ∧
    (convertToSEPAData doc).Fields.map (fun f => (f.Category, f.Field)) =
      rowLabels doc.CustomerCreditTransfer.PaymentInfo.CreditTransferTxInfo.Amount.InstructedAmount.Currency ∧
    (∀ ccy ccy2 : GoString, ∀ i : Nat, i ≠ 19 → (rowLabels ccy).get? i = (rowLabels ccy2).get? i) ∧
    (rowLabels doc.CustomerCreditTransfer.PaymentInfo.CreditTransferTxInfo.Amount.InstructedAmount.Currency).get? 19 =
      some (str "Transaction", str "Amount (" ++
        doc.CustomerCreditTransfer.PaymentInfo.CreditTransferTxInfo.Amount.InstructedAmount.Currency ++ str ")") := by
  refine ⟨?_, ?_, ?_, ?_⟩
  · simp [convertToSEPAData]
  · simp [convertToSEPAData, rowLabels]
  rotate_left
  · simp [rowLabels]
  intro ccy ccy2 i hi
  unfold rowLabels
  iterate 26 (rcases i with _ | i; · first | rfl | exact absurd rfl hi)
  rfl

/-- Witness of C1: the labels of the zero-value document. -/
theorem c1_convert_fixed_rows_witness :
    (convertToSEPAData zeroDocument).Fields.length = 26 ∧
    (rowLabels (str "EUR")).get? 0 = (rowLabels []).get? 0 :=
  ⟨(c1_convert_fixed_rows zeroDocument).1, (c1_convert_fixed_rows zeroDocument).2.2.1 _ _ 0 (by decide)⟩

/-- C2 (counterexample): the zero-value document does not yield 23 rows with
empty values: it yields 26. -/
theorem c2_zero_document_not_23_rows :
    ¬ ((convertToSEPAData zeroDocument).Fields.length = 23 ∧
       ∀ f ∈ (convertToSEPAData zeroDocument).Fields, f.Value = []) := by
  decide

/-- C2 (amended): the mapper emits 26 rows for every document, and whenever the
leaf feeding the value of row `i` is absent (the empty string) row `i` is still
there and its value is the empty string; this holds for the Creation Date Time
row too, since `formatDateTime` maps the empty string to itself. The zero-value
document yields 26 rows, all with empty values. -/
theorem c2_absent_leaf_empty_value (doc : Document) (l : Leaf) (i : Nat)
    (hrow : l.valueRow = some i) (habsent : Leaf.get doc l = []) :
    (convertToSEPAData doc).Fields.length = 26 ∧
    ((convertToSEPAData doc).Fields.get? i).map (fun f => f.Value) = some [] ∧
    ((convertToSEPAData doc).Fields.get? i).map (fun f => (f.Category, f.Field)) =
      (rowLabels (Leaf.get doc .InstdAmtCcy)).get? i ∧
    formatDateTime [] = [] ∧
    (convertToSEPAData zeroDocument).Fields.map (fun f => f.Value) = List.replicate 26 [] := by
  have hfmt : formatDateTime [] = [] := by decide
  refine ⟨by simp [convertToSEPAData], ?_, ?_, hfmt, by decide⟩
  · rw [convert_fields]
    cases l <;> simp [Leaf.valueRow] at hrow <;> subst hrow <;>
      simp [rowLabels, habsent, hfmt]
  · rw [convert_fields]
    cases l <;> simp [Leaf.valueRow] at hrow <;> subst hrow <;>
      simp [rowLabels]

/-- Witness of C2: the absent creation date of the zero-value document. -/
theorem c2_absent_leaf_empty_value_witness :
    ((convertToSEPAData zeroDocument).Fields.get? 1).map (fun f => f.Value) = some [] :=
  (c2_absent_leaf_empty_value zeroDocument .CreDtTm 1 rfl rfl).2.1


theorem value_at_row (doc : Document) (l : Leaf) (i : Nat) (hrow : l.valueRow = some i)
    (hne : l ≠ .CreDtTm) :
    ((convertToSEPAData doc).Fields.get? i).map (fun f => f.Value) = some (Leaf.get doc l) := by
  rw [convert_fields]
  cases l <;> simp [Leaf.valueRow] at hrow hne <;> subst hrow <;> simp [rowLabels]

theorem row_has_one_leaf (i : Nat) (hi : i < 26) :
    ∃ l : Leaf, l.valueRow = some i ∧ ∀ k : Leaf, k.valueRow = some i → k = l := by
  have key : ∀ l : Leaf, l.valueRow = some i → ∀ k : Leaf, k.valueRow = some i → k = l := by
    intro l hl k hk
    cases l <;> cases k <;> simp only [Leaf.valueRow, Option.some.injEq, reduceCtorEq] at hl hk ⊢ <;> omega
  interval_cases i
  · exact ⟨.MsgId, rfl, key _ rfl⟩
  · exact ⟨.CreDtTm, rfl, key _ rfl⟩
  · exact ⟨.GrpHdrNbOfTxs, rfl, key _ rfl⟩
  · exact ⟨.GrpHdrCtrlSum, rfl, key _ rfl⟩
  · exact ⟨.InitgPtyNm, rfl, key _ rfl⟩
  · exact ⟨.PmtInfId, rfl, key _ rfl⟩
  · exact ⟨.PmtMtd, rfl, key _ rfl⟩
  · exact ⟨.BtchBookg, rfl, key _ rfl⟩
  · exact ⟨.PmtInfNbOfTxs, rfl, key _ rfl⟩
  · exact ⟨.PmtInfCtrlSum, rfl, key _ rfl⟩
  · exact ⟨.SvcLvlCd, rfl, key _ rfl⟩
  · exact ⟨.CtgyPurpCd, rfl, key _ rfl⟩
  · exact ⟨.ReqdExctnDt, rfl, key _ rfl⟩
  · exact ⟨.ChrgBr, rfl, key _ rfl⟩
  · exact ⟨.DbtrNm, rfl, key _ rfl⟩
  · exact ⟨.DbtrAcctIBAN, rfl, key _ rfl⟩
  · exact ⟨.DbtrAcctCcy, rfl, key _ rfl⟩
  · exact ⟨.DbtrAgtBIC, rfl, key _ rfl⟩
  · exact ⟨.EndToEndId, rfl, key _ rfl⟩
  · exact ⟨.InstdAmt, rfl, key _ rfl⟩
  · exact ⟨.CdtrNm, rfl, key _ rfl⟩
  · exact ⟨.CdtrAcctIBAN, rfl, key _ rfl⟩
  · exact ⟨.CdtrAgtBIC, rfl, key _ rfl⟩
  · exact ⟨.RmtCd, rfl, key _ rfl⟩
  · exact ⟨.RmtIssr, rfl, key _ rfl⟩
  · exact ⟨.RmtRef, rfl, key _ rfl⟩

theorem set_leaf_other_rows (doc : Document) (l : Leaf) (v : GoString) (j : Nat)
    (hv : l.valueRow ≠ some j) (hl : l.labelRow ≠ some j) :
    (convertToSEPAData (Leaf.set doc v l)).Fields.get? j = (convertToSEPAData doc).Fields.get? j := by
  rw [convert_fields, convert_fields]
  simp only [get_set_ite, rowLabels, List.zipWith_cons_cons, List.zipWith_nil_left]
  cases l <;> simp only [reduceCtorEq, if_false, if_true] <;>
    simp only [Leaf.valueRow, Leaf.labelRow, ne_eq, Option.some.injEq, not_false_eq_true,
        reduceCtorEq] at hv hl <;>
    (iterate 26 (rcases j with _ | j; · first | exact absurd rfl hv | exact absurd rfl hl | rfl)) <;>
    rfl

theorem set_leaf_own_row (doc : Document) (l : Leaf) (v : GoString) (i : Nat)
    (hrow : l.valueRow = some i) (hne : l ≠ .CreDtTm) :
    (convertToSEPAData (Leaf.set doc v l)).Fields.get? i =
      ((convertToSEPAData doc).Fields.get? i).map (fun f => { f with Value := v }) := by
  rw [convert_fields, convert_fields]
  simp only [get_set_ite, rowLabels, List.zipWith_cons_cons, List.zipWith_nil_left]
  cases l <;> simp [Leaf.valueRow] at hrow hne <;> subst hrow <;> simp

theorem set_currency_label (doc : Document) (v : GoString) :
    (convertToSEPAData (Leaf.set doc v .InstdAmtCcy)).Fields.get? 19 =
      ((convertToSEPAData doc).Fields.get? 19).map
        (fun f => { f with Field := str "Amount (" ++ v ++ str ")" }) := by
  rw [convert_fields, convert_fields]
  simp only [get_set_ite, rowLabels, List.zipWith_cons_cons, List.zipWith_nil_left]
  simp

/-- C3 (counterexample): the rows other than Creation Date Time are 25 in
number, not 22. -/
theorem c3_not_22_other_rows :
    ((convertToSEPAData zeroDocument).Fields.filter
      (fun f => decide (f.Field ≠ str "Creation Date Time"))).length = 25 ∧
    ((convertToSEPAData zeroDocument).Fields.filter
      (fun f => decide (f.Field ≠ str "Creation Date Time"))).length ≠ 22 := by
  decide

/-- C3 (amended): each of the 25 rows other than Creation Date Time carries as
its value exactly the string of its own source leaf, unchanged (the Creation
Date Time row carries `formatDateTime` of its leaf); every row is fed by
exactly one leaf; and replacing one leaf by `v` changes only the row fed by
that leaf: its value becomes `v` with category and name untouched, or, for the
currency attribute of `InstdAmt`, the Amount label becomes `Amount (v)` with
the value untouched. -/
theorem c3_values_copied_verbatim (doc : Document) :
    (∀ (l : Leaf) (i : Nat), l.valueRow = some i → l ≠ .CreDtTm →
      ((convertToSEPAData doc).Fields.get? i).map (fun f => f.Value) = some (Leaf.get doc l)) ∧
    ((convertToSEPAData doc).Fields.get? 1).map (fun f => f.Value) =
      some (formatDateTime (Leaf.get doc .CreDtTm)) ∧
    (∀ i : Nat, i < 26 → ∃ l : Leaf, l.valueRow = some i ∧ ∀ k : Leaf, k.valueRow = some i → k = l) ∧
    (∀ (l : Leaf) (v : GoString) (j : Nat), l.valueRow ≠ some j → l.labelRow ≠ some j →
      (convertToSEPAData (Leaf.set doc v l)).Fields.get? j = (convertToSEPAData doc).Fields.get? j) ∧
    (∀ (l : Leaf) (v : GoString) (i : Nat), l.valueRow = some i → l ≠ .CreDtTm →
      (convertToSEPAData (Leaf.set doc v l)).Fields.get? i =
        ((convertToSEPAData doc).Fields.get? i).map (fun f => { f with Value := v })) ∧
    (∀ v : GoString, (convertToSEPAData (Leaf.set doc v .InstdAmtCcy)).Fields.get? 19 =
      ((convertToSEPAData doc).Fields.get? 19).map
        (fun f => { f with Field := str "Amount (" ++ v ++ str ")" })) ∧
    (∀ (l : Leaf) (v : GoString), Leaf.get (Leaf.set doc v l) l = v) ∧
    (∀ (l k : Leaf) (v : GoString), k ≠ l → Leaf.get (Leaf.set doc v l) k = Leaf.get doc k) := by
  refine ⟨fun l i h1 h2 => value_at_row doc l i h1 h2, ?_, row_has_one_leaf,
    fun l v j h1 h2 => set_leaf_other_rows doc l v j h1 h2,
    fun l v i h1 h2 => set_leaf_own_row doc l v i h1 h2,
    set_currency_label doc, fun l v => get_set doc v l, fun l k v h => get_set_ne doc v l k h⟩
  rw [convert_fields]; simp [rowLabels]

/-- Witness of C3: the message identifier of the zero-value document. -/
theorem c3_values_copied_verbatim_witness :
    ((convertToSEPAData zeroDocument).Fields.get? 0).map (fun f => f.Value) =
      some (Leaf.get zeroDocument .MsgId) :=
  (c3_values_copied_verbatim zeroDocument).1 .MsgId 0 rfl (by decide)

/-! ## Properties of formatDateTime -/

theorem str_dash : str "-" = [45] := by decide
theorem str_T : str "T" = [84] := by decide
theorem str_colon : str ":" = [58] := by decide
theorem str_space : str " " = [32] := by decide

theorem skip_one (c v : UInt8) (rest : GoString) (hc : c.toNat ≠ 32) :
    skip (v :: rest) [c] = if v = c then some rest else none := by
  simp [skip, skipLoop, hc]

theorem skip_one_nil (c : UInt8) (hc : c.toNat ≠ 32) : skip [] [c] = none := by
  simp [skip, skipLoop, hc]

theorem getnum_two (c0 c1 : UInt8) (rest : GoString) (fixed : Bool)
    (h0 : isDigitByte c0 = true) (h1 : isDigitByte c1 = true) :
    getnum (c0 :: c1 :: rest) fixed = some (((digitVal c0 * 10 + digitVal c1 : Nat) : Int), rest) := by
  simp only [isDigitByte] at h0 h1
  simp [getnum, isDigit, digitVal, h0, h1]

theorem leadingInt_four (y1 y2 y3 y4 : UInt8)
    (h1 : isDigitByte y1 = true) (h2 : isDigitByte y2 = true)
    (h3 : isDigitByte y3 = true) (h4 : isDigitByte y4 = true) :
    leadingInt 0 [y1, y2, y3, y4] =
      some (digitVal y1 * 1000 + digitVal y2 * 100 + digitVal y3 * 10 + digitVal y4, []) := by
  simp only [isDigitByte, Bool.and_eq_true, decide_eq_true_eq] at h1 h2 h3 h4
  have e1 : ¬ (y1.toNat < 48 ∨ y1.toNat > 57) := by omega
  have e2 : ¬ (y2.toNat < 48 ∨ y2.toNat > 57) := by omega
  have e3 : ¬ (y3.toNat < 48 ∨ y3.toNat > 57) := by omega
  have e4 : ¬ (y4.toNat < 48 ∨ y4.toNat > 57) := by omega
  have p : (2:Nat) ^ 63 = 9223372036854775808 := by norm_num
  simp only [leadingInt, e1, e2, e3, e4, if_false, p, digitVal]
  rw [if_neg (by omega), if_neg (by omega), if_neg (by omega), if_neg (by omega),
    if_neg (by omega), if_neg (by omega), if_neg (by omega), if_neg (by omega)]
  congr 2
  omega

theorem atoi_four (y1 y2 y3 y4 : UInt8)
    (h1 : isDigitByte y1 = true) (h2 : isDigitByte y2 = true)
    (h3 : isDigitByte y3 = true) (h4 : isDigitByte y4 = true) :
    atoi [y1, y2, y3, y4] =
      some ((digitVal y1 * 1000 + digitVal y2 * 100 + digitVal y3 * 10 + digitVal y4 : Nat) : Int) := by
  have h1n := h1
  simp only [isDigitByte, Bool.and_eq_true, decide_eq_true_eq] at h1n
  have a : ¬ (y1.toNat = 45) := by omega
  have b : ¬ (y1.toNat = 43) := by omega
  simp [atoi, a, b, leadingInt_four y1 y2 y3 y4 h1 h2 h3 h4]

theorem digitByte_digitVal (c : UInt8) (h : isDigitByte c = true) : digitByte (digitVal c) = c := by
  simp only [isDigitByte, Bool.and_eq_true, decide_eq_true_eq] at h
  have e : 48 + (c.toNat - 48) = c.toNat := by omega
  simp only [digitByte, digitVal, e]
  cases c with | mk v =>
  simp [UInt8.ofNat, UInt8.toNat, Fin.ofNat]

theorem digitVal_lt (c : UInt8) (h : isDigitByte c = true) : digitVal c < 10 := by
  simp only [isDigitByte, Bool.and_eq_true, decide_eq_true_eq] at h
  simp only [digitVal]; omega

theorem appendInt_two (b : GoString) (c0 c1 : UInt8)
    (h0 : isDigitByte c0 = true) (h1 : isDigitByte c1 = true) :
    appendInt b ((digitVal c0 * 10 + digitVal c1 : Nat) : Int) 2 = b ++ [c0, c1] := by
  have l0 := digitVal_lt c0 h0
  have l1 := digitVal_lt c1 h1
  have e0 : (digitVal c0 * 10 + digitVal c1) / 10 = digitVal c0 := by omega
  have e1 : (digitVal c0 * 10 + digitVal c1) % 10 = digitVal c1 := by omega
  have lt : digitVal c0 * 10 + digitVal c1 < 100 := by omega
  have nn : ¬ (((digitVal c0 * 10 + digitVal c1 : Nat) : Int) < 0) := by omega
  simp only [appendInt, nn, if_false, Int.natAbs_ofNat, lt, and_self, if_true, e0, e1,
    digitByte_digitVal c0 h0, digitByte_digitVal c1 h1]

theorem appendInt_one (b : GoString) (c0 : UInt8) (h0 : isDigitByte c0 = true) :
    appendInt b ((digitVal c0 : Nat) : Int) 2 = b ++ [48, c0] := by
  have l0 := digitVal_lt c0 h0
  have e0 : digitVal c0 / 10 = 0 := by omega
  have e1 : digitVal c0 % 10 = digitVal c0 := by omega
  have lt : digitVal c0 < 100 := by omega
  have nn : ¬ (((digitVal c0 : Nat) : Int) < 0) := by omega
  simp only [appendInt, nn, if_false, Int.natAbs_ofNat, lt, and_self, if_true, e0, e1,
    digitByte_digitVal c0 h0]
  rfl

theorem appendInt_four (b : GoString) (y1 y2 y3 y4 : UInt8)
    (h1 : isDigitByte y1 = true) (h2 : isDigitByte y2 = true)
    (h3 : isDigitByte y3 = true) (h4 : isDigitByte y4 = true) :
    appendInt b ((digitVal y1 * 1000 + digitVal y2 * 100 + digitVal y3 * 10 + digitVal y4 : Nat) : Int) 4 =
      b ++ [y1, y2, y3, y4] := by
  have l1 := digitVal_lt y1 h1
  have l2 := digitVal_lt y2 h2
  have l3 := digitVal_lt y3 h3
  have l4 := digitVal_lt y4 h4
  generalize hn : digitVal y1 * 1000 + digitVal y2 * 100 + digitVal y3 * 10 + digitVal y4 = n
  have e1 : n / 1000 = digitVal y1 := by omega
  have e2 : n / 100 % 10 = digitVal y2 := by omega
  have e3 : n / 10 % 10 = digitVal y3 := by omega
  have e4 : n % 10 = digitVal y4 := by omega
  have lt : n < 10000 := by omega
  have nn : ¬ ((n : Int) < 0) := by omega
  have w : ¬ ((4 : Nat) = 2 ∧ n < 100) := by omega
  simp only [appendInt, nn, if_false, Int.natAbs_ofNat, w, lt, and_self, if_true, e1, e2, e3, e4,
    digitByte_digitVal y1 h1, digitByte_digitVal y2 h2, digitByte_digitVal y3 h3,
    digitByte_digitVal y4 h4]

theorem daysIn_eq (y m : Nat) (h1 : 1 ≤ m) (h2 : m ≤ 12) :
    daysIn (m : Int) (y : Int) = (daysInMonth y m : Int) := by
  have leap : isLeap (y : Int) = decide (y % 400 = 0 ∨ (y % 4 = 0 ∧ y % 100 ≠ 0)) := by
    simp only [isLeap, Int.tmod_eq_emod (Int.ofNat_nonneg y) (by norm_num : (0:Int) ≤ 4),
      Int.tmod_eq_emod (Int.ofNat_nonneg y) (by norm_num : (0:Int) ≤ 100),
      Int.tmod_eq_emod (Int.ofNat_nonneg y) (by norm_num : (0:Int) ≤ 400)]
    rw [Bool.eq_iff_iff]
    simp only [Bool.and_eq_true, Bool.or_eq_true, decide_eq_true_eq, ne_eq]
    omega
  interval_cases m <;> simp [daysIn, daysInMonth, leap, daysBefore]

theorem parseChunk_lit (Y M D h mi sc ns : Int) (c v : UInt8) (rest : GoString)
    (hc : c.toNat ≠ 32) :
    parseChunk ⟨Y, M, D, h, mi, sc, ns, v :: rest⟩ (.lit [c]) =
      if v = c then some ⟨Y, M, D, h, mi, sc, ns, rest⟩ else none := by
  simp only [parseChunk, skip_one c v rest hc]
  by_cases e : v = c <;> simp [e]

theorem parseChunk_lit_nil (Y M D h mi sc ns : Int) (c : UInt8) (hc : c.toNat ≠ 32) :
    parseChunk ⟨Y, M, D, h, mi, sc, ns, []⟩ (.lit [c]) = none := by
  simp only [parseChunk, skip_one_nil c hc]

theorem parseChunk_year (Y M D h mi sc ns : Int) (y1 y2 y3 y4 : UInt8) (rest : GoString)
    (h1 : isDigitByte y1 = true) (h2 : isDigitByte y2 = true)
    (h3 : isDigitByte y3 = true) (h4 : isDigitByte y4 = true) :
    parseChunk ⟨Y, M, D, h, mi, sc, ns, y1 :: y2 :: y3 :: y4 :: rest⟩ .stdLongYear =
      some ⟨((digitVal y1 * 1000 + digitVal y2 * 100 + digitVal y3 * 10 + digitVal y4 : Nat) : Int),
        M, D, h, mi, sc, ns, rest⟩ := by
  have h1n := h1
  simp only [isDigitByte] at h1n
  simp [parseChunk, isDigit, h1n, atoi_four y1 y2 y3 y4 h1 h2 h3 h4]

theorem parseChunk_month (Y M D h mi sc ns : Int) (c0 c1 : UInt8) (rest : GoString)
    (h0 : isDigitByte c0 = true) (h1 : isDigitByte c1 = true)
    (lo : 1 ≤ digitVal c0 * 10 + digitVal c1) (hi : digitVal c0 * 10 + digitVal c1 ≤ 12) :
    parseChunk ⟨Y, M, D, h, mi, sc, ns, c0 :: c1 :: rest⟩ .stdZeroMonth =
      some ⟨Y, ((digitVal c0 * 10 + digitVal c1 : Nat) : Int), D, h, mi, sc, ns, rest⟩ := by
  simp only [parseChunk, getnum_two c0 c1 rest true h0 h1]
  rw [if_neg (by omega)]

theorem parseChunk_day (Y M D h mi sc ns : Int) (c0 c1 : UInt8) (rest : GoString)
    (h0 : isDigitByte c0 = true) (h1 : isDigitByte c1 = true) :
    parseChunk ⟨Y, M, D, h, mi, sc, ns, c0 :: c1 :: rest⟩ .stdZeroDay =
      some ⟨Y, M, ((digitVal c0 * 10 + digitVal c1 : Nat) : Int), h, mi, sc, ns, rest⟩ := by
  simp only [parseChunk, getnum_two c0 c1 rest true h0 h1]

theorem parseChunk_hour (Y M D h mi sc ns : Int) (c0 c1 : UInt8) (rest : GoString)
    (h0 : isDigitByte c0 = true) (h1 : isDigitByte c1 = true)
    (hi : digitVal c0 * 10 + digitVal c1 < 24) :
    parseChunk ⟨Y, M, D, h, mi, sc, ns, c0 :: c1 :: rest⟩ .stdHour =
      some ⟨Y, M, D, ((digitVal c0 * 10 + digitVal c1 : Nat) : Int), mi, sc, ns, rest⟩ := by
  simp only [parseChunk, getnum_two c0 c1 rest false h0 h1]
  rw [if_neg (by omega)]

theorem parseChunk_minute (Y M D h mi sc ns : Int) (c0 c1 : UInt8) (rest : GoString)
    (h0 : isDigitByte c0 = true) (h1 : isDigitByte c1 = true)
    (hi : digitVal c0 * 10 + digitVal c1 < 60) :
    parseChunk ⟨Y, M, D, h, mi, sc, ns, c0 :: c1 :: rest⟩ .stdZeroMinute =
      some ⟨Y, M, D, h, ((digitVal c0 * 10 + digitVal c1 : Nat) : Int), sc, ns, rest⟩ := by
  simp only [parseChunk, getnum_two c0 c1 rest true h0 h1]
  rw [if_neg (by omega)]

theorem parseChunk_second_end (Y M D h mi sc ns : Int) (c0 c1 : UInt8)
    (h0 : isDigitByte c0 = true) (h1 : isDigitByte c1 = true)
    (hi : digitVal c0 * 10 + digitVal c1 < 60) :
    parseChunk ⟨Y, M, D, h, mi, sc, ns, [c0, c1]⟩ .stdZeroSecond =
      some ⟨Y, M, D, h, mi, ((digitVal c0 * 10 + digitVal c1 : Nat) : Int), ns, []⟩ := by
  simp only [parseChunk, getnum_two c0 c1 [] true h0 h1]
  rw [if_neg (by omega)]

theorem parse_date_time (y1 y2 y3 y4 m1 m2 d1 d2 h1 h2 n1 n2 s1 s2 : UInt8)
    (hy1 : isDigitByte y1 = true) (hy2 : isDigitByte y2 = true)
    (hy3 : isDigitByte y3 = true) (hy4 : isDigitByte y4 = true)
    (hm1 : isDigitByte m1 = true) (hm2 : isDigitByte m2 = true)
    (hd1 : isDigitByte d1 = true) (hd2 : isDigitByte d2 = true)
    (hh1 : isDigitByte h1 = true) (hh2 : isDigitByte h2 = true)
    (hn1 : isDigitByte n1 = true) (hn2 : isDigitByte n2 = true)
    (hs1 : isDigitByte s1 = true) (hs2 : isDigitByte s2 = true)
    (hv : validCivil (digitVal y1 * 1000 + digitVal y2 * 100 + digitVal y3 * 10 + digitVal y4)
      (digitVal m1 * 10 + digitVal m2) (digitVal d1 * 10 + digitVal d2)
      (digitVal h1 * 10 + digitVal h2) (digitVal n1 * 10 + digitVal n2)
      (digitVal s1 * 10 + digitVal s2) = true) :
    Parse [y1, y2, y3, y4, 45, m1, m2, 45, d1, d2, 84, h1, h2, 58, n1, n2, 58, s1, s2] =
      some (Date ((digitVal y1 * 1000 + digitVal y2 * 100 + digitVal y3 * 10 + digitVal y4 : Nat) : Int)
        ((digitVal m1 * 10 + digitVal m2 : Nat) : Int) ((digitVal d1 * 10 + digitVal d2 : Nat) : Int)
        ((digitVal h1 * 10 + digitVal h2 : Nat) : Int) ((digitVal n1 * 10 + digitVal n2 : Nat) : Int)
        ((digitVal s1 * 10 + digitVal s2 : Nat) : Int) 0) := by
  simp only [validCivil, validDate, Bool.and_eq_true, decide_eq_true_eq] at hv
  obtain ⟨⟨⟨⟨⟨⟨v1, v2⟩, v3⟩, v4⟩, v5⟩, v6⟩, v7⟩ := hv
  have dd := daysIn_eq (digitVal y1 * 1000 + digitVal y2 * 100 + digitVal y3 * 10 + digitVal y4)
    (digitVal m1 * 10 + digitVal m2) v1 v2
  have c45 : (45 : UInt8).toNat ≠ 32 := by decide
  have c84 : (84 : UInt8).toNat ≠ 32 := by decide
  have c58 : (58 : UInt8).toNat ≠ 32 := by decide
  simp only [Parse, parseLayout, parseChunks, ParseState.init, str_dash, str_T, str_colon,
    parseChunk_year _ _ _ _ _ _ _ y1 y2 y3 y4 _ hy1 hy2 hy3 hy4,
    parseChunk_lit _ _ _ _ _ _ _ 45 _ _ c45, parseChunk_lit _ _ _ _ _ _ _ 84 _ _ c84,
    parseChunk_lit _ _ _ _ _ _ _ 58 _ _ c58, if_true,
    parseChunk_month _ _ _ _ _ _ _ m1 m2 _ hm1 hm2 v1 v2,
    parseChunk_day _ _ _ _ _ _ _ d1 d2 _ hd1 hd2,
    parseChunk_hour _ _ _ _ _ _ _ h1 h2 _ hh1 hh2 v5,
    parseChunk_minute _ _ _ _ _ _ _ n1 n2 _ hn1 hn2 v6,
    parseChunk_second_end _ _ _ _ _ _ _ s1 s2 hs1 hs2 v7, dd]
  simp only [List.length_nil, ne_eq, not_true_eq_false, if_false]
  rw [if_neg (by omega)]

theorem format_digits (y1 y2 y3 y4 m1 m2 d1 d2 h1 h2 n1 n2 s1 s2 : UInt8) (ns : Int)
    (hy1 : isDigitByte y1 = true) (hy2 : isDigitByte y2 = true)
    (hy3 : isDigitByte y3 = true) (hy4 : isDigitByte y4 = true)
    (hm1 : isDigitByte m1 = true) (hm2 : isDigitByte m2 = true)
    (hd1 : isDigitByte d1 = true) (hd2 : isDigitByte d2 = true)
    (hh1 : isDigitByte h1 = true) (hh2 : isDigitByte h2 = true)
    (hn1 : isDigitByte n1 = true) (hn2 : isDigitByte n2 = true)
    (hs1 : isDigitByte s1 = true) (hs2 : isDigitByte s2 = true) :
    Format (Date ((digitVal y1 * 1000 + digitVal y2 * 100 + digitVal y3 * 10 + digitVal y4 : Nat) : Int)
        ((digitVal m1 * 10 + digitVal m2 : Nat) : Int) ((digitVal d1 * 10 + digitVal d2 : Nat) : Int)
        ((digitVal h1 * 10 + digitVal h2 : Nat) : Int) ((digitVal n1 * 10 + digitVal n2 : Nat) : Int)
        ((digitVal s1 * 10 + digitVal s2 : Nat) : Int) ns) =
      [y1, y2, y3, y4, 45, m1, m2, 45, d1, d2, 32, h1, h2, 58, n1, n2, 58, s1, s2] := by
  simp only [Format, formatLayout, List.foldl, formatChunk, Date, str_dash, str_space, str_colon,
    appendInt_four _ y1 y2 y3 y4 hy1 hy2 hy3 hy4, appendInt_two _ m1 m2 hm1 hm2,
    appendInt_two _ d1 d2 hd1 hd2, appendInt_two _ h1 h2 hh1 hh2, appendInt_two _ n1 n2 hn1 hn2,
    appendInt_two _ s1 s2 hs1 hs2]
  rfl

/-- C4: for every string of the exact form `YYYY-MM-DDTHH:MM:SS` that denotes
a valid calendar date and time of day, `formatDateTime` returns the string
with the `T` at index 10 replaced by one space and every other byte unchanged;
`formatDateTime("2024-03-15T10:30:00") = "2024-03-15 10:30:00"`. -/
theorem c4_formatDateTime_valid (s : GoString) (h : isDateTime s = true) :
    formatDateTime s = s.set 10 32 ∧
    (formatDateTime s).length = s.length ∧
    s.get? 10 = some 84 ∧
    (∀ i : Nat, i ≠ 10 → (formatDateTime s).get? i = s.get? i) ∧
    formatDateTime (str "2024-03-15T10:30:00") = str "2024-03-15 10:30:00" := by
  unfold isDateTime at h
  split at h
  · rename_i y1 y2 y3 y4 a m1 m2 b d1 d2 t h1 h2 c n1 n2 e s1 s2
    simp only [Bool.and_eq_true, decide_eq_true_eq] at h
    obtain ⟨⟨⟨⟨⟨⟨⟨⟨⟨⟨⟨⟨⟨⟨⟨⟨⟨⟨⟨hy1, hy2⟩, hy3⟩, hy4⟩, hm1⟩, hm2⟩, hd1⟩, hd2⟩, hh1⟩, hh2⟩, hn1⟩, hn2⟩, hs1⟩,
      hs2⟩, ha⟩, hb⟩, ht⟩, hc⟩, he⟩, hv⟩ := h
    subst ha hb ht hc he
    have key : formatDateTime [y1, y2, y3, y4, 45, m1, m2, 45, d1, d2, 84, h1, h2, 58, n1, n2, 58, s1, s2] =
        [y1, y2, y3, y4, 45, m1, m2, 45, d1, d2, 32, h1, h2, 58, n1, n2, 58, s1, s2] := by
      simp only [formatDateTime,
        parse_date_time y1 y2 y3 y4 m1 m2 d1 d2 h1 h2 n1 n2 s1 s2 hy1 hy2 hy3 hy4 hm1 hm2 hd1 hd2
          hh1 hh2 hn1 hn2 hs1 hs2 hv,
        format_digits y1 y2 y3 y4 m1 m2 d1 d2 h1 h2 n1 n2 s1 s2 0 hy1 hy2 hy3 hy4 hm1 hm2 hd1 hd2
          hh1 hh2 hn1 hn2 hs1 hs2]
    refine ⟨by rw [key]; rfl, by rw [key]; rfl, rfl, ?_, by decide⟩
    intro i hi
    rw [key]
    iterate 19 (rcases i with _ | i; · first | exact absurd rfl hi | rfl)
    rfl
  · exact absurd h (by simp)

/-- Witness of C4: the creation time of the example document. -/
theorem c4_formatDateTime_valid_witness :
    isDateTime (str "2024-03-15T10:30:00") = true ∧
    formatDateTime (str "2024-03-15T10:30:00") = (str "2024-03-15T10:30:00").set 10 32 :=
  ⟨by decide, (c4_formatDateTime_valid (str "2024-03-15T10:30:00") (by decide)).1⟩

theorem parseChunks_append (st : ParseState) (a b : List Chunk) :
    parseChunks st (a ++ b) = (parseChunks st a).bind (fun st1 => parseChunks st1 b) := by
  induction a generalizing st with
  | nil => simp [parseChunks]
  | cons c cs ih =>
    simp only [List.cons_append, parseChunks]
    cases parseChunk st c with
    | none => simp
    | some st1 => simp [ih]

theorem getnum_inv (s rest : GoString) (fixed : Bool) (n : Int)
    (h : getnum s fixed = some (n, rest)) :
    (∃ c0 c1, s = c0 :: c1 :: rest ∧ isDigitByte c0 = true ∧ isDigitByte c1 = true ∧
        n = ((digitVal c0 * 10 + digitVal c1 : Nat) : Int)) ∨
    (fixed = false ∧ ∃ c0, s = c0 :: rest ∧ isDigitByte c0 = true ∧ isDigit rest 0 = false ∧
        n = ((digitVal c0 : Nat) : Int)) := by
  rcases s with _ | ⟨c0, _ | ⟨c1, r⟩⟩
  · simp [getnum, isDigit] at h
  · by_cases d0 : isDigitByte c0 = true
    · have d0n := d0
      simp only [isDigitByte] at d0n
      cases fixed <;> simp [getnum, isDigit, d0n] at h
      obtain ⟨h1, h2⟩ := h
      subst h2
      exact Or.inr ⟨rfl, c0, rfl, d0, by simp [isDigit], by simp [digitVal, ← h1]⟩
    · have d0n := d0
      simp only [isDigitByte] at d0n
      simp [getnum, isDigit, d0n] at h
  · by_cases d0 : isDigitByte c0 = true
    · have d0n := d0
      simp only [isDigitByte] at d0n
      by_cases d1 : isDigitByte c1 = true
      · rw [getnum_two c0 c1 r fixed d0 d1] at h
        simp only [Option.some.injEq, Prod.mk.injEq] at h
        obtain ⟨h1, h2⟩ := h
        subst h2
        exact Or.inl ⟨c0, c1, rfl, d0, d1, h1.symm⟩
      · have d1n := d1
        simp only [isDigitByte] at d1n
        cases fixed <;> simp [getnum, isDigit, d0n, d1n] at h
        obtain ⟨h1, h2⟩ := h
        subst h2
        refine Or.inr ⟨rfl, c0, rfl, d0, ?_, by simp [digitVal, ← h1]⟩
        simp [isDigit, d1n]
    · have d0n := d0
      simp only [isDigitByte] at d0n
      simp [getnum, isDigit, d0n] at h

theorem atoi_four_inv (y1 y2 y3 y4 : UInt8) (y : Int) (h1 : isDigitByte y1 = true)
    (h : atoi [y1, y2, y3, y4] = some y) :
    isDigitByte y2 = true ∧ isDigitByte y3 = true ∧ isDigitByte y4 = true := by
  have h1n := h1
  simp only [isDigitByte, Bool.and_eq_true, decide_eq_true_eq] at h1n
  have a : ¬ (y1.toNat = 45) := by omega
  have b : ¬ (y1.toNat = 43) := by omega
  have e1 : ¬ (y1.toNat < 48 ∨ y1.toNat > 57) := by omega
  have p : (2:Nat) ^ 63 = 9223372036854775808 := by norm_num
  by_cases d2 : isDigitByte y2 = true
  · by_cases d3 : isDigitByte y3 = true
    · by_cases d4 : isDigitByte y4 = true
      · exact ⟨d2, d3, d4⟩
      · exfalso
        have d2n := d2
        have d3n := d3
        have d4n := d4
        simp only [isDigitByte, Bool.and_eq_true, decide_eq_true_eq] at d2n d3n d4n
        have e2 : ¬ (y2.toNat < 48 ∨ y2.toNat > 57) := by omega
        have e3 : ¬ (y3.toNat < 48 ∨ y3.toNat > 57) := by omega
        have e4 : (y4.toNat < 48 ∨ y4.toNat > 57) := by omega
        simp only [atoi, a, b, or_self, if_false, decide_False, leadingInt, e1, e2, e3, e4, p,
          if_true] at h
        rw [if_neg (by omega), if_neg (by omega), if_neg (by omega), if_neg (by omega),
          if_neg (by omega), if_neg (by omega)] at h
        simp at h
    · exfalso
      have d2n := d2
      have d3n := d3
      simp only [isDigitByte, Bool.and_eq_true, decide_eq_true_eq] at d2n d3n
      have e2 : ¬ (y2.toNat < 48 ∨ y2.toNat > 57) := by omega
      have e3 : (y3.toNat < 48 ∨ y3.toNat > 57) := by omega
      simp only [atoi, a, b, or_self, if_false, decide_False, leadingInt, e1, e2, e3, p,
        if_true] at h
      rw [if_neg (by omega), if_neg (by omega), if_neg (by omega), if_neg (by omega)] at h
      simp at h
  · exfalso
    have d2n := d2
    simp only [isDigitByte, Bool.and_eq_true, decide_eq_true_eq] at d2n
    have e2 : (y2.toNat < 48 ∨ y2.toNat > 57) := by omega
    simp only [atoi, a, b, or_self, if_false, decide_False, leadingInt, e1, e2, p,
      if_true] at h
    rw [if_neg (by omega), if_neg (by omega)] at h
    simp at h

theorem parseChunk_year_inv (Y M D h mi sc ns : Int) (v : GoString) (st : ParseState)
    (hp : parseChunk ⟨Y, M, D, h, mi, sc, ns, v⟩ .stdLongYear = some st) :
    ∃ y1 y2 y3 y4 rest, v = y1 :: y2 :: y3 :: y4 :: rest ∧
      isDigitByte y1 = true ∧ isDigitByte y2 = true ∧ isDigitByte y3 = true ∧
      isDigitByte y4 = true ∧
      st = ⟨((digitVal y1 * 1000 + digitVal y2 * 100 + digitVal y3 * 10 + digitVal y4 : Nat) : Int),
        M, D, h, mi, sc, ns, rest⟩ := by
  rcases v with _ | ⟨y1, _ | ⟨y2, _ | ⟨y3, _ | ⟨y4, rest⟩⟩⟩⟩
  · simp [parseChunk] at hp
  · simp [parseChunk] at hp
  · simp [parseChunk] at hp
  · simp [parseChunk] at hp
  · by_cases d1 : isDigitByte y1 = true
    · have d1n := d1
      simp only [isDigitByte] at d1n
      cases ha : atoi [y1, y2, y3, y4] with
      | none => simp [parseChunk, isDigit, d1n, ha] at hp
      | some y =>
        obtain ⟨d2, d3, d4⟩ := atoi_four_inv y1 y2 y3 y4 y d1 ha
        rw [parseChunk_year Y M D h mi sc ns y1 y2 y3 y4 rest d1 d2 d3 d4] at hp
        exact ⟨y1, y2, y3, y4, rest, rfl, d1, d2, d3, d4, (Option.some.inj hp).symm⟩
    · have d1n := d1
      simp only [isDigitByte] at d1n
      simp [parseChunk, isDigit, d1n] at hp

theorem parseChunk_lit_inv (Y M D h mi sc ns : Int) (c : UInt8) (v : GoString) (st : ParseState)
    (hc : c.toNat ≠ 32) (hp : parseChunk ⟨Y, M, D, h, mi, sc, ns, v⟩ (.lit [c]) = some st) :
    ∃ rest, v = c :: rest ∧ st = ⟨Y, M, D, h, mi, sc, ns, rest⟩ := by
  rcases v with _ | ⟨x, rest⟩
  · rw [parseChunk_lit_nil _ _ _ _ _ _ _ c hc] at hp
    exact absurd hp (by simp)
  · rw [parseChunk_lit _ _ _ _ _ _ _ c x rest hc] at hp
    by_cases e : x = c
    · subst e
      simp only [if_true, Option.some.injEq] at hp
      exact ⟨rest, rfl, hp.symm⟩
    · simp [e] at hp

theorem getnum_fixed_inv (s rest : GoString) (n : Int) (h : getnum s true = some (n, rest)) :
    ∃ c0 c1, s = c0 :: c1 :: rest ∧ isDigitByte c0 = true ∧ isDigitByte c1 = true ∧
        n = ((digitVal c0 * 10 + digitVal c1 : Nat) : Int) := by
  rcases getnum_inv s rest true n h with h1 | ⟨h2, _⟩
  · exact h1
  · exact absurd h2 (by simp)

theorem parseChunk_month_inv (Y M D h mi sc ns : Int) (v : GoString) (st : ParseState)
    (hp : parseChunk ⟨Y, M, D, h, mi, sc, ns, v⟩ .stdZeroMonth = some st) :
    ∃ c0 c1 rest, v = c0 :: c1 :: rest ∧ isDigitByte c0 = true ∧ isDigitByte c1 = true ∧
      1 ≤ digitVal c0 * 10 + digitVal c1 ∧ digitVal c0 * 10 + digitVal c1 ≤ 12 ∧
      st = ⟨Y, ((digitVal c0 * 10 + digitVal c1 : Nat) : Int), D, h, mi, sc, ns, rest⟩ := by
  simp only [parseChunk] at hp
  cases hg : getnum v true with
  | none => simp [hg] at hp
  | some r =>
    obtain ⟨n, rest⟩ := r
    obtain ⟨c0, c1, e, d0, d1, en⟩ := getnum_fixed_inv v rest n hg
    simp only [hg] at hp
    by_cases hr : n ≤ 0 ∨ 12 < n
    · simp [hr] at hp
    · rw [if_neg hr] at hp
      subst en
      exact ⟨c0, c1, rest, e, d0, d1, by omega, by omega, (Option.some.inj hp).symm⟩

theorem parseChunk_day_inv (Y M D h mi sc ns : Int) (v : GoString) (st : ParseState)
    (hp : parseChunk ⟨Y, M, D, h, mi, sc, ns, v⟩ .stdZeroDay = some st) :
    ∃ c0 c1 rest, v = c0 :: c1 :: rest ∧ isDigitByte c0 = true ∧ isDigitByte c1 = true ∧
      st = ⟨Y, M, ((digitVal c0 * 10 + digitVal c1 : Nat) : Int), h, mi, sc, ns, rest⟩ := by
  simp only [parseChunk] at hp
  cases hg : getnum v true with
  | none => simp [hg] at hp
  | some r =>
    obtain ⟨n, rest⟩ := r
    obtain ⟨c0, c1, e, d0, d1, en⟩ := getnum_fixed_inv v rest n hg
    simp only [hg] at hp
    subst en
    exact ⟨c0, c1, rest, e, d0, d1, (Option.some.inj hp).symm⟩

theorem parseChunk_minute_inv (Y M D h mi sc ns : Int) (v : GoString) (st : ParseState)
    (hp : parseChunk ⟨Y, M, D, h, mi, sc, ns, v⟩ .stdZeroMinute = some st) :
    ∃ c0 c1 rest, v = c0 :: c1 :: rest ∧ isDigitByte c0 = true ∧ isDigitByte c1 = true ∧
      digitVal c0 * 10 + digitVal c1 < 60 ∧
      st = ⟨Y, M, D, h, ((digitVal c0 * 10 + digitVal c1 : Nat) : Int), sc, ns, rest⟩ := by
  simp only [parseChunk] at hp
  cases hg : getnum v true with
  | none => simp [hg] at hp
  | some r =>
    obtain ⟨n, rest⟩ := r
    obtain ⟨c0, c1, e, d0, d1, en⟩ := getnum_fixed_inv v rest n hg
    simp only [hg] at hp
    by_cases hr : n < 0 ∨ 60 ≤ n
    · simp [hr] at hp
    · rw [if_neg hr] at hp
      subst en
      exact ⟨c0, c1, rest, e, d0, d1, by omega, (Option.some.inj hp).symm⟩

theorem parseChunk_hour_inv (Y M D h mi sc ns : Int) (v : GoString) (st : ParseState)
    (hp : parseChunk ⟨Y, M, D, h, mi, sc, ns, v⟩ .stdHour = some st) :
    (∃ c0 c1 rest, v = c0 :: c1 :: rest ∧ isDigitByte c0 = true ∧ isDigitByte c1 = true ∧
      digitVal c0 * 10 + digitVal c1 < 24 ∧
      st = ⟨Y, M, D, ((digitVal c0 * 10 + digitVal c1 : Nat) : Int), mi, sc, ns, rest⟩) ∨
    (∃ c0 rest, v = c0 :: rest ∧ isDigitByte c0 = true ∧ isDigit rest 0 = false ∧
      st = ⟨Y, M, D, ((digitVal c0 : Nat) : Int), mi, sc, ns, rest⟩) := by
  simp only [parseChunk] at hp
  cases hg : getnum v false with
  | none => simp [hg] at hp
  | some r =>
    obtain ⟨n, rest⟩ := r
    simp only [hg] at hp
    by_cases hr : n < 0 ∨ 24 ≤ n
    · simp [hr] at hp
    · rw [if_neg hr] at hp
      rcases getnum_inv v rest false n hg with ⟨c0, c1, e, d0, d1, en⟩ | ⟨_, c0, e, d0, nd, en⟩
      · subst en
        exact Or.inl ⟨c0, c1, rest, e, d0, d1, by omega, (Option.some.inj hp).symm⟩
      · subst en
        exact Or.inr ⟨c0, rest, e, d0, nd, (Option.some.inj hp).symm⟩

theorem toNat_eq_iff (c : UInt8) (n : Nat) (hn : n < 256) : c.toNat = n ↔ c = UInt8.ofNat n := by
  constructor
  · intro h
    apply UInt8.ext
    rw [h]
    simp [UInt8.toNat, UInt8.ofNat, Fin.ofNat]
    omega
  · intro h
    subst h
    simp [UInt8.toNat, UInt8.ofNat, Fin.ofNat]
    omega

theorem drop_takeWhile_nil (p : UInt8 → Bool) (l : GoString)
    (h : l.drop (l.takeWhile p).length = []) : l.all p = true := by
  induction l with
  | nil => rfl
  | cons x xs ih =>
    by_cases hx : p x = true
    · simp only [List.takeWhile, hx, List.length_cons, List.drop_succ_cons] at h
      simp [hx, ih h]
    · simp [List.takeWhile, hx] at h

theorem parseChunk_second_inv (Y M D h mi sc ns : Int) (v : GoString) (st : ParseState)
    (hp : parseChunk ⟨Y, M, D, h, mi, sc, ns, v⟩ .stdZeroSecond = some st) :
    ∃ c0 c1 rest, v = c0 :: c1 :: rest ∧ isDigitByte c0 = true ∧ isDigitByte c1 = true ∧
      digitVal c0 * 10 + digitVal c1 < 60 ∧
      st.year = Y ∧ st.month = M ∧ st.day = D ∧ st.hour = h ∧ st.min = mi ∧
      st.sec = ((digitVal c0 * 10 + digitVal c1 : Nat) : Int) ∧
      (st.value = [] → isFraction rest = true) := by
  simp only [parseChunk] at hp
  cases hg : getnum v true with
  | none => simp [hg] at hp
  | some r =>
    obtain ⟨n, rest⟩ := r
    obtain ⟨c0, c1, e, d0, d1, en⟩ := getnum_fixed_inv v rest n hg
    simp only [hg] at hp
    by_cases hr : n < 0 ∨ 60 ≤ n
    · simp [hr] at hp
    · rw [if_neg hr] at hp
      subst en
      refine ⟨c0, c1, rest, e, d0, d1, by omega, ?_⟩
      rcases rest with _ | ⟨v0, _ | ⟨v1, r2⟩⟩
      · simp only [Option.some.injEq] at hp
        subst hp
        simp [isFraction]
      · simp only [Option.some.injEq] at hp
        subst hp
        simp
      · by_cases hf : (commaOrPeriod v0 && isDigit (v0 :: v1 :: r2) 1) = true
        · simp only [hf, if_true] at hp
          cases hn : parseNanoseconds (v0 :: v1 :: r2) (fracLen (v0 :: v1 :: r2)) with
          | none => simp [hn] at hp
          | some nsv =>
            simp only [hn, Option.some.injEq] at hp
            subst hp
            refine ⟨rfl, rfl, rfl, rfl, rfl, rfl, ?_⟩
            intro hv
            simp only [fracLen, List.drop_succ_cons, List.drop_zero] at hv
            have hv2 : List.drop ((List.takeWhile (fun c => decide (48 ≤ c.toNat) && decide (c.toNat ≤ 57)) r2).length)
                r2 = [] := by
              have : 2 + (List.takeWhile (fun c => decide (48 ≤ c.toNat) && decide (c.toNat ≤ 57)) r2).length =
                  (List.takeWhile (fun c => decide (48 ≤ c.toNat) && decide (c.toNat ≤ 57)) r2).length + 1 + 1 := by
                omega
              rw [this] at hv
              simpa using hv
            have hall := drop_takeWhile_nil _ r2 hv2
            simp only [Bool.and_eq_true, commaOrPeriod, Bool.or_eq_true, decide_eq_true_eq,
              isDigit, List.get?] at hf
            obtain ⟨hsep, hd1⟩ := hf
            have hsep2 : v0 = 46 ∨ v0 = 44 := by
              rcases hsep with h46 | h44
              · exact Or.inl ((toNat_eq_iff v0 46 (by norm_num)).1 h46)
              · exact Or.inr ((toNat_eq_iff v0 44 (by norm_num)).1 h44)
            simp only [isFraction, List.isEmpty_cons, Bool.not_false, Bool.and_true, List.all_cons,
              Bool.and_eq_true, Bool.or_eq_true, decide_eq_true_eq]
            refine ⟨hsep2, ?_, ?_⟩
            · simpa [isDigitByte] using hd1
            · simpa [isDigitByte] using hall
        · simp only [hf, Bool.false_eq_true, if_false, Option.some.injEq] at hp
          subst hp
          simp

theorem parseChunks_cons_inv (st st2 : ParseState) (c : Chunk) (cs : List Chunk)
    (h : parseChunks st (c :: cs) = some st2) :
    ∃ st1, parseChunk st c = some st1 ∧ parseChunks st1 cs = some st2 := by
  simp only [parseChunks] at h
  cases hc : parseChunk st c with
  | none => simp [hc] at h
  | some st1 => exact ⟨st1, rfl, by simpa [hc] using h⟩

theorem parseTail_inv (Y M D h mi sc ns : Int) (v : GoString) (st : ParseState)
    (hp : parseChunks ⟨Y, M, D, h, mi, sc, ns, v⟩
      [.lit [58], .stdZeroMinute, .lit [58], .stdZeroSecond] = some st)
    (hv : st.value = []) :
    isMinSecFrac v = true ∧ st.year = Y ∧ st.month = M ∧ st.day = D := by
  have c58 : (58 : UInt8).toNat ≠ 32 := by decide
  obtain ⟨st1, h1, q1⟩ := parseChunks_cons_inv _ _ _ _ hp
  obtain ⟨r1, rfl, rfl⟩ := parseChunk_lit_inv _ _ _ _ _ _ _ 58 _ _ c58 h1
  obtain ⟨st2, h2, q2⟩ := parseChunks_cons_inv _ _ _ _ q1
  obtain ⟨n1, n2, r2, rfl, dn1, dn2, hmin, rfl⟩ := parseChunk_minute_inv _ _ _ _ _ _ _ _ _ h2
  obtain ⟨st3, h3, q3⟩ := parseChunks_cons_inv _ _ _ _ q2
  obtain ⟨r3, rfl, rfl⟩ := parseChunk_lit_inv _ _ _ _ _ _ _ 58 _ _ c58 h3
  obtain ⟨st4, h4, q4⟩ := parseChunks_cons_inv _ _ _ _ q3
  obtain ⟨s1, s2, r4, rfl, ds1, ds2, hsec, ey, em, ed, _, _, _, hfr⟩ :=
    parseChunk_second_inv _ _ _ _ _ _ _ _ _ h4
  simp only [parseChunks, Option.some.injEq] at q4
  subst q4
  refine ⟨?_, ey, em, ed⟩
  simp [isMinSecFrac, dn1, dn2, ds1, ds2, hmin, hsec, hfr hv]

theorem Parse_inv (s : GoString) (t : Time) (h : Parse s = some t) :
    isLenientDateTime s = true := by
  have c45 : (45 : UInt8).toNat ≠ 32 := by decide
  have c84 : (84 : UInt8).toNat ≠ 32 := by decide
  unfold Parse at h
  cases hp : parseChunks (ParseState.init s) parseLayout with
  | none => simp [hp] at h
  | some st =>
    simp only [hp] at h
    by_cases hl : st.value.length ≠ 0
    · simp [hl] at h
    · rw [if_neg hl] at h
      by_cases hd : st.day < 1 ∨ st.day > daysIn st.month st.year
      · simp [hd] at h
      · have hv : st.value = [] := by
          cases hvv : st.value with
          | nil => rfl
          | cons a b => simp [hvv] at hl
        simp only [parseLayout, ParseState.init, str_dash, str_T, str_colon] at hp
        obtain ⟨st1, h1, q1⟩ := parseChunks_cons_inv _ _ _ _ hp
        obtain ⟨y1, y2, y3, y4, r1, rfl, dy1, dy2, dy3, dy4, rfl⟩ :=
          parseChunk_year_inv _ _ _ _ _ _ _ _ _ h1
        obtain ⟨st2, h2, q2⟩ := parseChunks_cons_inv _ _ _ _ q1
        obtain ⟨r2, rfl, rfl⟩ := parseChunk_lit_inv _ _ _ _ _ _ _ 45 _ _ c45 h2
        obtain ⟨st3, h3, q3⟩ := parseChunks_cons_inv _ _ _ _ q2
        obtain ⟨m1, m2, r3, rfl, dm1, dm2, mlo, mhi, rfl⟩ :=
          parseChunk_month_inv _ _ _ _ _ _ _ _ _ h3
        obtain ⟨st4, h4, q4⟩ := parseChunks_cons_inv _ _ _ _ q3
        obtain ⟨r4, rfl, rfl⟩ := parseChunk_lit_inv _ _ _ _ _ _ _ 45 _ _ c45 h4
        obtain ⟨st5, h5, q5⟩ := parseChunks_cons_inv _ _ _ _ q4
        obtain ⟨d1, d2, r5, rfl, dd1, dd2, rfl⟩ := parseChunk_day_inv _ _ _ _ _ _ _ _ _ h5
        obtain ⟨st6, h6, q6⟩ := parseChunks_cons_inv _ _ _ _ q5
        obtain ⟨r6, rfl, rfl⟩ := parseChunk_lit_inv _ _ _ _ _ _ _ 84 _ _ c84 h6
        obtain ⟨st7, h7, q7⟩ := parseChunks_cons_inv _ _ _ _ q6
        have hdate : ∀ dayv : Int, st.year = ((digitVal y1 * 1000 + digitVal y2 * 100 + digitVal y3 * 10 + digitVal y4 : Nat) : Int) →
            st.month = ((digitVal m1 * 10 + digitVal m2 : Nat) : Int) →
            st.day = ((digitVal d1 * 10 + digitVal d2 : Nat) : Int) →
            validDate (digitVal y1 * 1000 + digitVal y2 * 100 + digitVal y3 * 10 + digitVal y4)
              (digitVal m1 * 10 + digitVal m2) (digitVal d1 * 10 + digitVal d2) = true := by
          intro _ ey em ed
          rw [ey, em, ed, daysIn_eq _ _ mlo mhi] at hd
          simp only [validDate, Bool.and_eq_true, decide_eq_true_eq]
          omega
        rcases parseChunk_hour_inv _ _ _ _ _ _ _ _ _ h7 with
          ⟨h1b, h2b, r7, rfl, dh1, dh2, hhr, rfl⟩ | ⟨h1b, r7, rfl, dh1, _, rfl⟩
        · obtain ⟨ht, ey, em, ed⟩ := parseTail_inv _ _ _ _ _ _ _ _ _ q7 hv
          have hvd := hdate 0 ey em ed
          simp [isLenientDateTime, dy1, dy2, dy3, dy4, dm1, dm2, dd1, dd2, dh1, dh2, hhr, ht, hvd]
        · obtain ⟨ht, ey, em, ed⟩ := parseTail_inv _ _ _ _ _ _ _ _ _ q7 hv
          have hvd := hdate 0 ey em ed
          simp [isLenientDateTime, dy1, dy2, dy3, dy4, dm1, dm2, dd1, dd2, dh1, ht, hvd]

theorem leadingInt_digits (ds : GoString) :
    ∀ x : Nat, (∀ c ∈ ds, isDigitByte c = true) → ds.length ≤ 17 → x + 1 ≤ 10 ^ (17 - ds.length) →
      ∃ q, leadingInt x ds = some (q, []) := by
  induction ds with
  | nil => intro x _ _ _; exact ⟨x, rfl⟩
  | cons c cs ih =>
    intro x hd hl hx
    have hc : isDigitByte c = true := hd c (List.mem_cons_self c cs)
    simp only [isDigitByte, Bool.and_eq_true, decide_eq_true_eq] at hc
    simp only [List.length_cons] at hl hx
    have e : 17 - cs.length = (17 - (cs.length + 1)) + 1 := by omega
    have hp : 10 ^ (17 - cs.length) = 10 ^ (17 - (cs.length + 1)) * 10 := by
      rw [e, pow_succ]
    have hb : 10 ^ (17 - cs.length) ≤ 10 ^ 17 := Nat.pow_le_pow_right (by norm_num) (by omega)
    have p17 : (10 : Nat) ^ 17 = 100000000000000000 := by norm_num
    have p63 : (2 : Nat) ^ 63 = 9223372036854775808 := by norm_num
    have nd : ¬ (c.toNat < 48 ∨ c.toNat > 57) := by omega
    have ih2 := ih (x * 10 + c.toNat - 48) (fun d hdm => hd d (List.mem_cons_of_mem c hdm))
      (by omega) (by omega)
    simp only [leadingInt, nd, if_false, p63]
    rw [if_neg (by omega), if_neg (by omega)]
    exact ih2

theorem atoi_digits (c : UInt8) (cs : GoString) (hc : isDigitByte c = true)
    (hd : ∀ d ∈ cs, isDigitByte d = true) (hl : cs.length ≤ 8) :
    ∃ q : Nat, atoi (c :: cs) = some (q : Int) := by
  have hcn := hc
  simp only [isDigitByte, Bool.and_eq_true, decide_eq_true_eq] at hcn
  have a : ¬ (c.toNat = 45) := by omega
  have b : ¬ (c.toNat = 43) := by omega
  have hall : ∀ d ∈ c :: cs, isDigitByte d = true := by
    intro d hdm
    rcases List.mem_cons.1 hdm with rfl | h
    · exact hc
    · exact hd d h
  have hb : (1 : Nat) ≤ 10 ^ (17 - (c :: cs).length) := Nat.one_le_pow _ _ (by norm_num)
  obtain ⟨q, hq⟩ := leadingInt_digits (c :: cs) 0 hall (by simp only [List.length_cons]; omega)
    (by omega)
  exact ⟨q, by simp [atoi, a, b, hq]⟩

theorem take_le_takeWhile_all (p : UInt8 → Bool) (l : GoString) (k : Nat)
    (hk : k ≤ (l.takeWhile p).length) : ∀ c ∈ l.take k, p c = true := by
  induction l generalizing k with
  | nil => intro c hc; simp at hc
  | cons x xs ih =>
    intro c hc
    cases k with
    | zero => simp at hc
    | succ k =>
      by_cases hx : p x = true
      · simp only [List.takeWhile, hx, List.length_cons] at hk
        simp only [List.take_succ_cons, List.mem_cons] at hc
        rcases hc with rfl | h
        · exact hx
        · exact ih k (by omega) c h
      · simp [List.takeWhile, hx] at hk

theorem takeWhile_all (p : UInt8 → Bool) (l : GoString) (h : l.all p = true) :
    l.takeWhile p = l := by
  induction l with
  | nil => rfl
  | cons x xs ih =>
    simp only [List.all_cons, Bool.and_eq_true] at h
    simp [List.takeWhile, h.1, ih h.2]

theorem parseNanoseconds_frac (v0 v1 : UInt8) (r2 : GoString)
    (hsep : commaOrPeriod v0 = true) (hd : isDigitByte v1 = true) :
    ∃ ns, parseNanoseconds (v0 :: v1 :: r2) (fracLen (v0 :: v1 :: r2)) = some ns := by
  have key : ∀ k : Nat, k ≤ (r2.takeWhile (fun c => decide (48 ≤ c.toNat) && decide (c.toNat ≤ 57))).length →
      k ≤ 8 → ∃ q : Nat, atoi (v1 :: r2.take k) = some (q : Int) := by
    intro k hk h8
    refine atoi_digits v1 (r2.take k) hd ?_ ?_
    · intro d hdm
      have := take_le_takeWhile_all _ r2 k hk d hdm
      simpa [isDigitByte] using this
    · rw [List.length_take]; omega
  simp only [parseNanoseconds, hsep, Bool.not_true, Bool.false_eq_true, if_false, fracLen,
    List.drop_succ_cons, List.drop_zero]
  by_cases hn : 2 + (r2.takeWhile (fun c => decide (48 ≤ c.toNat) && decide (c.toNat ≤ 57))).length > 10
  · obtain ⟨q, hq⟩ := key 8 (by omega) (by omega)
    have e : List.drop 1 (List.take 10 (List.take 10 (v0 :: v1 :: r2))) = v1 :: r2.take 8 := by
      simp [List.take_take]
    simp only [hn, if_true, e, hq]
    have : ¬ ((q : Int) < 0) := by omega
    simp [this]
  · obtain ⟨q, hq⟩ := key _ (le_refl _) (by omega)
    have e : ∀ n : Nat, List.drop 1 (List.take (2 + n) (v0 :: v1 :: r2)) = v1 :: r2.take n := by
      intro n
      have : 2 + n = n + 1 + 1 := by omega
      rw [this]
      simp
    simp only [hn, if_false, e, hq]
    have : ¬ ((q : Int) < 0) := by omega
    simp [this]

theorem parseChunk_second_frac (Y M D h mi sc ns : Int) (c0 c1 : UInt8) (frac : GoString)
    (h0 : isDigitByte c0 = true) (h1 : isDigitByte c1 = true)
    (hi : digitVal c0 * 10 + digitVal c1 < 60) (hf : isFraction frac = true) :
    ∃ ns2, parseChunk ⟨Y, M, D, h, mi, sc, ns, c0 :: c1 :: frac⟩ .stdZeroSecond =
      some ⟨Y, M, D, h, mi, ((digitVal c0 * 10 + digitVal c1 : Nat) : Int), ns2, []⟩ := by
  rcases frac with _ | ⟨v0, _ | ⟨v1, r2⟩⟩
  · exact ⟨ns, parseChunk_second_end Y M D h mi sc ns c0 c1 h0 h1 hi⟩
  · simp [isFraction] at hf
  · simp only [isFraction, List.isEmpty_cons, Bool.not_false, Bool.and_true, List.all_cons,
      Bool.and_eq_true, Bool.or_eq_true, decide_eq_true_eq] at hf
    obtain ⟨hsep, hd1, hall⟩ := hf
    have hsep2 : commaOrPeriod v0 = true := by
      rcases hsep with rfl | rfl <;> decide
    have hd1n := hd1
    simp only [isDigitByte] at hd1n
    have hdig : isDigit (v0 :: v1 :: r2) 1 = true := by simp [isDigit, hd1n]
    obtain ⟨nsv, hns⟩ := parseNanoseconds_frac v0 v1 r2 hsep2 hd1
    have hall2 : r2.all (fun c => decide (48 ≤ c.toNat) && decide (c.toNat ≤ 57)) = true := by
      simpa [isDigitByte] using hall
    have hdrop : List.drop (fracLen (v0 :: v1 :: r2)) (v0 :: v1 :: r2) = [] := by
      simp only [fracLen, List.drop_succ_cons, List.drop_zero, takeWhile_all _ r2 hall2]
      have : 2 + r2.length = r2.length + 1 + 1 := by omega
      rw [this]
      simp
    refine ⟨nsv, ?_⟩
    simp only [parseChunk, getnum_two c0 c1 _ true h0 h1]
    rw [if_neg (by omega)]
    simp only [hsep2, hdig, Bool.and_self, if_true, hns, hdrop]

theorem parseChunk_hour_one (Y M D h mi sc ns : Int) (c0 : UInt8) (rest : GoString)
    (h0 : isDigitByte c0 = true) :
    parseChunk ⟨Y, M, D, h, mi, sc, ns, c0 :: 58 :: rest⟩ .stdHour =
      some ⟨Y, M, D, ((digitVal c0 : Nat) : Int), mi, sc, ns, 58 :: rest⟩ := by
  have l0 := digitVal_lt c0 h0
  have h0n := h0
  simp only [isDigitByte] at h0n
  have g : getnum (c0 :: 58 :: rest) false = some (((digitVal c0 : Nat) : Int), 58 :: rest) := by
    simp [getnum, isDigit, h0n, digitVal]
    decide
  simp only [parseChunk, g]
  rw [if_neg (by omega)]

theorem format_digits_one (y1 y2 y3 y4 m1 m2 d1 d2 h1 n1 n2 s1 s2 : UInt8) (ns : Int)
    (hy1 : isDigitByte y1 = true) (hy2 : isDigitByte y2 = true)
    (hy3 : isDigitByte y3 = true) (hy4 : isDigitByte y4 = true)
    (hm1 : isDigitByte m1 = true) (hm2 : isDigitByte m2 = true)
    (hd1 : isDigitByte d1 = true) (hd2 : isDigitByte d2 = true)
    (hh1 : isDigitByte h1 = true)
    (hn1 : isDigitByte n1 = true) (hn2 : isDigitByte n2 = true)
    (hs1 : isDigitByte s1 = true) (hs2 : isDigitByte s2 = true) :
    Format (Date ((digitVal y1 * 1000 + digitVal y2 * 100 + digitVal y3 * 10 + digitVal y4 : Nat) : Int)
        ((digitVal m1 * 10 + digitVal m2 : Nat) : Int) ((digitVal d1 * 10 + digitVal d2 : Nat) : Int)
        ((digitVal h1 : Nat) : Int) ((digitVal n1 * 10 + digitVal n2 : Nat) : Int)
        ((digitVal s1 * 10 + digitVal s2 : Nat) : Int) ns) =
      [y1, y2, y3, y4, 45, m1, m2, 45, d1, d2, 32, 48, h1, 58, n1, n2, 58, s1, s2] := by
  simp only [Format, formatLayout, List.foldl, formatChunk, Date, str_dash, str_space, str_colon,
    appendInt_four _ y1 y2 y3 y4 hy1 hy2 hy3 hy4, appendInt_two _ m1 m2 hm1 hm2,
    appendInt_two _ d1 d2 hd1 hd2, appendInt_one _ h1 hh1, appendInt_two _ n1 n2 hn1 hn2,
    appendInt_two _ s1 s2 hs1 hs2]
  rfl

theorem isMinSecFrac_inv (r : GoString) (h : isMinSecFrac r = true) :
    ∃ n1 n2 s1 s2 frac, r = 58 :: n1 :: n2 :: 58 :: s1 :: s2 :: frac ∧
      isDigitByte n1 = true ∧ isDigitByte n2 = true ∧ isDigitByte s1 = true ∧
      isDigitByte s2 = true ∧ digitVal n1 * 10 + digitVal n2 < 60 ∧
      digitVal s1 * 10 + digitVal s2 < 60 ∧ isFraction frac = true := by
  unfold isMinSecFrac at h
  split at h
  · rename_i c n1 n2 e s1 s2 frac
    simp only [Bool.and_eq_true, decide_eq_true_eq] at h
    obtain ⟨⟨⟨⟨⟨⟨⟨⟨hc, he⟩, a1⟩, a2⟩, a3⟩, a4⟩, a5⟩, a6⟩, a7⟩ := h
    subst hc he
    exact ⟨n1, n2, s1, s2, frac, rfl, a1, a2, a3, a4, a5, a6, a7⟩
  · exact absurd h (by simp)

theorem formatDateTime_tail (Y M D : Nat) (y1 y2 y3 y4 m1 m2 d1 d2 : UInt8) (hrest : GoString)
    (hy1 : isDigitByte y1 = true) (hy2 : isDigitByte y2 = true)
    (hy3 : isDigitByte y3 = true) (hy4 : isDigitByte y4 = true)
    (hm1 : isDigitByte m1 = true) (hm2 : isDigitByte m2 = true)
    (hd1 : isDigitByte d1 = true) (hd2 : isDigitByte d2 = true)
    (eY : Y = digitVal y1 * 1000 + digitVal y2 * 100 + digitVal y3 * 10 + digitVal y4)
    (eM : M = digitVal m1 * 10 + digitVal m2) (eD : D = digitVal d1 * 10 + digitVal d2)
    (hv : validDate Y M D = true)
    (st : ParseState)
    (hp : parseChunks ⟨(Y : Int), (M : Int), (D : Int), 0, 0, 0, 0, hrest⟩
      [.stdHour, .lit [58], .stdZeroMinute, .lit [58], .stdZeroSecond] = some st)
    (hval : st.value = []) (hyr : st.year = (Y : Int)) (hmo : st.month = (M : Int))
    (hda : st.day = (D : Int)) :
    Parse (y1 :: y2 :: y3 :: y4 :: 45 :: m1 :: m2 :: 45 :: d1 :: d2 :: 84 :: hrest) =
      some (Date st.year st.month st.day st.hour st.min st.sec st.nsec) := by
  simp only [validDate, Bool.and_eq_true, decide_eq_true_eq] at hv
  obtain ⟨⟨⟨v1, v2⟩, v3⟩, v4⟩ := hv
  have dd := daysIn_eq Y M v1 v2
  have c45 : (45 : UInt8).toNat ≠ 32 := by decide
  have c84 : (84 : UInt8).toNat ≠ 32 := by decide
  have split : parseLayout =
      [.stdLongYear, .lit [45], .stdZeroMonth, .lit [45], .stdZeroDay, .lit [84]] ++
      [.stdHour, .lit [58], .stdZeroMinute, .lit [58], .stdZeroSecond] := by
    simp [parseLayout, str_dash, str_T, str_colon]
  have hpre : parseChunks (ParseState.init
      (y1 :: y2 :: y3 :: y4 :: 45 :: m1 :: m2 :: 45 :: d1 :: d2 :: 84 :: hrest))
      [.stdLongYear, .lit [45], .stdZeroMonth, .lit [45], .stdZeroDay, .lit [84]] =
      some ⟨(Y : Int), (M : Int), (D : Int), 0, 0, 0, 0, hrest⟩ := by
    subst eY eM eD
    simp only [parseChunks, ParseState.init,
      parseChunk_year _ _ _ _ _ _ _ y1 y2 y3 y4 _ hy1 hy2 hy3 hy4,
      parseChunk_lit _ _ _ _ _ _ _ 45 _ _ c45, parseChunk_lit _ _ _ _ _ _ _ 84 _ _ c84, if_true,
      parseChunk_month _ _ _ _ _ _ _ m1 m2 _ hm1 hm2 v1 v2,
      parseChunk_day _ _ _ _ _ _ _ d1 d2 _ hd1 hd2]
  unfold Parse
  rw [split, parseChunks_append, hpre]
  simp only [Option.bind, hp, hval, List.length_nil, ne_eq, not_true_eq_false, if_false]
  rw [hyr, hmo, hda, dd, if_neg (by omega)]

theorem formatDateTime_lenient (s : GoString) (h : isLenientDateTime s = true) :
    formatDateTime s ≠ s ∧ (formatDateTime s).length = 19 ∧
    (formatDateTime s).get? 10 = some 32 ∧ s.get? 10 = some 84 ∧
    (formatDateTime s).take 10 = s.take 10 := by
  have c58 : (58 : UInt8).toNat ≠ 32 := by decide
  have ne : (32 : UInt8) ≠ 84 := by decide
  unfold isLenientDateTime at h
  split at h
  · rename_i y1 y2 y3 y4 a m1 m2 b d1 d2 t h1 rest
    simp only [Bool.and_eq_true, decide_eq_true_eq, Bool.or_eq_true] at h
    obtain ⟨⟨⟨⟨⟨⟨⟨⟨⟨⟨⟨⟨⟨hy1, hy2⟩, hy3⟩, hy4⟩, hm1⟩, hm2⟩, hd1⟩, hd2⟩, hh1⟩, ha⟩, hb⟩, ht⟩, hv⟩, hor⟩ := h
    subst ha hb ht
    rcases hor with hA | hB
    · obtain ⟨n1, n2, s1, s2, frac, rfl, hn1, hn2, hs1, hs2, hmin, hsec, hfr⟩ :=
        isMinSecFrac_inv rest hA
      obtain ⟨ns2, hsc⟩ := parseChunk_second_frac
        ((digitVal y1 * 1000 + digitVal y2 * 100 + digitVal y3 * 10 + digitVal y4 : Nat) : Int)
        ((digitVal m1 * 10 + digitVal m2 : Nat) : Int) ((digitVal d1 * 10 + digitVal d2 : Nat) : Int)
        ((digitVal h1 : Nat) : Int) ((digitVal n1 * 10 + digitVal n2 : Nat) : Int) 0 0
        s1 s2 frac hs1 hs2 hsec hfr
      have hp0 : parseChunks ⟨((digitVal y1 * 1000 + digitVal y2 * 100 + digitVal y3 * 10 + digitVal y4 : Nat) : Int), ((digitVal m1 * 10 + digitVal m2 : Nat) : Int),
          ((digitVal d1 * 10 + digitVal d2 : Nat) : Int), 0, 0, 0, 0,
          h1 :: 58 :: n1 :: n2 :: 58 :: s1 :: s2 :: frac⟩
          [.stdHour, .lit [58], .stdZeroMinute, .lit [58], .stdZeroSecond] =
          some ⟨((digitVal y1 * 1000 + digitVal y2 * 100 + digitVal y3 * 10 + digitVal y4 : Nat) : Int), ((digitVal m1 * 10 + digitVal m2 : Nat) : Int),
            ((digitVal d1 * 10 + digitVal d2 : Nat) : Int), ((digitVal h1 : Nat) : Int),
            ((digitVal n1 * 10 + digitVal n2 : Nat) : Int), ((digitVal s1 * 10 + digitVal s2 : Nat) : Int), ns2, []⟩ := by
        simp only [parseChunks, parseChunk_hour_one _ _ _ _ _ _ _ h1 _ hh1,
          parseChunk_lit _ _ _ _ _ _ _ 58 _ _ c58, if_true,
          parseChunk_minute _ _ _ _ _ _ _ n1 n2 _ hn1 hn2 hmin, hsc]
      have hp := formatDateTime_tail _ _ _ y1 y2 y3 y4 m1 m2 d1 d2
        (h1 :: 58 :: n1 :: n2 :: 58 :: s1 :: s2 :: frac) hy1 hy2 hy3 hy4 hm1 hm2 hd1 hd2 rfl rfl rfl hv
        _ hp0 rfl rfl rfl rfl
      have hf : formatDateTime (y1 :: y2 :: y3 :: y4 :: 45 :: m1 :: m2 :: 45 :: d1 :: d2 :: 84 ::
          h1 :: 58 :: n1 :: n2 :: 58 :: s1 :: s2 :: frac) =
          [y1, y2, y3, y4, 45, m1, m2, 45, d1, d2, 32, 48, h1, 58, n1, n2, 58, s1, s2] := by
        simp only [formatDateTime, hp]
        exact format_digits_one y1 y2 y3 y4 m1 m2 d1 d2 h1 n1 n2 s1 s2 ns2 hy1 hy2 hy3 hy4 hm1 hm2
          hd1 hd2 hh1 hn1 hn2 hs1 hs2
      rw [hf]
      refine ⟨?_, rfl, rfl, rfl, rfl⟩
      intro heq
      have := congrArg (fun l => l.get? 10) heq
      simp only [List.get?, Option.some.injEq] at this
      exact ne this
    · split at hB
      · rename_i h2 rest2
        simp only [Bool.and_eq_true, decide_eq_true_eq] at hB
        obtain ⟨⟨hh2, hhr⟩, hT⟩ := hB
        obtain ⟨n1, n2, s1, s2, frac, rfl, hn1, hn2, hs1, hs2, hmin, hsec, hfr⟩ :=
          isMinSecFrac_inv rest2 hT
        obtain ⟨ns2, hsc⟩ := parseChunk_second_frac
          ((digitVal y1 * 1000 + digitVal y2 * 100 + digitVal y3 * 10 + digitVal y4 : Nat) : Int)
          ((digitVal m1 * 10 + digitVal m2 : Nat) : Int) ((digitVal d1 * 10 + digitVal d2 : Nat) : Int)
          ((digitVal h1 * 10 + digitVal h2 : Nat) : Int) ((digitVal n1 * 10 + digitVal n2 : Nat) : Int)
          0 0 s1 s2 frac hs1 hs2 hsec hfr
        have hp0 : parseChunks ⟨((digitVal y1 * 1000 + digitVal y2 * 100 + digitVal y3 * 10 + digitVal y4 : Nat) : Int), ((digitVal m1 * 10 + digitVal m2 : Nat) : Int),
            ((digitVal d1 * 10 + digitVal d2 : Nat) : Int), 0, 0, 0, 0,
            h1 :: h2 :: 58 :: n1 :: n2 :: 58 :: s1 :: s2 :: frac⟩
            [.stdHour, .lit [58], .stdZeroMinute, .lit [58], .stdZeroSecond] =
            some ⟨((digitVal y1 * 1000 + digitVal y2 * 100 + digitVal y3 * 10 + digitVal y4 : Nat) : Int), ((digitVal m1 * 10 + digitVal m2 : Nat) : Int),
              ((digitVal d1 * 10 + digitVal d2 : Nat) : Int), ((digitVal h1 * 10 + digitVal h2 : Nat) : Int),
              ((digitVal n1 * 10 + digitVal n2 : Nat) : Int), ((digitVal s1 * 10 + digitVal s2 : Nat) : Int), ns2, []⟩ := by
          simp only [parseChunks, parseChunk_hour _ _ _ _ _ _ _ h1 h2 _ hh1 hh2 hhr,
            parseChunk_lit _ _ _ _ _ _ _ 58 _ _ c58, if_true,
            parseChunk_minute _ _ _ _ _ _ _ n1 n2 _ hn1 hn2 hmin, hsc]
        have hp := formatDateTime_tail _ _ _ y1 y2 y3 y4 m1 m2 d1 d2
          (h1 :: h2 :: 58 :: n1 :: n2 :: 58 :: s1 :: s2 :: frac) hy1 hy2 hy3 hy4 hm1 hm2 hd1 hd2
          rfl rfl rfl hv _ hp0 rfl rfl rfl rfl
        have hf : formatDateTime (y1 :: y2 :: y3 :: y4 :: 45 :: m1 :: m2 :: 45 :: d1 :: d2 :: 84 ::
            h1 :: h2 :: 58 :: n1 :: n2 :: 58 :: s1 :: s2 :: frac) =
            [y1, y2, y3, y4, 45, m1, m2, 45, d1, d2, 32, h1, h2, 58, n1, n2, 58, s1, s2] := by
          simp only [formatDateTime, hp]
          exact format_digits y1 y2 y3 y4 m1 m2 d1 d2 h1 h2 n1 n2 s1 s2 ns2 hy1 hy2 hy3 hy4 hm1 hm2
            hd1 hd2 hh1 hh2 hn1 hn2 hs1 hs2
        rw [hf]
        refine ⟨?_, rfl, rfl, rfl, rfl⟩
        intro heq
        have := congrArg (fun l => l.get? 10) heq
        simp only [List.get?, Option.some.injEq] at this
        exact ne this
      · exact absurd hB (by simp)
  · exact absurd h (by simp)

/-- C5 (counterexample): two strings that are not of the exact form, one with
a one-digit hour and one with a fractional second, are not returned unchanged:
the hour is padded to two digits and the fraction is dropped. -/
theorem c5_lenient_inputs_reformatted :
    isDateTime (str "2024-03-15T9:30:00") = false ∧
    formatDateTime (str "2024-03-15T9:30:00") = str "2024-03-15 09:30:00" ∧
    formatDateTime (str "2024-03-15T9:30:00") ≠ str "2024-03-15T9:30:00" ∧
    isDateTime (str "2024-03-15T10:30:00.5") = false ∧
    formatDateTime (str "2024-03-15T10:30:00.5") = str "2024-03-15 10:30:00" ∧
    formatDateTime (str "2024-03-15T10:30:00.5") ≠ str "2024-03-15T10:30:00.5" := by
  decide

/-- C5 (amended): `formatDateTime` is total, and it returns unchanged every
string that is not of the form `YYYY-MM-DDTHH:MM:SS` with a valid calendar
date and time, where the hour may be written with one digit and the seconds
may be followed by a period or comma and one or more digits; so
`"not-a-date"`, the empty string, a value with a zone suffix and an impossible
date are returned unchanged. Those are the only strings returned unchanged:
every string of that form is reformatted. -/
theorem c5_formatDateTime_passthrough (s : GoString) (h : isLenientDateTime s = false) :
    formatDateTime s = s ∧
    (∀ u : GoString, formatDateTime u = u ↔ isLenientDateTime u = false) ∧
    formatDateTime (str "not-a-date") = str "not-a-date" ∧
    formatDateTime (str "") = str "" ∧
    formatDateTime (str "2024-03-15T10:30:00Z") = str "2024-03-15T10:30:00Z" ∧
    formatDateTime (str "2024-02-30T10:00:00") = str "2024-02-30T10:00:00" := by
  have pass : ∀ u : GoString, isLenientDateTime u = false → formatDateTime u = u := by
    intro u hu
    unfold formatDateTime
    cases hp : Parse u with
    | none => rfl
    | some t =>
      have := Parse_inv u t hp
      rw [hu] at this
      exact absurd this (by simp)
  refine ⟨pass s h, ?_, by decide, by decide, by decide, by decide⟩
  intro u
  constructor
  · intro hu
    cases hl : isLenientDateTime u with
    | false => rfl
    | true => exact absurd hu (formatDateTime_lenient u hl).1
  · exact pass u

/-- Witness of C5: a string that is no date at all. -/
theorem c5_formatDateTime_passthrough_witness :
    isLenientDateTime (str "not-a-date") = false ∧
    formatDateTime (str "not-a-date") = str "not-a-date" :=
  ⟨by decide, (c5_formatDateTime_passthrough (str "not-a-date") (by decide)).1⟩

/-! ## Properties of the session -/

theorem str_ellipsis : str "..." = [46, 46, 46] := by decide

theorem truncateString_40 (v : GoString) :
    truncateString v 40 = some (if v.length ≤ 40 then v else v.take 37 ++ str "...") := by
  unfold truncateString sliceTo
  by_cases h : v.length ≤ 40
  · have : (v.length : Int) ≤ 40 := by omega
    simp [h, this]
  · have h1 : ¬ ((v.length : Int) ≤ 40) := by omega
    have h2 : (0 : Int) ≤ 40 - 3 ∧ (40 - 3 : Int) ≤ (v.length : Int) := by omega
    simp only [h1, h2, h, if_false, and_self, if_true]
    rfl

theorem str_ascii (l : List Char) (h : ∀ c ∈ l, c.val ≤ 0x7f) :
    str (String.mk l) = l.map (fun c => c.val.toUInt8) := by
  induction l with
  | nil => rfl
  | cons c cs ih =>
    have hc : c.val ≤ 0x7f := h c (List.mem_cons_self c cs)
    have ih2 := ih (fun d hd => h d (List.mem_cons_of_mem c hd))
    simp only [str, List.flatMap_cons, List.map_cons] at ih2 ⊢
    rw [ih2]
    simp [String.utf8EncodeChar, hc]

/-- C6 (failing input): the value of 21 characters `é`, each of two bytes,
has at most 40 characters, yet `truncateString` does not return it in full: it
returns its first 37 bytes, that is 18 characters and then the byte `0xC3`
alone (the first half of the 19th character), followed by `...`. -/
theorem c6_short_text_truncated :
    ("ééééééééééééééééééééé" : String).length = 21 ∧
    truncateString (str "ééééééééééééééééééééé") 40 ≠ some (str "ééééééééééééééééééééé") ∧
    truncateString (str "ééééééééééééééééééééé") 40 =
      some (str "éééééééééééééééééé" ++ [195] ++ str "...") := by
  decide

/-- A value all of whose characters are ASCII has as many bytes as
characters, so `truncateString(v, 40)` returns it in full when it has at most
40 characters and returns its first 37 characters followed by `...`
otherwise. -/
theorem truncateString_40_ascii (t : List Char) (ht : ∀ c ∈ t, c.val ≤ 0x7f) :
    (str (String.mk t)).length = t.length ∧
    (t.length ≤ 40 → truncateString (str (String.mk t)) 40 = some (str (String.mk t))) ∧
    (40 < t.length → truncateString (str (String.mk t)) 40 =
      some (str (String.mk (t.take 37)) ++ str "...")) := by
  have e := str_ascii t ht
  have hl : (str (String.mk t)).length = t.length := by rw [e, List.length_map]
  refine ⟨hl, ?_, ?_⟩
  · intro h
    rw [truncateString_40, if_pos (by omega)]
  · intro h
    rw [truncateString_40, if_neg (by omega)]
    have e2 := str_ascii (t.take 37) (fun c hc => ht c (List.mem_of_mem_take hc))
    rw [e2, e, List.map_take]

theorem index_of_lt {α : Type} (xs : List α) (i : Nat) (h : i < xs.length) :
    index xs (i : Int) = some (xs.get ⟨i, h⟩) := by
  have h2 : (0 : Int) ≤ (i : Int) ∧ (i : Int) < (xs.length : Int) := by omega
  simp only [index, h2, and_self, if_true, Int.toNat_ofNat]
  exact List.get?_eq_get h

theorem matches_copy (k : GoString) (hk : k = str "c" ∨ k = str "ctrl+c") :
    Matches k keys.Quit = false ∧ Matches k keys.Copy = true := by
  rcases hk with rfl | rfl <;> decide

/-- C7: in a session state with the key map of `main.go`, field data and a
cursor `i` inside it, a copy key (`c` or `ctrl+c`) leaves the state unchanged
and returns one command, the clipboard write of the whole value of row `i`;
whatever the clipboard answers, the completion message of that command carries
the same, untruncated value. -/
theorem c7_copy_key_writes_raw_value (m : model) (k : GoString) (sepaData : SEPAData) (i : Nat)
    (WriteAll : GoString → Option GoString)
    (hkeys : m.keys = keys) (hk : k = str "c" ∨ k = str "ctrl+c")
    (hdata : m.sepaData = some sepaData) (hi : i < sepaData.Fields.length)
    (hcur : m.table.Cursor = (i : Int)) :
    Update m (.key k) = some (m, .copyToClipboard (sepaData.Fields.get ⟨i, hi⟩).Value) ∧
    Cmd.run WriteAll (.copyToClipboard (sepaData.Fields.get ⟨i, hi⟩).Value) =
      some (.copyMsg (sepaData.Fields.get ⟨i, hi⟩).Value (WriteAll (sepaData.Fields.get ⟨i, hi⟩).Value).isNone
        (WriteAll (sepaData.Fields.get ⟨i, hi⟩).Value)) := by
  obtain ⟨hq, hc⟩ := matches_copy k hk
  constructor
  · have hpos : sepaData.Fields.length > 0 := by omega
    have hlt : (i : Int) < (sepaData.Fields.length : Int) := by omega
    simp only [Update, hkeys, hq, hc, hdata, hpos, hcur, hlt, index_of_lt sepaData.Fields i hi,
      if_true, Bool.false_eq_true, if_false]
  · simp only [Cmd.run, copyToClipboard]
    cases WriteAll (sepaData.Fields.get ⟨i, hi⟩).Value <;> rfl

/-- Witness of C7: the key `c` on the first row of the session of a document
without leaves. -/
theorem c7_copy_key_writes_raw_value_witness :
    Update readyModel (.key (str "c")) = some (readyModel, .copyToClipboard []) :=
  (c7_copy_key_writes_raw_value readyModel (str "c") (convertToSEPAData zeroDocument) 0
    (fun _ => none) rfl (Or.inl rfl) rfl (by decide) rfl).1

/-- C8: for every session state and every clipboard-completion message,
`Update` does not panic, sets the notification flag, sets the text to
`Copied: ` and the value truncated to 40 on success and to `Copy failed: ` and
the rendered error on failure, changes nothing else (field data, table and
cursor, error, key map), and returns one command: a timer of two seconds whose
fire is the clear message; no clipboard write is returned. -/
theorem c8_completion_shows_notification (m : model) (value : GoString) (success : Bool)
    (err : Option GoString) (WriteAll : GoString → Option GoString) :
    ∃ shown, truncateString value 40 = some shown ∧
      Update m (.copyMsg value success err) =
        some ({ m with copied := true,
                       copyMsg := if success then str "Copied: " ++ shown
                                  else str "Copy failed: " ++ fmtError err },
              .Tick (2 * Second) .clearCopyMsg) ∧
      (2 * Second = 2000000000) ∧
      Cmd.run WriteAll (.Tick (2 * Second) .clearCopyMsg) = some .clearCopyMsg ∧
      (∀ v, Cmd.Tick (2 * Second) .clearCopyMsg ≠ .copyToClipboard v) := by
  refine ⟨_, truncateString_40 value, ?_, by decide, rfl, fun v h => by cases h⟩
  cases success <;> simp [Update, truncateString_40]

theorem update_copyMsg (m : model) (value : GoString) (success : Bool) (err : Option GoString) :
    Update m (.copyMsg value success err) =
      some ({ m with copied := true,
                     copyMsg := if success
                       then str "Copied: " ++ (if value.length ≤ 40 then value else value.take 37 ++ str "...")
                       else str "Copy failed: " ++ fmtError err },
            .Tick (2 * Second) .clearCopyMsg) := by
  cases success <;> simp [Update, truncateString_40]

theorem table_update_clear (t : Table) : t.Update .clearCopyMsg = (t, .nil) := by
  unfold Table.Update
  cases t.focus <;> rfl

theorem update_clearCopyMsg (m : model) :
    Update m .clearCopyMsg = some ({ m with copied := false, copyMsg := [] }, .nil) := by
  simp [Update, updateTable, table_update_clear]

/-- C9 (counterexample): after two copy completions, the fire of the timer
armed by the first one clears the notification of the second: the flag is
false and the text is empty, not the text of the second completion. -/
theorem c9_stale_timer_clears_newer_notification :
    (updates readyModel [.copyMsg (str "a") true none, .copyMsg (str "b") true none]).map
        (fun m => (m.copied, m.copyMsg)) = some (true, str "Copied: b") ∧
    (Update readyModel (.copyMsg (str "a") true none)).map (fun r => Cmd.run (fun _ => none) r.2) =
      some (some .clearCopyMsg) ∧
    (updates readyModel [.copyMsg (str "a") true none, .copyMsg (str "b") true none,
        .clearCopyMsg]).map (fun m => (m.copied, m.copyMsg)) = some (false, []) := by
  decide

/-- C9 (amended): a second copy completion before the first notification
clears replaces the notification text and arms a second timer of two seconds;
the two timers deliver the same clear message, which carries no identity, so
the first fire after the second completion (the stale timer of the first)
clears the notification of the second, and the later fire of the second timer
finds it cleared and changes nothing. -/
theorem c9_second_copy_then_timer_fires (m : model) (v1 v2 : GoString) (s1 s2 : Bool)
    (e1 e2 : Option GoString) :
    (∃ m1, Update m (.copyMsg v1 s1 e1) = some (m1, .Tick (2 * Second) .clearCopyMsg) ∧
      Update m1 (.copyMsg v2 s2 e2) =
        some ({ m with copied := true,
                       copyMsg := if s2
                         then str "Copied: " ++ (if v2.length ≤ 40 then v2 else v2.take 37 ++ str "...")
                         else str "Copy failed: " ++ fmtError e2 },
              .Tick (2 * Second) .clearCopyMsg)) ∧
    updates m [.copyMsg v1 s1 e1, .copyMsg v2 s2 e2, .clearCopyMsg] =
      some { m with copied := false, copyMsg := [] } ∧
    updates m [.copyMsg v1 s1 e1, .copyMsg v2 s2 e2, .clearCopyMsg, .clearCopyMsg] =
      some { m with copied := false, copyMsg := [] } := by
  refine ⟨⟨_, update_copyMsg m v1 s1 e1, ?_⟩, ?_, ?_⟩
  · rw [update_copyMsg]
  · simp only [updates, update_copyMsg, update_clearCopyMsg]
  · simp only [updates, update_copyMsg, update_clearCopyMsg]

/-- C10 (counterexample): when a notification is already showing, a further
copy completion followed by the timer fire does not return to the state
before that completion: the earlier notification is gone. -/
theorem c10_not_back_to_notifying_state :
    updates { readyModel with copied := true, copyMsg := str "Copied: a" }
        [.copyMsg (str "b") true none, .clearCopyMsg] = some readyModel ∧
    readyModel ≠ { readyModel with copied := true, copyMsg := str "Copied: a" } := by
  decide

/-- C10 (amended): for every session state the timer-fire message yields the
same state with the notification flag false and the text empty (field data,
parse error, table and cursor unchanged) and no command; so a copy completion
followed by the timer fire returns to the state before the completion with
its notification cleared, which is that very state whenever it showed no
notification. -/
theorem c10_timer_fire_clears (m : model) (value : GoString) (success : Bool)
    (err : Option GoString) (hflag : m.copied = false) (htext : m.copyMsg = []) :
    (∀ m0 : model, Update m0 .clearCopyMsg = some ({ m0 with copied := false, copyMsg := [] }, .nil)) ∧
    (∀ m0 : model, updates m0 [.copyMsg value success err, .clearCopyMsg] =
      some { m0 with copied := false, copyMsg := [] }) ∧
    updates m [.copyMsg value success err, .clearCopyMsg] = some m := by
  refine ⟨update_clearCopyMsg, fun m0 => ?_, ?_⟩
  · simp only [updates, update_copyMsg, update_clearCopyMsg]
  · simp only [updates, update_copyMsg, update_clearCopyMsg]
    cases m
    simp only at hflag htext
    subst hflag htext
    rfl

/-- Witness of C10: a successful copy and the timer fire on the session of a
document without leaves. -/
theorem c10_timer_fire_clears_witness :
    updates readyModel [.copyMsg (str "a") true none, .clearCopyMsg] = some readyModel :=
  (c10_timer_fire_clears readyModel (str "a") true none rfl rfl).2.2

/-! ## Properties of the session: keys, the empty state and parse failure -/

theorem table_update_cmd (t : Table) (msg : Msg) : (t.Update msg).2 = .nil := by
  unfold Table.Update
  cases t.focus <;> cases msg <;> rfl

theorem updateTable_frame (m : model) (msg : Msg) :
    (updateTable m msg).2 = .nil ∧ (updateTable m msg).1.sepaData = m.sepaData ∧
    (updateTable m msg).1.err = m.err ∧ (updateTable m msg).1.keys = m.keys ∧
    (updateTable m msg).1.copied = m.copied ∧ (updateTable m msg).1.copyMsg = m.copyMsg ∧
    (updateTable m msg).1.table = (m.table.Update msg).1 :=
  ⟨table_update_cmd m.table msg, rfl, rfl, rfl, rfl, rfl, rfl⟩

theorem tableKey_copy (t : Table) (k : GoString) (hk : k = str "c" ∨ k = str "ctrl+c")
    (hkm : t.KeyMap = none ∨ t.KeyMap = some DefaultKeyMap) : t.UpdateKey k = t := by
  have hm : ∀ sel : TableKeyMap → Binding, (sel = (·.LineUp) ∨ sel = (·.LineDown) ∨
      sel = (·.PageUp) ∨ sel = (·.PageDown) ∨ sel = (·.HalfPageUp) ∨ sel = (·.HalfPageDown) ∨
      sel = (·.GotoTop) ∨ sel = (·.GotoBottom)) → t.matches k sel = false := by
    intro sel hsel
    unfold Table.matches
    rcases hkm with h | h
    · simp only [h]
    · simp only [h]
      rcases hk with rfl | rfl <;>
        rcases hsel with rfl | rfl | rfl | rfl | rfl | rfl | rfl | rfl <;> decide
  unfold Table.UpdateKey
  rw [hm _ (Or.inl rfl), hm _ (Or.inr (Or.inl rfl)), hm _ (Or.inr (Or.inr (Or.inl rfl))),
    hm _ (Or.inr (Or.inr (Or.inr (Or.inl rfl)))),
    hm _ (Or.inr (Or.inr (Or.inr (Or.inr (Or.inl rfl))))),
    hm _ (Or.inr (Or.inr (Or.inr (Or.inr (Or.inr (Or.inl rfl)))))),
    hm _ (Or.inr (Or.inr (Or.inr (Or.inr (Or.inr (Or.inr (Or.inl rfl))))))),
    hm _ (Or.inr (Or.inr (Or.inr (Or.inr (Or.inr (Or.inr (Or.inr rfl)))))))]
  simp

theorem update_key_no_copy (m : model) (k : GoString) (hq : Matches k m.keys.Quit = false)
    (hno : m.sepaData = none ∨ ∃ d, m.sepaData = some d ∧
      (d.Fields = [] ∨ (d.Fields.length : Int) ≤ m.table.Cursor)) :
    Update m (.key k) = some (updateTable m (.key k)) := by
  unfold Update
  simp only [hq, Bool.false_eq_true, if_false]
  by_cases hc : Matches k m.keys.Copy = true
  · simp only [hc, if_true]
    rcases hno with h | ⟨d, h, hd⟩
    · rw [h]
    · rw [h]
      simp only
      rcases hd with he | hl
      · simp [he]
      · by_cases hp : d.Fields.length > 0
        · have : ¬ (m.table.Cursor < (d.Fields.length : Int)) := by omega
          simp [hp, this]
        · simp [hp]
  · simp [hc]

/-- C11 (counterexample): a cursor below zero is not a valid index, yet with
field data present the copy key is no no-op there: the index expression
`Fields[selectedRow]` is evaluated and panics, because the guard only checks
the cursor against the length. -/
theorem c11_negative_cursor_panics :
    (∃ d, { readyModel with table := { readyModel.table with cursor := -1 } }.sepaData = some d ∧
      index d.Fields (-1) = none) ∧
    Update { readyModel with table := { readyModel.table with cursor := -1 } }
      (.key (str "c")) = none := by
  refine ⟨⟨convertToSEPAData zeroDocument, rfl, by decide⟩, by decide⟩

/-- C11 (amended): in every session state in which the field data is absent
or empty, or the cursor is at or past the end of the fields, a copy key (`c`
or `ctrl+c`) does not panic, returns no clipboard write and no command whose
run yields a completion message, and leaves the notification flag and text,
the field data and the error unchanged; with the key map of `main.go` the
command is `nil` and the key is handed to the table, which, with its default
(or zero) key map, does not react to it, so the whole state is unchanged. -/
theorem c11_copy_key_noop (m : model) (k : GoString) (hk : k = str "c" ∨ k = str "ctrl+c")
    (hno : m.sepaData = none ∨ ∃ d, m.sepaData = some d ∧
      (d.Fields = [] ∨ (d.Fields.length : Int) ≤ m.table.Cursor)) :
    ∃ m2 cmd, Update m (.key k) = some (m2, cmd) ∧
      (∀ v, cmd ≠ .copyToClipboard v) ∧
      (∀ W v s e, Cmd.run W cmd ≠ some (.copyMsg v s e)) ∧
      m2.copied = m.copied ∧ m2.copyMsg = m.copyMsg ∧ m2.sepaData = m.sepaData ∧
      m2.err = m.err ∧
      (m.keys = keys → cmd = .nil ∧ m2 = { m with table := (m.table.Update (.key k)).1 }) ∧
      (m.keys = keys → (m.table.KeyMap = none ∨ m.table.KeyMap = some DefaultKeyMap) → m2 = m) := by
  have hfr := updateTable_frame m (.key k)
  by_cases hq : Matches k m.keys.Quit = true
  · have hnk : m.keys ≠ keys := by
      intro hk2
      rw [hk2, (matches_copy k hk).1] at hq
      exact absurd hq (by simp)
    refine ⟨m, .Quit, by simp [Update, hq], fun v hv => (by cases hv), ?_, rfl, rfl, rfl, rfl,
      fun hk2 => absurd hk2 hnk, fun hk2 => absurd hk2 hnk⟩
    intro W v s e hr
    simp [Cmd.run] at hr
  · have h := update_key_no_copy m k (by simpa using hq) hno
    refine ⟨(updateTable m (.key k)).1, (updateTable m (.key k)).2, h, ?_, ?_, hfr.2.2.2.2.1,
      hfr.2.2.2.2.2.1, hfr.2.1, hfr.2.2.1, ?_, ?_⟩
    · rw [hfr.1]; intro v hv; cases hv
    · rw [hfr.1]; intro W v s e hr; simp [Cmd.run] at hr
    · intro _
      exact ⟨hfr.1, rfl⟩
    · intro _ hkm
      have ht : (m.table.Update (.key k)).1 = m.table := by
        unfold Table.Update
        cases hf : m.table.focus
        · rfl
        · simp [tableKey_copy m.table k hk hkm]
      show { m with table := (m.table.Update (.key k)).1 } = m
      rw [ht]

/-- Witness of C11: the key `c` in a session that has no field data. -/
theorem c11_copy_key_noop_witness :
    ∃ m2 cmd, Update { readyModel with sepaData := none } (.key (str "c")) = some (m2, cmd) ∧
      m2.copied = false := by
  obtain ⟨m2, cmd, h, _, _, hc, _⟩ :=
    c11_copy_key_noop { readyModel with sepaData := none } (str "c") (Or.inl rfl) (Or.inl rfl)
  exact ⟨m2, cmd, h, hc⟩

theorem matches_quit_iff (k : GoString) :
    Matches k keys.Quit = true ↔ (k = str "q" ∨ k = str "esc") := by
  simp [Matches, keys, NewBinding, Binding.Enabled]

/-- C12: in every session state, a key message that matches the quit binding
of the state makes `Update` return the quit command with the state unchanged,
whatever else the key would match (the quit check comes first); with the key
map of `main.go` the quit keys are exactly `q` and `esc`, and the copy keys
`c` and `ctrl+c` never yield the quit command. -/
theorem c12_quit_key (m : model) (k : GoString) (hq : Matches k m.keys.Quit = true) :
    Update m (.key k) = some (m, .Quit) ∧
    (∀ k2 : GoString, Matches k2 keys.Quit = true ↔ (k2 = str "q" ∨ k2 = str "esc")) ∧
    (∀ (m1 : model) (k1 : GoString), m1.keys = keys → (k1 = str "c" ∨ k1 = str "ctrl+c") →
      ∀ r, Update m1 (.key k1) = some r → r.2 ≠ .Quit) := by
  refine ⟨by simp [Update, hq], matches_quit_iff, ?_⟩
  intro m1 k1 hk1 hc r hr
  have hqc := (matches_copy k1 hc).1
  have hcc := (matches_copy k1 hc).2
  simp only [Update, hk1, hqc, hcc, Bool.false_eq_true, if_false, if_true] at hr
  have hT := table_update_cmd m1.table (.key k1)
  split at hr
  · split at hr
    · split at hr
      · split at hr
        · exact absurd hr (by simp)
        · simp only [Option.some.injEq] at hr
          subst hr
          intro h; cases h
      · simp only [Option.some.injEq] at hr
        subst hr
        simp [updateTable, hT]
    · simp only [Option.some.injEq] at hr
      subst hr
      simp [updateTable, hT]
  · simp only [Option.some.injEq] at hr
    subst hr
    simp [updateTable, hT]

/-- Witness of C12: the key `q` in the session of a document without leaves. -/
theorem c12_quit_key_witness :
    Update readyModel (.key (str "q")) = some (readyModel, .Quit) :=
  (c12_quit_key readyModel (str "q") (by decide)).1

theorem parse_outcomes (readFile : GoString → Except GoString GoString)
    (unmarshal : GoString → Except GoString Document) (filepath : GoString) :
    (∃ e, ParseSEPAFile readFile unmarshal filepath = (none, some e)) ∨
    (∃ doc, ParseSEPAFile readFile unmarshal filepath = (some (convertToSEPAData doc), none)) := by
  unfold ParseSEPAFile
  cases h1 : readFile filepath with
  | error e => exact Or.inl ⟨_, rfl⟩
  | ok data =>
    cases h2 : unmarshal data with
    | error e => exact Or.inl ⟨str "failed to parse XML: " ++ e, by simp only [h2]⟩
    | ok doc => exact Or.inr ⟨doc, by simp only [h2]⟩

theorem initialModel_cases (readFile : GoString → Except GoString GoString)
    (unmarshal : GoString → Except GoString Document) (height : Int) (filepath : GoString) :
    (∃ e, ParseSEPAFile readFile unmarshal filepath = (none, some e) ∧
      initialModel readFile unmarshal height filepath =
        some { table := Table.zero, sepaData := none, keys := keys, err := some e,
               copied := false, copyMsg := [] }) ∨
    (∃ doc, ParseSEPAFile readFile unmarshal filepath = (some (convertToSEPAData doc), none) ∧
      initialModel readFile unmarshal height filepath =
        some { table := Table.New ((convertToSEPAData doc).Fields.map
                 (fun field => [field.Category, field.Field, field.Value])) height,
               sepaData := some (convertToSEPAData doc), keys := keys, err := none,
               copied := false, copyMsg := [] }) := by
  rcases parse_outcomes readFile unmarshal filepath with ⟨e, h⟩ | ⟨doc, h⟩
  · exact Or.inl ⟨e, h, by simp [initialModel, h]⟩
  · exact Or.inr ⟨doc, h, by simp [initialModel, h]⟩

/-- C13: in the state `initialModel` builds after a parse failure (error set,
no field data, zero-value table, no notification), every key message other
than a quit key, whether navigation, copy, help or any other key, is ignored:
`Update` returns the same state and no command; the timer message and the
messages the session does not know are ignored too. -/
theorem c13_empty_state_ignores_keys (readFile : GoString → Except GoString GoString)
    (unmarshal : GoString → Except GoString Document) (height : Int) (filepath : GoString)
    (m : model) (k : GoString)
    (hinit : initialModel readFile unmarshal height filepath = some m)
    (herr : m.err ≠ none) (hk : Matches k keys.Quit = false) :
    Update m (.key k) = some (m, .nil) ∧
    Update m .clearCopyMsg = some (m, .nil) ∧
    Update m .other = some (m, .nil) ∧
    m.sepaData = none ∧ m.table = Table.zero ∧ m.copied = false ∧ m.copyMsg = [] := by
  rcases initialModel_cases readFile unmarshal height filepath with ⟨e, _, h⟩ | ⟨doc, _, h⟩
  · rw [h] at hinit
    cases hinit
    refine ⟨?_, rfl, rfl, rfl, rfl, rfl, rfl⟩
    have h1 := update_key_no_copy
      { table := Table.zero, sepaData := none, keys := keys, err := some e,
        copied := false, copyMsg := [] } k hk (Or.inl rfl)
    rw [h1]
    rfl
  · rw [h] at hinit
    cases hinit
    exact absurd rfl herr

/-- Witness of C13: the key `j` after a failure to read the file. -/
theorem c13_empty_state_ignores_keys_witness :
    ∃ m, initialModel (fun _ => .error (str "no such file")) (fun _ => .ok zeroDocument) 19
        (str "a.xml") = some m ∧ Update m (.key (str "j")) = some (m, .nil) :=
  ⟨_, rfl, (c13_empty_state_ignores_keys (fun _ => .error (str "no such file"))
    (fun _ => .ok zeroDocument) 19 (str "a.xml") _ (str "j") rfl (by simp) (by decide)).1⟩

/-- C14 (counterexample): when the file cannot be read for the cause
`no such file`, the error screen is not `Error: no such file` and the line
`Press 'q' to quit.`: the text after `Error: ` is that of the wrapped error,
`failed to read file: no such file`. -/
theorem c14_view_shows_wrapped_error :
    (initialModel (fun _ => .error (str "no such file")) (fun _ => .ok zeroDocument) 19
        (str "a.xml")).map (View (fun _ => [])) =
      some (str "Error: failed to read file: no such file\n\nPress 'q' to quit.") ∧
    (initialModel (fun _ => .error (str "no such file")) (fun _ => .ok zeroDocument) 19
        (str "a.xml")).map (View (fun _ => [])) ≠
      some (str "Error: " ++ str "no such file" ++ str "\n\nPress 'q' to quit.") := by
  decide

/-- C14 (amended): `ParseSEPAFile` fails or succeeds as a whole: when reading
the file fails, or when decoding the XML fails, it returns no data and an error
whose text is `failed to read file: ` or `failed to parse XML: ` followed by
the text of the cause; otherwise it returns `convertToSEPAData(doc)` and no
error. On failure `initialModel` puts the error into a session state with no
field data, and `View` of that state is `Error: `, then the text of the
error (the prefix `failed to read file: ` or `failed to parse XML: ` and
the text of the cause), then an empty line and `Press 'q' to quit.`, whatever
the notification flag and text are. -/
theorem c14_parse_fails_or_succeeds (readFile : GoString → Except GoString GoString)
    (unmarshal : GoString → Except GoString Document) (height : Int) (filepath : GoString)
    (render : model → GoString) :
    (∀ cause, readFile filepath = .error cause →
      ParseSEPAFile readFile unmarshal filepath =
        (none, some (str "failed to read file: " ++ cause)) ∧
      ∃ m, initialModel readFile unmarshal height filepath = some m ∧
        m.err = some (str "failed to read file: " ++ cause) ∧ m.sepaData = none ∧
        ∀ (flag : Bool) (text : GoString),
          View render { m with copied := flag, copyMsg := text } =
            str "Error: " ++ (str "failed to read file: " ++ cause) ++
              str "\n\nPress 'q' to quit.") ∧
    (∀ data cause, readFile filepath = .ok data → unmarshal data = .error cause →
      ParseSEPAFile readFile unmarshal filepath =
        (none, some (str "failed to parse XML: " ++ cause)) ∧
      ∃ m, initialModel readFile unmarshal height filepath = some m ∧
        m.err = some (str "failed to parse XML: " ++ cause) ∧ m.sepaData = none ∧
        ∀ (flag : Bool) (text : GoString),
          View render { m with copied := flag, copyMsg := text } =
            str "Error: " ++ (str "failed to parse XML: " ++ cause) ++
              str "\n\nPress 'q' to quit.") ∧
    (∀ data doc, readFile filepath = .ok data → unmarshal data = .ok doc →
      ParseSEPAFile readFile unmarshal filepath = (some (convertToSEPAData doc), none)) ∧
    (∀ e, (ParseSEPAFile readFile unmarshal filepath).2 = some e →
      (ParseSEPAFile readFile unmarshal filepath).1 = none ∧
      ∃ m, initialModel readFile unmarshal height filepath = some m ∧
        m.err = some e ∧ m.sepaData = none ∧
        ∀ (flag : Bool) (text : GoString),
          View render { m with copied := flag, copyMsg := text } =
            str "Error: " ++ e ++ str "\n\nPress 'q' to quit.") := by
  have h4 : ∀ e, (ParseSEPAFile readFile unmarshal filepath).2 = some e →
      (ParseSEPAFile readFile unmarshal filepath).1 = none ∧
      ∃ m, initialModel readFile unmarshal height filepath = some m ∧
        m.err = some e ∧ m.sepaData = none ∧
        ∀ (flag : Bool) (text : GoString),
          View render { m with copied := flag, copyMsg := text } =
            str "Error: " ++ e ++ str "\n\nPress 'q' to quit." := by
    intro e he
    rcases initialModel_cases readFile unmarshal height filepath with ⟨e2, hp, h⟩ | ⟨doc, hp, h⟩
    · rw [hp] at he ⊢
      simp only [Option.some.injEq] at he
      subst he
      exact ⟨rfl, _, h, rfl, rfl, fun _ _ => rfl⟩
    · rw [hp] at he
      exact absurd he (by simp)
  refine ⟨?_, ?_, ?_, h4⟩
  · intro cause h
    have hp : ParseSEPAFile readFile unmarshal filepath =
        (none, some (str "failed to read file: " ++ cause)) := by simp [ParseSEPAFile, h]
    exact ⟨hp, (h4 _ (by rw [hp])).2⟩
  · intro data cause h1 h2
    have hp : ParseSEPAFile readFile unmarshal filepath =
        (none, some (str "failed to parse XML: " ++ cause)) := by
      simp [ParseSEPAFile, h1, h2]
    exact ⟨hp, (h4 _ (by rw [hp])).2⟩
  · intro data doc h1 h2
    simp [ParseSEPAFile, h1, h2]

/-- Witness of C14: a file that cannot be read. -/
theorem c14_parse_fails_or_succeeds_witness :
    ParseSEPAFile (fun _ => .error (str "no such file")) (fun _ => .ok zeroDocument)
      (str "a.xml") = (none, some (str "failed to read file: " ++ str "no such file")) :=
  ((c14_parse_fails_or_succeeds (fun _ => .error (str "no such file"))
    (fun _ => .ok zeroDocument) 19 (str "a.xml") (fun _ => [])).1 (str "no such file") rfl).1

/-! ## Properties of the session: frame and cursor -/

theorem clamp_range (v : Int) (n : Nat) (hn : 1 ≤ n) :
    0 ≤ clamp v 0 ((n : Int) - 1) ∧ clamp v 0 ((n : Int) - 1) ≤ (n : Int) - 1 := by
  unfold clamp
  omega

theorem tableKey_frame (t : Table) (k : GoString) :
    (t.UpdateKey k).rows = t.rows ∧ (t.UpdateKey k).KeyMap = t.KeyMap ∧
    (t.UpdateKey k).focus = t.focus ∧ (t.UpdateKey k).height = t.height ∧
    ((t.UpdateKey k).cursor = t.cursor ∨
      ∃ v, (t.UpdateKey k).cursor = clamp v 0 ((t.rows.length : Int) - 1)) := by
  unfold Table.UpdateKey
  split
  · exact ⟨rfl, rfl, rfl, rfl, Or.inr ⟨_, rfl⟩⟩
  split
  · exact ⟨rfl, rfl, rfl, rfl, Or.inr ⟨_, rfl⟩⟩
  split
  · exact ⟨rfl, rfl, rfl, rfl, Or.inr ⟨_, rfl⟩⟩
  split
  · exact ⟨rfl, rfl, rfl, rfl, Or.inr ⟨_, rfl⟩⟩
  split
  · exact ⟨rfl, rfl, rfl, rfl, Or.inr ⟨_, rfl⟩⟩
  split
  · exact ⟨rfl, rfl, rfl, rfl, Or.inr ⟨_, rfl⟩⟩
  split
  · exact ⟨rfl, rfl, rfl, rfl, Or.inr ⟨_, rfl⟩⟩
  split
  · exact ⟨rfl, rfl, rfl, rfl, Or.inr ⟨_, rfl⟩⟩
  · exact ⟨rfl, rfl, rfl, rfl, Or.inl rfl⟩

theorem table_update_frame (t : Table) (msg : Msg) :
    (t.Update msg).1.rows = t.rows ∧ (t.Update msg).1.KeyMap = t.KeyMap ∧
    (t.Update msg).1.focus = t.focus ∧ (t.Update msg).1.height = t.height ∧
    ((t.Update msg).1.cursor = t.cursor ∨
      ∃ v, (t.Update msg).1.cursor = clamp v 0 ((t.rows.length : Int) - 1)) := by
  by_cases hf : t.focus = true
  · cases msg with
    | key k =>
      have e : (t.Update (.key k)).1 = t.UpdateKey k := by simp [Table.Update, hf]
      rw [e]
      exact tableKey_frame t k
    | copyMsg v s e =>
      have e : (t.Update (.copyMsg v s e)).1 = t := by simp [Table.Update, hf]
      rw [e]
      exact ⟨rfl, rfl, rfl, rfl, Or.inl rfl⟩
    | clearCopyMsg =>
      have e : (t.Update .clearCopyMsg).1 = t := by simp [Table.Update, hf]
      rw [e]
      exact ⟨rfl, rfl, rfl, rfl, Or.inl rfl⟩
    | other =>
      have e : (t.Update .other).1 = t := by simp [Table.Update, hf]
      rw [e]
      exact ⟨rfl, rfl, rfl, rfl, Or.inl rfl⟩
  · have e : (t.Update msg).1 = t := by simp [Table.Update, hf]
    rw [e]
    exact ⟨rfl, rfl, rfl, rfl, Or.inl rfl⟩

/-- What one step of `Update` can do to a state: leave it, change the
notification, or hand the message to the table. -/
theorem update_shape (m : model) (msg : Msg) (r : model × Cmd) (h : Update m msg = some r) :
    r.1 = m ∨ (∃ flag text, r.1 = { m with copied := flag, copyMsg := text }) ∨
    (∃ flag text, r.1 = { m with copied := flag, copyMsg := text,
                                 table := (m.table.Update msg).1 }) := by
  cases msg with
  | key k =>
    simp only [Update] at h
    split at h
    · cases h; exact Or.inl rfl
    · split at h
      · split at h
        · split at h
          · split at h
            · split at h
              · exact absurd h (by simp)
              · cases h; exact Or.inl rfl
            · cases h; exact Or.inr (Or.inr ⟨m.copied, m.copyMsg, rfl⟩)
          · cases h; exact Or.inr (Or.inr ⟨m.copied, m.copyMsg, rfl⟩)
        · cases h; exact Or.inr (Or.inr ⟨m.copied, m.copyMsg, rfl⟩)
      · cases h; exact Or.inr (Or.inr ⟨m.copied, m.copyMsg, rfl⟩)
  | copyMsg v s e =>
    rw [update_copyMsg] at h
    cases h
    exact Or.inr (Or.inl ⟨_, _, rfl⟩)
  | clearCopyMsg =>
    rw [update_clearCopyMsg] at h
    cases h
    exact Or.inr (Or.inl ⟨_, _, rfl⟩)
  | other =>
    simp only [Update] at h
    cases h
    exact Or.inr (Or.inr ⟨m.copied, m.copyMsg, rfl⟩)

theorem update_frame (m : model) (msg : Msg) (r : model × Cmd) (h : Update m msg = some r) :
    r.1.sepaData = m.sepaData ∧ r.1.err = m.err ∧ r.1.keys = m.keys ∧
    r.1.table.rows = m.table.rows ∧ r.1.table.KeyMap = m.table.KeyMap ∧
    r.1.table.focus = m.table.focus ∧ r.1.table.height = m.table.height ∧
    (r.1.table.cursor = m.table.cursor ∨
      ∃ v, r.1.table.cursor = clamp v 0 ((m.table.rows.length : Int) - 1)) := by
  have ht := table_update_frame m.table msg
  rcases update_shape m msg r h with h1 | ⟨_, _, h1⟩ | ⟨_, _, h1⟩
  · rw [h1]; exact ⟨rfl, rfl, rfl, rfl, rfl, rfl, rfl, Or.inl rfl⟩
  · rw [h1]; exact ⟨rfl, rfl, rfl, rfl, rfl, rfl, rfl, Or.inl rfl⟩
  · rw [h1]; exact ⟨rfl, rfl, rfl, ht.1, ht.2.1, ht.2.2.1, ht.2.2.2.1, ht.2.2.2.2⟩

theorem update_total (m : model) (msg : Msg)
    (hc : 0 ≤ m.table.Cursor ∨ m.sepaData = none) : ∃ r, Update m msg = some r := by
  cases msg with
  | key k =>
    simp only [Update]
    split
    · exact ⟨_, rfl⟩
    · split
      · split
        · split
          · split
            · rename_i d _ _ hlt
              have hidx : ∃ f, index d.Fields m.table.Cursor = some f := by
                rcases hc with h0 | h0
                · have hn : m.table.Cursor = ((m.table.Cursor.toNat : Nat) : Int) := by omega
                  have hl : m.table.Cursor.toNat < d.Fields.length := by omega
                  rw [hn, index_of_lt d.Fields _ hl]
                  exact ⟨_, rfl⟩
                · simp_all
              obtain ⟨f, hf⟩ := hidx
              simp only [hf]
              exact ⟨_, rfl⟩
            · exact ⟨_, rfl⟩
          · exact ⟨_, rfl⟩
        · exact ⟨_, rfl⟩
      · exact ⟨_, rfl⟩
  | copyMsg v s e => exact ⟨_, update_copyMsg m v s e⟩
  | clearCopyMsg => exact ⟨_, update_clearCopyMsg m⟩
  | other => exact ⟨_, rfl⟩

theorem updates_frame (msgs : List Msg) :
    ∀ (m m2 : model), updates m msgs = some m2 →
      m2.sepaData = m.sepaData ∧ m2.err = m.err ∧ m2.keys = m.keys := by
  induction msgs with
  | nil =>
    intro m m2 h
    simp only [updates, Option.some.injEq] at h
    subst h
    exact ⟨rfl, rfl, rfl⟩
  | cons msg rest ih =>
    intro m m2 h
    simp only [updates] at h
    cases hu : Update m msg with
    | none => simp [hu] at h
    | some r =>
      simp only [hu] at h
      have h1 := update_frame m msg r hu
      have h2 := ih r.1 m2 h
      exact ⟨h2.1.trans h1.1, h2.2.1.trans h1.2.1, h2.2.2.trans h1.2.2.1⟩

/-- C15: the field sequence is immutable: whatever the session state and the
message (a key, a clipboard completion, the timer fire or any other), the
state `Update` returns has the same field data (so the same length and the
same category, name and value at every index) and the same parse error, and
so has every state later in the run; `Update` does return a state unless the
cursor is below zero. -/
theorem c15_fields_immutable (m : model) (msg : Msg) (r : model × Cmd)
    (h : Update m msg = some r) :
    r.1.sepaData = m.sepaData ∧ r.1.err = m.err ∧
    (∀ (msgs : List Msg) (m2 : model), updates m msgs = some m2 →
      m2.sepaData = m.sepaData ∧ m2.err = m.err) ∧
    (∀ (m1 : model) (msg1 : Msg), 0 ≤ m1.table.Cursor → ∃ r1, Update m1 msg1 = some r1) := by
  have h1 := update_frame m msg r h
  exact ⟨h1.1, h1.2.1, fun msgs m2 h2 => ⟨(updates_frame msgs m m2 h2).1,
    (updates_frame msgs m m2 h2).2.1⟩, fun m1 msg1 hc => update_total m1 msg1 (Or.inl hc)⟩

/-- Witness of C15: the key `j` in the session of a document without leaves. -/
theorem c15_fields_immutable_witness :
    ∃ r, Update readyModel (.key (str "j")) = some r ∧ r.1.sepaData = readyModel.sepaData := by
  obtain ⟨r, hr⟩ := update_total readyModel (.key (str "j")) (Or.inl (by decide))
  exact ⟨r, hr, (c15_fields_immutable readyModel (.key (str "j")) r hr).1⟩

theorem update_copy_at (m : model) (k : GoString) (d : SEPAData) (i : Nat)
    (hkeys : m.keys = keys) (hk : k = str "c" ∨ k = str "ctrl+c")
    (hdata : m.sepaData = some d) (hi : i < d.Fields.length)
    (hcur : m.table.Cursor = (i : Int)) :
    Update m (.key k) = some (m, .copyToClipboard (d.Fields.get ⟨i, hi⟩).Value) := by
  obtain ⟨hq, hc⟩ := matches_copy k hk
  have hpos : d.Fields.length > 0 := by omega
  have hlt : (i : Int) < (d.Fields.length : Int) := by omega
  simp only [Update, hkeys, hq, hc, hdata, hpos, hcur, hlt, index_of_lt d.Fields i hi,
    if_true, Bool.false_eq_true, if_false]

theorem convert_length (doc : Document) : (convertToSEPAData doc).Fields.length = 26 := by
  simp [convertToSEPAData]

theorem inv_init (readFile : GoString → Except GoString GoString)
    (unmarshal : GoString → Except GoString Document) (height : Int) (filepath : GoString)
    (m0 : model) (hinit : initialModel readFile unmarshal height filepath = some m0)
    (hok : m0.err = none) : SessionInv m0 ∧ m0.table.Cursor = 0 := by
  rcases initialModel_cases readFile unmarshal height filepath with ⟨e, _, h⟩ | ⟨doc, _, h⟩
  · rw [h] at hinit
    cases hinit
    exact absurd hok (by simp)
  · rw [h] at hinit
    cases hinit
    refine ⟨⟨rfl, rfl, ?_, ?_, rfl, rfl, ?_, ?_⟩, rfl⟩
    · simp [convert_length]
    · simp [Table.New, convert_length]
    · simp [Table.New]
    · simp [Table.New]

theorem inv_step (m : model) (msg : Msg) (r : model × Cmd) (hinv : SessionInv m)
    (h : Update m msg = some r) : SessionInv r.1 := by
  obtain ⟨i1, i2, i3, i4, i5, i6, i7, i8⟩ := hinv
  obtain ⟨f1, f2, f3, f4, f5, f6, _, f8⟩ := update_frame m msg r h
  refine ⟨f3.trans i1, f2.trans i2, by rw [f1]; exact i3, by rw [f4]; exact i4,
    f6.trans i5, f5.trans i6, ?_, ?_⟩
  · rcases f8 with e | ⟨v, e⟩
    · rw [e]; exact i7
    · rw [e, i4]; exact (clamp_range v 26 (by norm_num)).1
  · rcases f8 with e | ⟨v, e⟩
    · rw [e]; exact i8
    · rw [e, i4]
      have := (clamp_range v 26 (by norm_num)).2
      omega

theorem inv_run (msgs : List Msg) :
    ∀ m : model, SessionInv m → ∃ m2, updates m msgs = some m2 ∧ SessionInv m2 := by
  induction msgs with
  | nil => intro m hinv; exact ⟨m, rfl, hinv⟩
  | cons msg rest ih =>
    intro m hinv
    obtain ⟨r, hr⟩ := update_total m msg (Or.inl hinv.2.2.2.2.2.2.1)
    obtain ⟨m2, h2, hinv2⟩ := ih r.1 (inv_step m msg r hinv hr)
    exact ⟨m2, by simp only [updates, hr, h2], hinv2⟩

theorem update_up_at_top (m : model) (hinv : SessionInv m) (hc : m.table.Cursor = 0) :
    Update m (.key (str "up")) = some (m, .nil) := by
  obtain ⟨i1, i2, i3, i4, i5, i6, i7, i8⟩ := hinv
  have hq : Matches (str "up") m.keys.Quit = false := by rw [i1]; decide
  have hcp : Matches (str "up") m.keys.Copy = false := by rw [i1]; decide
  have hm : m.table.matches (str "up") (·.LineUp) = true := by
    simp only [Table.matches, i6]; decide
  have ht : m.table.UpdateKey (str "up") = m.table := by
    simp only [Table.UpdateKey, hm, if_true, Table.MoveUp, clamp]
    simp only [Table.Cursor] at hc
    rw [hc, i4]
    cases hmt : m.table
    rw [hmt] at hc
    simp only at hc
    subst hc
    rfl
  simp only [Update, hq, hcp, Bool.false_eq_true, if_false, updateTable, Table.Update, i5,
    Bool.not_true, ht]

theorem update_down_at_bottom (m : model) (hinv : SessionInv m) (hc : m.table.Cursor = 25) :
    Update m (.key (str "down")) = some (m, .nil) := by
  obtain ⟨i1, i2, i3, i4, i5, i6, i7, i8⟩ := hinv
  have hq : Matches (str "down") m.keys.Quit = false := by rw [i1]; decide
  have hcp : Matches (str "down") m.keys.Copy = false := by rw [i1]; decide
  have hm1 : m.table.matches (str "down") (·.LineUp) = false := by
    simp only [Table.matches, i6]; decide
  have hm : m.table.matches (str "down") (·.LineDown) = true := by
    simp only [Table.matches, i6]; decide
  have ht : m.table.UpdateKey (str "down") = m.table := by
    simp only [Table.UpdateKey, hm1, hm, Bool.false_eq_true, if_false, if_true, Table.MoveDown,
      clamp]
    simp only [Table.Cursor] at hc
    rw [hc, i4]
    cases hmt : m.table
    rw [hmt] at hc
    simp only at hc
    subst hc
    rfl
  simp only [Update, hq, hcp, Bool.false_eq_true, if_false, updateTable, Table.Update, i5,
    Bool.not_true, ht]

theorem tableKey_lineUp (t : Table) (h : t.KeyMap = some DefaultKeyMap) (k : GoString)
    (hk : k = str "up" ∨ k = str "k") : t.UpdateKey k = t.MoveUp 1 := by
  cases t with
  | mk km rows c f hgt =>
    simp only at h
    subst h
    rcases hk with rfl | rfl <;> rfl

theorem tableKey_lineDown (t : Table) (h : t.KeyMap = some DefaultKeyMap) (k : GoString)
    (hk : k = str "down" ∨ k = str "j") : t.UpdateKey k = t.MoveDown 1 := by
  cases t with
  | mk km rows c f hgt =>
    simp only at h
    subst h
    rcases hk with rfl | rfl <;> rfl

theorem tableKey_pageUp (t : Table) (h : t.KeyMap = some DefaultKeyMap) (k : GoString)
    (hk : k = str "b" ∨ k = str "pgup") : t.UpdateKey k = t.MoveUp t.height := by
  cases t with
  | mk km rows c f hgt =>
    simp only at h
    subst h
    rcases hk with rfl | rfl <;> rfl

theorem tableKey_pageDown (t : Table) (h : t.KeyMap = some DefaultKeyMap) (k : GoString)
    (hk : k = str "f" ∨ k = str "pgdown" ∨ k = str " ") : t.UpdateKey k = t.MoveDown t.height := by
  cases t with
  | mk km rows c f hgt =>
    simp only at h
    subst h
    rcases hk with rfl | rfl | rfl <;> rfl

theorem tableKey_halfPageUp (t : Table) (h : t.KeyMap = some DefaultKeyMap) (k : GoString)
    (hk : k = str "u" ∨ k = str "ctrl+u") : t.UpdateKey k = t.MoveUp (Int.tdiv t.height 2) := by
  cases t with
  | mk km rows c f hgt =>
    simp only at h
    subst h
    rcases hk with rfl | rfl <;> rfl

theorem tableKey_halfPageDown (t : Table) (h : t.KeyMap = some DefaultKeyMap) (k : GoString)
    (hk : k = str "d" ∨ k = str "ctrl+d") :
    t.UpdateKey k = t.MoveDown (Int.tdiv t.height 2) := by
  cases t with
  | mk km rows c f hgt =>
    simp only at h
    subst h
    rcases hk with rfl | rfl <;> rfl

theorem tableKey_gotoTop (t : Table) (h : t.KeyMap = some DefaultKeyMap) (k : GoString)
    (hk : k = str "home" ∨ k = str "g") : t.UpdateKey k = t.MoveUp t.cursor := by
  cases t with
  | mk km rows c f hgt =>
    simp only at h
    subst h
    rcases hk with rfl | rfl <;> rfl

theorem tableKey_gotoBottom (t : Table) (h : t.KeyMap = some DefaultKeyMap) (k : GoString)
    (hk : k = str "end" ∨ k = str "G") : t.UpdateKey k = t.MoveDown (t.rows.length : Int) := by
  cases t with
  | mk km rows c f hgt =>
    simp only at h
    subst h
    rcases hk with rfl | rfl <;> rfl

theorem update_to_table (m : model) (hinv : SessionInv m) (k : GoString)
    (hq : Matches k keys.Quit = false) (hc : Matches k keys.Copy = false) :
    Update m (.key k) = some ({ m with table := m.table.UpdateKey k }, .nil) := by
  obtain ⟨i1, i2, i3, i4, i5, i6, i7, i8⟩ := hinv
  simp only [Update, i1, hq, hc, Bool.false_eq_true, if_false, updateTable, Table.Update, i5,
    Bool.not_true]

theorem moveUp_bounds (t : Table) (n : Int) (hn : 0 ≤ n) (hrows : t.rows.length = 26)
    (h0 : 0 ≤ t.cursor) (h1 : t.cursor ≤ 25) :
    0 ≤ (t.MoveUp n).cursor ∧ (t.MoveUp n).cursor ≤ t.cursor ∧
    (t.MoveUp n).cursor = max (t.cursor - n) 0 ∧ (t.cursor = 0 → t.MoveUp n = t) := by
  cases t with
  | mk km rows c f hgt =>
    simp only at hrows h0 h1
    simp only [Table.MoveUp, clamp, hrows]
    refine ⟨by omega, by omega, by omega, ?_⟩
    intro hc
    subst hc
    have e : min (max (0 - n) 0) (((26 : Nat) : Int) - 1) = 0 := by omega
    rw [e]

theorem moveDown_bounds (t : Table) (n : Int) (hn : 0 ≤ n) (hrows : t.rows.length = 26)
    (h0 : 0 ≤ t.cursor) (h1 : t.cursor ≤ 25) :
    t.cursor ≤ (t.MoveDown n).cursor ∧ (t.MoveDown n).cursor ≤ 25 ∧
    (t.MoveDown n).cursor = min (t.cursor + n) 25 ∧ (t.cursor = 25 → t.MoveDown n = t) := by
  cases t with
  | mk km rows c f hgt =>
    simp only at hrows h0 h1
    simp only [Table.MoveDown, clamp, hrows]
    refine ⟨by omega, by omega, by omega, ?_⟩
    intro hc
    subst hc
    have e : min (max (25 + n) 0) (((26 : Nat) : Int) - 1) = 25 := by omega
    rw [e]


theorem updates_height (msgs : List Msg) :
    ∀ (m m2 : model), updates m msgs = some m2 → m2.table.height = m.table.height := by
  induction msgs with
  | nil =>
    intro m m2 h
    simp only [updates, Option.some.injEq] at h
    subst h
    rfl
  | cons msg rest ih =>
    intro m m2 h
    simp only [updates] at h
    cases hu : Update m msg with
    | none => simp [hu] at h
    | some r =>
      simp only [hu] at h
      have h1 := update_frame m msg r hu
      exact (ih r.1 m2 h).trans h1.2.2.2.2.2.2.1

theorem update_move_up (m : model) (hinv : SessionInv m) (k : GoString)
    (hk : k = str "up" ∨ k = str "k" ∨ k = str "home" ∨ k = str "g" ∨
      (0 ≤ m.table.height ∧ (k = str "b" ∨ k = str "pgup" ∨ k = str "u" ∨ k = str "ctrl+u"))) :
    ∃ m2, Update m (.key k) = some (m2, .nil) ∧
      0 ≤ m2.table.Cursor ∧ m2.table.Cursor ≤ m.table.Cursor ∧
      (m.table.Cursor = 0 → m2 = m) ∧
      ((k = str "up" ∨ k = str "k") → m2.table.Cursor = max (m.table.Cursor - 1) 0) := by
  have hinv2 := hinv
  obtain ⟨i1, i2, i3, i4, i5, i6, i7, i8⟩ := hinv
  have hq : Matches k keys.Quit = false := by
    rcases hk with rfl | rfl | rfl | rfl | ⟨_, rfl | rfl | rfl | rfl⟩ <;> decide
  have hc : Matches k keys.Copy = false := by
    rcases hk with rfl | rfl | rfl | rfl | ⟨_, rfl | rfl | rfl | rfl⟩ <;> decide
  have hu := update_to_table m hinv2 k hq hc
  have hn : ∃ n, 0 ≤ n ∧ m.table.UpdateKey k = m.table.MoveUp n ∧
      ((k = str "up" ∨ k = str "k") → n = 1) := by
    rcases hk with h | h | h | h | ⟨hh, h | h | h | h⟩
    · exact ⟨1, by decide, tableKey_lineUp _ i6 k (Or.inl h), fun _ => rfl⟩
    · exact ⟨1, by decide, tableKey_lineUp _ i6 k (Or.inr h), fun _ => rfl⟩
    · exact ⟨_, i7, tableKey_gotoTop _ i6 k (Or.inl h), fun h2 => absurd h2 (by subst h; decide)⟩
    · exact ⟨_, i7, tableKey_gotoTop _ i6 k (Or.inr h), fun h2 => absurd h2 (by subst h; decide)⟩
    · exact ⟨_, hh, tableKey_pageUp _ i6 k (Or.inl h), fun h2 => absurd h2 (by subst h; decide)⟩
    · exact ⟨_, hh, tableKey_pageUp _ i6 k (Or.inr h), fun h2 => absurd h2 (by subst h; decide)⟩
    · exact ⟨_, Int.tdiv_nonneg hh (by decide), tableKey_halfPageUp _ i6 k (Or.inl h),
        fun h2 => absurd h2 (by subst h; decide)⟩
    · exact ⟨_, Int.tdiv_nonneg hh (by decide), tableKey_halfPageUp _ i6 k (Or.inr h),
        fun h2 => absurd h2 (by subst h; decide)⟩
  obtain ⟨n, hn0, hn1, hn2⟩ := hn
  obtain ⟨b1, b2, b3, b4⟩ := moveUp_bounds m.table n hn0 i4 i7 i8
  rw [hn1] at hu
  refine ⟨_, hu, b1, b2, ?_, ?_⟩
  · intro h0
    rw [b4 h0]
  · intro hl
    have h1 := hn2 hl
    subst h1
    exact b3

theorem update_move_down (m : model) (hinv : SessionInv m) (k : GoString)
    (hk : k = str "down" ∨ k = str "j" ∨ k = str "end" ∨ k = str "G" ∨
      (0 ≤ m.table.height ∧
        (k = str "f" ∨ k = str "pgdown" ∨ k = str " " ∨ k = str "d" ∨ k = str "ctrl+d"))) :
    ∃ m2, Update m (.key k) = some (m2, .nil) ∧
      m.table.Cursor ≤ m2.table.Cursor ∧ m2.table.Cursor ≤ 25 ∧
      (m.table.Cursor = 25 → m2 = m) ∧
      ((k = str "down" ∨ k = str "j") → m2.table.Cursor = min (m.table.Cursor + 1) 25) := by
  have hinv2 := hinv
  obtain ⟨i1, i2, i3, i4, i5, i6, i7, i8⟩ := hinv
  have hq : Matches k keys.Quit = false := by
    rcases hk with rfl | rfl | rfl | rfl | ⟨_, rfl | rfl | rfl | rfl | rfl⟩ <;> decide
  have hc : Matches k keys.Copy = false := by
    rcases hk with rfl | rfl | rfl | rfl | ⟨_, rfl | rfl | rfl | rfl | rfl⟩ <;> decide
  have hu := update_to_table m hinv2 k hq hc
  have hn : ∃ n, 0 ≤ n ∧ m.table.UpdateKey k = m.table.MoveDown n ∧
      ((k = str "down" ∨ k = str "j") → n = 1) := by
    rcases hk with h | h | h | h | ⟨hh, h | h | h | h | h⟩
    · exact ⟨1, by decide, tableKey_lineDown _ i6 k (Or.inl h), fun _ => rfl⟩
    · exact ⟨1, by decide, tableKey_lineDown _ i6 k (Or.inr h), fun _ => rfl⟩
    · exact ⟨_, by omega, tableKey_gotoBottom _ i6 k (Or.inl h),
        fun h2 => absurd h2 (by subst h; decide)⟩
    · exact ⟨_, by omega, tableKey_gotoBottom _ i6 k (Or.inr h),
        fun h2 => absurd h2 (by subst h; decide)⟩
    · exact ⟨_, hh, tableKey_pageDown _ i6 k (Or.inl h), fun h2 => absurd h2 (by subst h; decide)⟩
    · exact ⟨_, hh, tableKey_pageDown _ i6 k (Or.inr (Or.inl h)),
        fun h2 => absurd h2 (by subst h; decide)⟩
    · exact ⟨_, hh, tableKey_pageDown _ i6 k (Or.inr (Or.inr h)),
        fun h2 => absurd h2 (by subst h; decide)⟩
    · exact ⟨_, Int.tdiv_nonneg hh (by decide), tableKey_halfPageDown _ i6 k (Or.inl h),
        fun h2 => absurd h2 (by subst h; decide)⟩
    · exact ⟨_, Int.tdiv_nonneg hh (by decide), tableKey_halfPageDown _ i6 k (Or.inr h),
        fun h2 => absurd h2 (by subst h; decide)⟩
  obtain ⟨n, hn0, hn1, hn2⟩ := hn
  obtain ⟨b1, b2, b3, b4⟩ := moveDown_bounds m.table n hn0 i4 i7 i8
  rw [hn1] at hu
  refine ⟨_, hu, b1, b2, ?_, ?_⟩
  · intro h0
    rw [b4 h0]
  · intro hl
    have h1 := hn2 hl
    subst h1
    exact b3


/-- C16 (counterexample): the session of a successful parse has 26 rows, not
23, and its cursor leaves the range of 23 rows: after the key `G` it is on
row 25. -/
theorem c16_cursor_beyond_23_rows :
    initialModel (fun _ => .ok []) (fun _ => .ok zeroDocument) 19 (str "a.xml") =
      some readyModel ∧
    readyModel.sepaData.map (fun d => d.Fields.length) = some 26 ∧
    (updates readyModel [.key (str "G")]).map (fun m => m.table.Cursor) = some 25 ∧
    ¬ ((25 : Int) ≤ 23 - 1) := by
  refine ⟨rfl, by decide, by decide, by decide⟩

/-- C16 (amended): starting from the state `initialModel` builds on a
successful parse (26 rows, cursor 0), after every finite sequence of messages
the session has not panicked and the cursor satisfies
`0 ≤ cursor ≤ len(Fields) - 1` with `len(Fields) = 26`. In that state every key
that navigates up (`up`, `k`, `home`, `g`, and the page keys `b`, `pgup`, `u`,
`ctrl+u` when the viewport height is not negative) is handled without a
command, moves the cursor to a row that is not below the old one and not above
row 0, and on the first row leaves the state as it is; `up` and `k` move
it to `max (cursor - 1) 0`. Every key that navigates down (`down`, `j`, `end`,
`G`, and the page keys `f`, `pgdown`, space, `d`, `ctrl+d`) moves the cursor to
a row that is not above the old one and not below the last row, and on the last
row leaves the state as it is; `down` and `j` move it to
`min (cursor + 1) (len(Fields) - 1)`. A copy key reads `Fields` at the cursor,
inside the range. -/
theorem c16_cursor_in_range (readFile : GoString → Except GoString GoString)
    (unmarshal : GoString → Except GoString Document) (height : Int) (filepath : GoString)
    (m0 : model) (msgs : List Msg)
    (hinit : initialModel readFile unmarshal height filepath = some m0) (hok : m0.err = none) :
    m0.table.Cursor = 0 ∧
    ∃ m d, updates m0 msgs = some m ∧ m.sepaData = some d ∧ d.Fields.length = 26 ∧
      0 ≤ m.table.Cursor ∧ m.table.Cursor ≤ (d.Fields.length : Int) - 1 ∧
      (m.table.Cursor = 0 → Update m (.key (str "up")) = some (m, .nil)) ∧
      (m.table.Cursor = (d.Fields.length : Int) - 1 →
        Update m (.key (str "down")) = some (m, .nil)) ∧
      (∀ k, (k = str "c" ∨ k = str "ctrl+c") →
        ∃ f, index d.Fields m.table.Cursor = some f ∧
          Update m (.key k) = some (m, .copyToClipboard f.Value)) ∧
      (∀ k, (k = str "up" ∨ k = str "k" ∨ k = str "home" ∨ k = str "g" ∨
          (0 ≤ height ∧ (k = str "b" ∨ k = str "pgup" ∨ k = str "u" ∨ k = str "ctrl+u"))) →
        ∃ m2, Update m (.key k) = some (m2, .nil) ∧
          0 ≤ m2.table.Cursor ∧ m2.table.Cursor ≤ m.table.Cursor ∧
          (m.table.Cursor = 0 → m2 = m) ∧
          ((k = str "up" ∨ k = str "k") → m2.table.Cursor = max (m.table.Cursor - 1) 0)) ∧
      (∀ k, (k = str "down" ∨ k = str "j" ∨ k = str "end" ∨ k = str "G" ∨
          (0 ≤ height ∧ (k = str "f" ∨ k = str "pgdown" ∨ k = str " " ∨ k = str "d" ∨
            k = str "ctrl+d"))) →
        ∃ m2, Update m (.key k) = some (m2, .nil) ∧
          m.table.Cursor ≤ m2.table.Cursor ∧ m2.table.Cursor ≤ (d.Fields.length : Int) - 1 ∧
          (m.table.Cursor = (d.Fields.length : Int) - 1 → m2 = m) ∧
          ((k = str "down" ∨ k = str "j") →
            m2.table.Cursor = min (m.table.Cursor + 1) ((d.Fields.length : Int) - 1))) := by
  obtain ⟨hinv0, hc0⟩ := inv_init readFile unmarshal height filepath m0 hinit hok
  obtain ⟨m, hrun, hinv⟩ := inv_run msgs m0 hinv0
  have hh0 : m0.table.height = height := by
    rcases initialModel_cases readFile unmarshal height filepath with ⟨e, _, h⟩ | ⟨doc, _, h⟩
    · rw [h] at hinit
      cases hinit
      exact absurd hok (by simp)
    · rw [h] at hinit
      cases hinit
      rfl
  have hh : m.table.height = height := (updates_height msgs m0 m hrun).trans hh0
  have hinv2 := hinv
  obtain ⟨i1, i2, i3, i4, i5, i6, i7, i8⟩ := hinv
  cases hd : m.sepaData with
  | none => rw [hd] at i3; exact absurd i3 (by simp)
  | some d =>
    rw [hd] at i3
    simp only [Option.map_some', Option.some.injEq] at i3
    have hlast : (d.Fields.length : Int) - 1 = 25 := by omega
    refine ⟨hc0, m, d, hrun, hd, i3, i7, ?_, update_up_at_top m hinv2, ?_, ?_, ?_, ?_⟩
    · simp only [Table.Cursor]; omega
    · intro hc
      exact update_down_at_bottom m hinv2 (by rw [hc, i3]; rfl)
    · intro k hk
      have hn : m.table.Cursor = ((m.table.Cursor.toNat : Nat) : Int) := by
        simp only [Table.Cursor]; omega
      have hl : m.table.Cursor.toNat < d.Fields.length := by
        simp only [Table.Cursor]; omega
      have h7 := update_copy_at m k d m.table.Cursor.toNat i1 hk hd hl hn
      have hidx := index_of_lt d.Fields m.table.Cursor.toNat hl
      rw [← hn] at hidx
      exact ⟨d.Fields.get ⟨m.table.Cursor.toNat, hl⟩, hidx, h7⟩
    · intro k hk
      rw [← hh] at hk
      exact update_move_up m hinv2 k hk
    · intro k hk
      rw [← hh] at hk
      rw [hlast]
      exact update_move_down m hinv2 k hk

/-- Witness of C16: the session of a document without leaves after the keys
`j` and `G`, and then the key `j` on the last row. -/
theorem c16_cursor_in_range_witness :
    ∃ m d, updates readyModel [.key (str "j"), .key (str "G")] = some m ∧
      m.sepaData = some d ∧ 0 ≤ m.table.Cursor ∧ m.table.Cursor ≤ (d.Fields.length : Int) - 1 ∧
      ∃ m2, Update m (.key (str "j")) = some (m2, .nil) ∧
        (m.table.Cursor = (d.Fields.length : Int) - 1 → m2 = m) := by
  obtain ⟨_, m, d, h1, h2, _, h4, h5, _, _, _, _, h10⟩ :=
    c16_cursor_in_range (fun _ => .ok []) (fun _ => .ok zeroDocument) 19 (str "a.xml")
      readyModel [.key (str "j"), .key (str "G")] rfl rfl
  obtain ⟨m2, g1, _, _, g4, _⟩ := h10 (str "j") (Or.inr (Or.inl rfl))
  exact ⟨m, d, h1, h2, h4, h5, m2, g1, g4⟩

/-! ## Properties of truncation, idempotence and the session invariant -/

theorem str_copied_length : (str "Copied: ").length = 8 := by decide

/-- C17: for every byte string `s` and every length `n ≥ 3`,
`truncateString(s, n)` does not slice out of range; its result has
`min(len(s), n)` bytes, is `s` itself when `len(s) ≤ n`, and otherwise is the
first `n-3` bytes of `s` followed by `...`; so a success notification,
`Copied: ` and the value truncated to 40, has at most 48 bytes. For `n < 3`
and `len(s) > n` the slice bound `n-3` is negative and the slice panics. -/
theorem c17_truncate_bytes (s : GoString) (n : Int) (hn : 3 ≤ n) :
    ∃ r, truncateString s n = some r ∧
      (r.length : Int) = min (s.length : Int) n ∧
      ((s.length : Int) ≤ n → r = s) ∧
      (n < (s.length : Int) → r = s.take (n - 3).toNat ++ str "...") ∧
      (∀ v : GoString, ∃ shown, truncateString v 40 = some shown ∧
        (str "Copied: " ++ shown).length ≤ 48) ∧
      (∀ (t : GoString) (k : Int), k < 3 → k < (t.length : Int) → truncateString t k = none) := by
  have tail : (∀ v : GoString, ∃ shown, truncateString v 40 = some shown ∧
        (str "Copied: " ++ shown).length ≤ 48) ∧
      (∀ (t : GoString) (k : Int), k < 3 → k < (t.length : Int) → truncateString t k = none) := by
    constructor
    · intro v
      refine ⟨_, truncateString_40 v, ?_⟩
      rw [List.length_append, str_copied_length]
      by_cases h : v.length ≤ 40
      · rw [if_pos h]; omega
      · rw [if_neg h, List.length_append, List.length_take, str_ellipsis]
        simp only [List.length_cons, List.length_nil]
        omega
    · intro t k hk hl
      have h1 : ¬ ((t.length : Int) ≤ k) := by omega
      have h2 : ¬ ((0 : Int) ≤ k - 3 ∧ k - 3 ≤ (t.length : Int)) := by omega
      simp only [truncateString, sliceTo, h1, h2, if_false]
  by_cases h : (s.length : Int) ≤ n
  · refine ⟨s, by simp [truncateString, h], by omega, fun _ => rfl, fun h2 => absurd h (by omega),
      tail⟩
  · have h2 : (0 : Int) ≤ n - 3 ∧ n - 3 ≤ (s.length : Int) := by omega
    refine ⟨s.take (n - 3).toNat ++ str "...", by simp only [truncateString, sliceTo, h, h2,
      and_self, if_true, if_false], ?_, fun h3 => absurd h3 h, fun _ => rfl, tail⟩
    rw [List.length_append, List.length_take, str_ellipsis]
    simp only [List.length_cons, List.length_nil]
    omega

/-- Witness of C17: a value of three bytes and the length 40. -/
theorem c17_truncate_bytes_witness :
    ∃ r, truncateString (str "abc") 40 = some r ∧ (r.length : Int) = min 3 40 := by
  obtain ⟨r, h1, h2, _⟩ := c17_truncate_bytes (str "abc") 40 (by decide)
  exact ⟨r, h1, h2⟩

theorem formatDateTime_not_lenient (u : GoString) (hu : isLenientDateTime u = false) :
    formatDateTime u = u := by
  unfold formatDateTime
  cases hp : Parse u with
  | none => rfl
  | some t =>
    have := Parse_inv u t hp
    rw [hu] at this
    exact absurd this (by simp)

/-- C18: `formatDateTime` is idempotent: applied to its own result it returns
that result. A value that was reformatted has a space at index 10, where the
layout requires `T`, so it is not accepted by the parser again and is passed
through unchanged the second time. -/
theorem c18_formatDateTime_idempotent (s : GoString) :
    formatDateTime (formatDateTime s) = formatDateTime s ∧
    (formatDateTime s ≠ s →
      (formatDateTime s).get? 10 = some 32 ∧ Parse (formatDateTime s) = none) := by
  have key : isLenientDateTime s = true →
      (formatDateTime s).get? 10 = some 32 ∧ isLenientDateTime (formatDateTime s) = false := by
    intro hl
    have h1 := (formatDateTime_lenient s hl).2.2.1
    refine ⟨h1, ?_⟩
    cases h2 : isLenientDateTime (formatDateTime s) with
    | false => rfl
    | true =>
      have h3 := (formatDateTime_lenient (formatDateTime s) h2).2.2.2.1
      rw [h1] at h3
      exact absurd h3 (by decide)
  cases hl : isLenientDateTime s with
  | false =>
    have e := formatDateTime_not_lenient s hl
    refine ⟨by rw [e, e], fun hne => absurd e hne⟩
  | true =>
    obtain ⟨h1, h2⟩ := key hl
    refine ⟨formatDateTime_not_lenient _ h2, fun _ => ⟨h1, ?_⟩⟩
    cases hp : Parse (formatDateTime s) with
    | none => rfl
    | some t =>
      have := Parse_inv _ t hp
      rw [h2] at this
      exact absurd this (by simp)

/-- Witness of C18: the creation time of the example document. -/
theorem c18_formatDateTime_idempotent_witness :
    formatDateTime (formatDateTime (str "2024-03-15T10:30:00")) = str "2024-03-15 10:30:00" ∧
    Parse (formatDateTime (str "2024-03-15T10:30:00")) = none :=
  ⟨(c18_formatDateTime_idempotent (str "2024-03-15T10:30:00")).1.trans (by decide),
   ((c18_formatDateTime_idempotent (str "2024-03-15T10:30:00")).2 (by decide)).2⟩

theorem parseInv_init (readFile : GoString → Except GoString GoString)
    (unmarshal : GoString → Except GoString Document) (height : Int) (filepath : GoString) :
    ∃ m0, initialModel readFile unmarshal height filepath = some m0 ∧ ParseInv m0 ∧
      ((∃ e, (ParseSEPAFile readFile unmarshal filepath).2 = some e ∧ m0.err = some e ∧
          m0.sepaData = none) ∨
       (∃ doc, (ParseSEPAFile readFile unmarshal filepath) = (some (convertToSEPAData doc), none) ∧
          m0.err = none ∧ m0.sepaData = some (convertToSEPAData doc))) := by
  rcases initialModel_cases readFile unmarshal height filepath with ⟨e, hp, h⟩ | ⟨doc, hp, h⟩
  · refine ⟨_, h, ⟨rfl, fun d hd => by cases hd⟩, Or.inl ⟨e, by rw [hp], rfl, rfl⟩⟩
  · refine ⟨_, h, ⟨rfl, ?_⟩, Or.inr ⟨doc, hp, rfl, rfl⟩⟩
    intro d hd
    simp only [Option.some.injEq] at hd
    subst hd
    exact convert_length doc

theorem parseInv_step (m : model) (msg : Msg) (r : model × Cmd) (hinv : ParseInv m)
    (h : Update m msg = some r) : ParseInv r.1 := by
  obtain ⟨f1, f2, _⟩ := update_frame m msg r h
  unfold ParseInv
  rw [f1, f2]
  exact hinv

theorem parseInv_run (msgs : List Msg) :
    ∀ m m2 : model, ParseInv m → updates m msgs = some m2 → ParseInv m2 := by
  intro m m2 hinv h
  obtain ⟨f1, f2, _⟩ := updates_frame msgs m m2 h
  unfold ParseInv
  rw [f1, f2]
  exact hinv

/-- C19 (counterexample): a reachable state, the session of a document
without leaves after one key, has field data of 26 fields, not 23. -/
theorem c19_reachable_state_has_26_fields :
    (updates readyModel [.key (str "j")]).map
      (fun m => (m.err.isSome, m.sepaData.map (fun d => d.Fields.length))) =
        some (false, some 26) ∧
    (26 : Nat) ≠ 23 := by
  decide

/-- C19 (amended): every session state reachable from `initialModel`
satisfies: exactly one of the parse error and the field data is present, and
field data, when present, has exactly 26 fields. `initialModel` returns a
state and establishes this for both outcomes of the parse, every step of
`Update` preserves it, and so it holds after every run. -/
theorem c19_error_xor_data (readFile : GoString → Except GoString GoString)
    (unmarshal : GoString → Except GoString Document) (height : Int) (filepath : GoString) :
    ∃ m0, initialModel readFile unmarshal height filepath = some m0 ∧ ParseInv m0 ∧
      ((∃ e, (ParseSEPAFile readFile unmarshal filepath).2 = some e ∧ m0.err = some e ∧
          m0.sepaData = none) ∨
       (∃ doc, (ParseSEPAFile readFile unmarshal filepath) = (some (convertToSEPAData doc), none) ∧
          m0.err = none ∧ m0.sepaData = some (convertToSEPAData doc))) ∧
      (∀ (m : model) (msg : Msg) (r : model × Cmd), ParseInv m → Update m msg = some r →
        ParseInv r.1) ∧
      (∀ (msgs : List Msg), ∃ m, updates m0 msgs = some m ∧ ParseInv m) := by
  obtain ⟨m0, h0, hinv, hcase⟩ := parseInv_init readFile unmarshal height filepath
  refine ⟨m0, h0, hinv, hcase, parseInv_step, ?_⟩
  intro msgs
  have htot : ∀ (l : List Msg) (m : model), (0 ≤ m.table.Cursor ∨ m.sepaData = none) →
      (m.sepaData ≠ none → SessionInv m) → ∃ m2, updates m l = some m2 := by
    intro l
    induction l with
    | nil => intro m _ _; exact ⟨m, rfl⟩
    | cons msg rest ih =>
      intro m hc hs
      obtain ⟨r, hr⟩ := update_total m msg hc
      have hf := update_frame m msg r hr
      have hs2 : r.1.sepaData ≠ none → SessionInv r.1 := by
        intro hne
        exact inv_step m msg r (hs (by rw [← hf.1]; exact hne)) hr
      have hc2 : 0 ≤ r.1.table.Cursor ∨ r.1.sepaData = none := by
        by_cases hn : r.1.sepaData = none
        · exact Or.inr hn
        · exact Or.inl (hs2 hn).2.2.2.2.2.2.1
      obtain ⟨m2, h2⟩ := ih r.1 hc2 hs2
      exact ⟨m2, by simp only [updates, hr, h2]⟩
  have hstart : (0 ≤ m0.table.Cursor ∨ m0.sepaData = none) ∧ (m0.sepaData ≠ none → SessionInv m0) := by
    rcases hcase with ⟨e, _, _, hn⟩ | ⟨doc, _, he, _⟩
    · exact ⟨Or.inr hn, fun hne => absurd hn hne⟩
    · have := inv_init readFile unmarshal height filepath m0 h0 he
      exact ⟨Or.inl this.1.2.2.2.2.2.2.1, fun _ => this.1⟩
  obtain ⟨m2, h2⟩ := htot msgs m0 hstart.1 hstart.2
  exact ⟨m2, h2, parseInv_run msgs m0 m2 hinv h2⟩

/-- Witness of C19: the session after a failure to read the file. -/
theorem c19_error_xor_data_witness :
    ∃ m0, initialModel (fun _ => .error (str "no such file")) (fun _ => .ok zeroDocument) 19
        (str "a.xml") = some m0 ∧ ParseInv m0 := by
  obtain ⟨m0, h0, hinv, _⟩ := c19_error_xor_data (fun _ => .error (str "no such file"))
    (fun _ => .ok zeroDocument) 19 (str "a.xml")
  exact ⟨m0, h0, hinv⟩

end Sepatui
